import Mathlib

/-!
# auPNG (`src/upng.c`): header, chunk scanner, frame assembly, scanline reconstruction

A shallow embedding of the decoder in `upng.c` and theorems about it.

Platform conventions of the embedding (the usual LP64 little-endian targets):
* `unsigned char` is a `Byte = Fin 256`; a value stored into one is reduced modulo 256;
* `unsigned` / `unsigned int` values are naturals reduced modulo `2^32` (`u32`);
* `unsigned long` values are naturals reduced modulo `2^64` (`u64`);
* `int` is a 32-bit two's complement integer (`toInt32`);
* an object read through a raw pointer (`&stated_sequence`) is assembled little-endian;
* `UPNG_MEM_ALLOC` never fails and returns a non-null block, also for size 0.

Behaviour that C leaves undefined (an access outside an allocated block, a call through a
null function pointer) is reported as a `Fault`, as is an exhausted iteration budget.
-/

namespace AuPNG

/-! ## Machine arithmetic -/

/-- An `unsigned char`. -/
abbrev Byte := Fin 256

/-- Store of an integer value into an `unsigned char`. -/
def toByte (n : Nat) : Byte := ⟨n % 256, Nat.mod_lt n (by decide)⟩

/-- Reduction of a value to `unsigned int` (32 bits). -/
def u32 (n : Nat) : Nat := n % 4294967296

/-- Reduction of a value to `unsigned long` (64 bits). -/
def u64 (n : Nat) : Nat := n % 18446744073709551616

/-- The `int` whose 32-bit two's complement pattern is `n mod 2^32`. -/
def toInt32 (n : Nat) : Int :=
  if n % 4294967296 < 2147483648 then ((n % 4294967296 : Nat) : Int)
  else ((n % 4294967296 : Nat) : Int) - 4294967296

/-- Conversion of an `int` to `unsigned int`. -/
def intToU32 (z : Int) : Nat := (z % 4294967296).toNat

/-- Conversion of an `int` to `unsigned long` (sign extension, then reduction mod `2^64`). -/
def intToU64 (z : Int) : Nat := (z % 18446744073709551616).toNat

/-- Conversion of an `int` to `unsigned char`. -/
def intToByte (z : Int) : Byte := toByte (z % 256).toNat

def INT_MAX : Nat := 2147483647

def UINT_MAX : Nat := 4294967295

/-- The macro `FRAME_INDEX_NONE`. -/
def FRAME_INDEX_NONE : Nat := UINT_MAX

/-- The macro `MAKE_BYTE(b)`: `(b) & 0xFF`. -/
def MAKE_BYTE (b : Nat) : Nat := b &&& 0xFF

/-- The macro `MAKE_WORD(a, b)`, an `int`. -/
def MAKE_WORD (a b : Nat) : Int := toInt32 ((MAKE_BYTE a <<< 8) ||| MAKE_BYTE b)

/-- The macro `MAKE_DWORD(a, b, c, d)`, an `int`: the shift of the top byte lands in the
sign bit, so the result is the two's complement reading of the 32-bit pattern. -/
def MAKE_DWORD (a b c d : Nat) : Int :=
  toInt32 ((MAKE_BYTE a <<< 24) ||| (MAKE_BYTE b <<< 16) ||| (MAKE_BYTE c <<< 8) ||| MAKE_BYTE d)

/-- The element `p[i]` of a byte array held as a list, promoted to an integer. -/
def byteAt (p : List Byte) (i : Nat) : Nat := (p.getD i 0).val

/-- The macro `MAKE_WORD_PTR(p + off)`. -/
def MAKE_WORD_PTR (p : List Byte) (off : Nat) : Int :=
  MAKE_WORD (byteAt p off) (byteAt p (off + 1))

/-- The macro `MAKE_DWORD_PTR(p + off)`. -/
def MAKE_DWORD_PTR (p : List Byte) (off : Nat) : Int :=
  MAKE_DWORD (byteAt p off) (byteAt p (off + 1)) (byteAt p (off + 2)) (byteAt p (off + 3))

/-- A character constant, an `int` in C. -/
def ch (c : Char) : Nat := c.toNat

def CHUNK_IHDR : Int := MAKE_DWORD (ch 'I') (ch 'H') (ch 'D') (ch 'R')
def CHUNK_IDAT : Int := MAKE_DWORD (ch 'I') (ch 'D') (ch 'A') (ch 'T')
def CHUNK_TEXT : Int := MAKE_DWORD (ch 't') (ch 'E') (ch 'X') (ch 't')
def CHUNK_tRNS : Int := MAKE_DWORD (ch 't') (ch 'R') (ch 'N') (ch 'S')
def CHUNK_PLTE : Int := MAKE_DWORD (ch 'P') (ch 'L') (ch 'T') (ch 'E')
def CHUNK_OFFS : Int := MAKE_DWORD (ch 'o') (ch 'F') (ch 'F') (ch 's')
def CHUNK_IEND : Int := MAKE_DWORD (ch 'I') (ch 'E') (ch 'N') (ch 'D')
def CHUNK_ACTL : Int := MAKE_DWORD (ch 'a') (ch 'c') (ch 'T') (ch 'L')
def CHUNK_FCTL : Int := MAKE_DWORD (ch 'f') (ch 'c') (ch 'T') (ch 'L')
def CHUNK_FDAT : Int := MAKE_DWORD (ch 'f') (ch 'd') (ch 'A') (ch 'T')

/-- The macro `upng_chunk_length(chunk)`. -/
def upng_chunk_length (chunk : List Byte) : Int := MAKE_DWORD_PTR chunk 0

/-- The macro `upng_chunk_type(chunk)`. -/
def upng_chunk_type (chunk : List Byte) : Int := MAKE_DWORD_PTR chunk 4

/-- The macro `upng_chunk_data(chunk)`, applied in the source to a chunk offset. -/
def upng_chunk_data (chunk : Nat) : Nat := u64 (chunk + 8)

/-- The macro `upng_chunk_critical(chunk)`: `((chunk)[4] & 32) == 0`. -/
def upng_chunk_critical (chunk : List Byte) : Bool := (byteAt chunk 4 &&& 32) == 0

/-! ## Data model -/

/-- Undefined behaviour and non-termination, kept apart from the decoder's own errors. -/
inductive Fault where
  | out_of_bounds
  | null_call
  | out_of_fuel
  deriving DecidableEq, Repr

/-- Modelled from the spec: the enumeration `upng_error` of `upng.h` (error codes exposed
to callers, section 6). -/
inductive upng_error where
  | UPNG_EOK
  | UPNG_ENOMEM
  | UPNG_EREAD
  | UPNG_ENOTFOUND
  | UPNG_ENOTPNG
  | UPNG_EMALFORMED
  | UPNG_EUNFORMAT
  | UPNG_EUNINTERLACED
  | UPNG_EUNSUPPORTED
  deriving DecidableEq, Repr

/-- Modelled from the spec: the enumeration `upng_format` of `upng.h`, with the enumerators
that `determine_format` returns. -/
inductive upng_format where
  | UPNG_BADFORMAT
  | UPNG_INDEXED1
  | UPNG_INDEXED2
  | UPNG_INDEXED4
  | UPNG_INDEXED8
  | UPNG_LUMINANCE1
  | UPNG_LUMINANCE2
  | UPNG_LUMINANCE4
  | UPNG_LUMINANCE8
  | UPNG_RGB8
  | UPNG_RGB16
  | UPNG_LUMINANCE_ALPHA1
  | UPNG_LUMINANCE_ALPHA2
  | UPNG_LUMINANCE_ALPHA4
  | UPNG_LUMINANCE_ALPHA8
  | UPNG_RGBA8
  | UPNG_RGBA16
  deriving DecidableEq, Repr

inductive upng_state where
  | UPNG_ERROR
  | UPNG_DECODED
  | UPNG_HEADER
  | UPNG_NEW
  deriving DecidableEq, Repr

def UPNG_LUM : Nat := 0
def UPNG_RGB : Nat := 2
def UPNG_PLT : Nat := 3
def UPNG_LUMA : Nat := 4
def UPNG_RGBA : Nat := 6

def UPNG_DISPOSE_OP_NONE : Nat := 0
def UPNG_LAST_DISPOSE_OP : Nat := 2
def UPNG_BLEND_OP_SOURCE : Nat := 0
def UPNG_LAST_BLEND_OP : Nat := 1

structure upng_frame where
  width : Nat
  height : Nat
  offset_x : Nat
  offset_y : Nat
  delay_numerator : Nat
  delay_denominator : Nat
  dispose_op : Nat
  blend_op : Nat
  data_chunk_offset : Nat
  compressed_size : Nat
  deriving DecidableEq, Repr

/-- A frame as `memset` to zero leaves it. -/
def upng_frame.zero : upng_frame := ⟨0, 0, 0, 0, 0, 0, 0, 0, 0, 0⟩

/-- A text entry: the owned buffer, and the two pointers into it as offsets from its start
(`none` while the pointer has not been assigned). -/
structure upng_text where
  buffer : List Byte
  keyword : Option Nat
  text : Option Nat
  deriving DecidableEq, Repr

/-- A slot of the `text` array that was never written. -/
def upng_text.unset : upng_text := ⟨[], none, none⟩

/-- The context of the in-memory byte source; its `size` is the length of the buffer. -/
structure upng_byte_source_context where
  buffer : List Byte
  deriving DecidableEq, Repr

def upng_byte_source_context.size (context : upng_byte_source_context) : Nat :=
  context.buffer.length

/-- The record `upng_source` for the byte source: `user` is the context and `read`, `free`
are `upng_byte_source_read`, `upng_byte_source_free`; `user = none` is the record after
`memset` to zero, whose four fields are all null. -/
structure upng_source where
  user : Option upng_byte_source_context
  size : Nat
  deriving DecidableEq, Repr

/-- Memory holding pixel data, addressed by byte offset. -/
abbrev Mem := Nat → Byte

structure upng_t where
  width : Nat
  height : Nat
  x_offset : Int
  y_offset : Int
  palette : Option (List Byte)
  palette_entries : Nat
  alpha : Option (List Byte)
  alpha_entries : Nat
  color_type : Nat
  color_depth : Nat
  format : upng_format
  buffer : Option Mem
  size : Nat
  play_count : Nat
  frame_count : Nat
  frames : Option (List upng_frame)
  text : List upng_text
  text_count : Nat
  error : upng_error
  error_line : Nat
  state : upng_state
  source : upng_source
  current_frame : Nat

/-- The macro `SET_ERROR(upng, code)`, expanded on source line `line`. -/
def SET_ERROR (upng : upng_t) (code : upng_error) (line : Nat) : upng_t :=
  { upng with error := code, error_line := line }

/-! ## Scanline reconstruction -/

/-- Paeth predicter, used by PNG filter type 4. -/
def paeth_predictor (a b c : Int) : Int :=
  let p := a + b - c
  let pa := if p > a then p - a else a - p
  let pb := if p > b then p - b else b - p
  let pc := if p > c then p - c else c - p
  if pa ≤ pb ∧ pa ≤ pc then a
  else if pb ≤ pc then b
  else c

/-- The assignment `mem[addr] = v`. -/
def store (mem : Mem) (addr : Nat) (v : Byte) : Mem :=
  fun x => if x = addr then v else mem x

/-- Runs `body i` for `count` consecutive values of `i`, starting at `i`. -/
def forLoop {σ : Type} (body : Nat → σ → σ) : Nat → Nat → σ → σ
  | 0, _, s => s
  | count + 1, i, s => forLoop body count (i + 1) (body i s)

/-- The loop `for (i = start; i < stop; i++) body`. -/
def forRange {σ : Type} (start stop : Nat) (body : Nat → σ → σ) (s : σ) : σ :=
  forLoop body (stop - start) start s

/-- The function `unfilter_scanline`; `recon`, `scanline` and `precon` are addresses in
`mem`, `precon = none` is the null pointer. -/
def unfilter_scanline (upng : upng_t) (mem : Mem) (recon scanline : Nat) (precon : Option Nat)
    (bytewidth filterType length : Nat) : upng_t × Mem :=
  match filterType with
  | 0 =>
    (upng, forRange 0 length (fun i m => store m (recon + i) (m (scanline + i))) mem)
  | 1 =>
    let m1 := forRange 0 bytewidth (fun i m => store m (recon + i) (m (scanline + i))) mem
    (upng, forRange bytewidth length (fun i m => store m (recon + i)
      (toByte ((m (scanline + i)).val + (m (recon + (i - bytewidth))).val))) m1)
  | 2 =>
    match precon with
    | some precon =>
      (upng, forRange 0 length (fun i m => store m (recon + i)
        (toByte ((m (scanline + i)).val + (m (precon + i)).val))) mem)
    | none =>
      (upng, forRange 0 length (fun i m => store m (recon + i) (m (scanline + i))) mem)
  | 3 =>
    match precon with
    | some precon =>
      let m1 := forRange 0 bytewidth (fun i m => store m (recon + i)
        (toByte ((m (scanline + i)).val + (m (precon + i)).val / 2))) mem
      (upng, forRange bytewidth length (fun i m => store m (recon + i)
        (toByte ((m (scanline + i)).val +
          ((m (recon + (i - bytewidth))).val + (m (precon + i)).val) / 2))) m1)
    | none =>
      let m1 := forRange 0 bytewidth (fun i m => store m (recon + i) (m (scanline + i))) mem
      (upng, forRange bytewidth length (fun i m => store m (recon + i)
        (toByte ((m (scanline + i)).val + (m (recon + (i - bytewidth))).val / 2))) m1)
  | 4 =>
    match precon with
    | some precon =>
      let m1 := forRange 0 bytewidth (fun i m => store m (recon + i)
        (intToByte ((m (scanline + i)).val + paeth_predictor 0 (m (precon + i)).val 0))) mem
      (upng, forRange bytewidth length (fun i m => store m (recon + i)
        (intToByte ((m (scanline + i)).val +
          paeth_predictor (m (recon + (i - bytewidth))).val (m (precon + i)).val
            (m (precon + (i - bytewidth))).val))) m1)
    | none =>
      let m1 := forRange 0 bytewidth (fun i m => store m (recon + i) (m (scanline + i))) mem
      (upng, forRange bytewidth length (fun i m => store m (recon + i)
        (intToByte ((m (scanline + i)).val +
          paeth_predictor (m (recon + (i - bytewidth))).val 0 0))) m1)
  | _ => (SET_ERROR upng .UPNG_EMALFORMED 257, mem)

/-- The row loop of `unfilter`: `count` rows remain, `y` is the current row. -/
def unfilter_rows (out inp bytewidth linebytes : Nat) :
    Nat → Nat → Option Nat → upng_t → Mem → upng_t × Mem
  | 0, _, _, upng, mem => (upng, mem)
  | count + 1, y, prevline, upng, mem =>
    let outindex := u64 (linebytes * y)
    let inindex := u64 ((1 + linebytes) * y)
    let filterType := (mem (inp + inindex)).val
    let r := unfilter_scanline upng mem (out + outindex) (inp + inindex + 1) prevline
      bytewidth filterType linebytes
    if r.1.error ≠ .UPNG_EOK then r
    else unfilter_rows out inp bytewidth linebytes count (y + 1) (some (out + outindex)) r.1 r.2

/-- The function `unfilter`; `out` and `inp` are addresses in `mem`, and `w`, `h`, `bpp`
are `unsigned` values. -/
def unfilter (upng : upng_t) (mem : Mem) (out inp : Nat) (w h bpp : Nat) : upng_t × Mem :=
  let bytewidth := u32 (bpp + 7) / 8
  let linebytes := u32 (u32 (w * bpp) + 7) / 8
  unfilter_rows out inp bytewidth linebytes h 0 none upng mem

/-! ## Construction -/

/-- The function `upng_new_from_source`; the ten slots of `text` start out unwritten. -/
def upng_new_from_source (source : upng_source) : upng_t :=
  { width := 0, height := 0, x_offset := 0, y_offset := 0,
    palette := none, palette_entries := 0, alpha := none, alpha_entries := 0,
    color_type := UPNG_RGBA, color_depth := 8, format := .UPNG_RGBA8,
    buffer := none, size := 0, play_count := 0, frame_count := 0, frames := none,
    text := List.replicate 10 upng_text.unset, text_count := 0,
    error := .UPNG_EOK, error_line := 0, state := .UPNG_NEW,
    source := source, current_frame := 0 }

/-- The function `upng_new_from_bytes`: the buffer and its size are one list. -/
def upng_new_from_bytes (raw_buffer : List Byte) : upng_t :=
  upng_new_from_source { user := some { buffer := raw_buffer }, size := raw_buffer.length }

/-! ## Byte source -/

/-- The function `upng_byte_source_read`: the bytes copied into `out_buffer`, whose number
is the value returned. A copy that would run past the end of the context buffer (possible
only when `offset + read_size` wraps) is a fault. -/
def upng_byte_source_read (context : upng_byte_source_context) (offset read_size : Nat) :
    Except Fault (List Byte) :=
  if offset ≥ context.size then .ok []
  else
    let bytes_to_copy :=
      if u64 (offset + read_size) > context.size then context.size - offset else read_size
    if offset + bytes_to_copy > context.size then .error .out_of_bounds
    else .ok ((context.buffer.drop offset).take bytes_to_copy)

/-- The call `upng->source.read(upng->source.user, offset, out, read_size)`. -/
def source_read (source : upng_source) (offset read_size : Nat) : Except Fault (List Byte) :=
  match source.user with
  | none => .error .null_call
  | some context => upng_byte_source_read context offset read_size

/-! ## Header and chunk scanner -/

/-- The function `determine_format`: the outer `switch` on the colour type and the inner
ones on the depth, each `default` last. -/
def determine_format (upng : upng_t) : upng_format :=
  if upng.color_type = UPNG_PLT then
    if upng.color_depth = 1 then .UPNG_INDEXED1
    else if upng.color_depth = 2 then .UPNG_INDEXED2
    else if upng.color_depth = 4 then .UPNG_INDEXED4
    else if upng.color_depth = 8 then .UPNG_INDEXED8
    else .UPNG_BADFORMAT
  else if upng.color_type = UPNG_LUM then
    if upng.color_depth = 1 then .UPNG_LUMINANCE1
    else if upng.color_depth = 2 then .UPNG_LUMINANCE2
    else if upng.color_depth = 4 then .UPNG_LUMINANCE4
    else if upng.color_depth = 8 then .UPNG_LUMINANCE8
    else .UPNG_BADFORMAT
  else if upng.color_type = UPNG_RGB then
    if upng.color_depth = 8 then .UPNG_RGB8
    else if upng.color_depth = 16 then .UPNG_RGB16
    else .UPNG_BADFORMAT
  else if upng.color_type = UPNG_LUMA then
    if upng.color_depth = 1 then .UPNG_LUMINANCE_ALPHA1
    else if upng.color_depth = 2 then .UPNG_LUMINANCE_ALPHA2
    else if upng.color_depth = 4 then .UPNG_LUMINANCE_ALPHA4
    else if upng.color_depth = 8 then .UPNG_LUMINANCE_ALPHA8
    else .UPNG_BADFORMAT
  else if upng.color_type = UPNG_RGBA then
    if upng.color_depth = 8 then .UPNG_RGBA8
    else if upng.color_depth = 16 then .UPNG_RGBA16
    else .UPNG_BADFORMAT
  else .UPNG_BADFORMAT

/-- The function `upng_setup_for_single_image` (the allocation does not fail). -/
def upng_setup_for_single_image (upng : upng_t) : upng_t :=
  { upng with
    frames := some [{ width := upng.width, height := upng.height, offset_x := 0, offset_y := 0,
                      delay_numerator := 0, delay_denominator := 0,
                      dispose_op := UPNG_DISPOSE_OP_NONE, blend_op := UPNG_BLEND_OP_SOURCE,
                      compressed_size := 0, data_chunk_offset := 0 }],
    frame_count := 1, play_count := 0 }

/-- How the handling of one chunk leaves the loop body of `upng_process_chunks`. -/
inductive Branch where
  /-- Falls through to `chunk_offset += length + 12`. -/
  | next (upng : upng_t) (cur_frame_index : Nat)
  /-- The statement `break`. -/
  | brk (upng : upng_t)
  /-- A `return upng->error`, as in `CHECK_RET`. -/
  | ret (upng : upng_t)

/-- The two statements that account a data chunk to `frame`. -/
def account_data_chunk (frame : upng_frame) (chunk_offset length : Nat) : upng_frame :=
  let frame := { frame with compressed_size := u64 (frame.compressed_size + length) }
  if frame.data_chunk_offset = 0 then { frame with data_chunk_offset := chunk_offset }
  else frame

/-- Accounts a data chunk to `upng->frames[index]`; the frame table must exist and hold
that index. -/
def account_to_frame (upng : upng_t) (index chunk_offset length cur_frame_index : Nat) :
    Except Fault Branch :=
  match upng.frames with
  | none => .error .out_of_bounds
  | some frames =>
    if ¬ (index < frames.length) then .error .out_of_bounds
    else
      let frame := frames.getD index upng_frame.zero
      let frames := frames.set index (account_data_chunk frame chunk_offset length)
      .ok (.next { upng with frames := some frames } cur_frame_index)

/-- The `CHUNK_IDAT` branch of `upng_process_chunks`. -/
def process_IDAT (upng : upng_t) (chunk_offset length cur_frame_index : Nat) :
    Except Fault Branch :=
  if ¬ (cur_frame_index = FRAME_INDEX_NONE ∨ cur_frame_index = 0) then
    .ok (.ret (SET_ERROR upng .UPNG_EMALFORMED 490))
  else if upng.frames.isNone then
    if (upng_setup_for_single_image upng).error ≠ .UPNG_EOK then
      .ok (.ret (upng_setup_for_single_image upng))
    else
      account_to_frame (upng_setup_for_single_image upng)
        (if cur_frame_index = FRAME_INDEX_NONE then 0 else cur_frame_index)
        chunk_offset length cur_frame_index
  else
    account_to_frame upng (if cur_frame_index = FRAME_INDEX_NONE then 0 else cur_frame_index)
      chunk_offset length cur_frame_index

/-- The `CHUNK_FDAT` branch of `upng_process_chunks`. -/
def process_FDAT (upng : upng_t) (chunk_offset length cur_frame_index : Nat) :
    Except Fault Branch :=
  if upng.frames.isNone then .ok (.ret (SET_ERROR upng .UPNG_EMALFORMED 510))
  else account_to_frame upng cur_frame_index chunk_offset length cur_frame_index

/-- The `CHUNK_ACTL` branch of `upng_process_chunks` (the allocation does not fail). -/
def process_ACTL (upng : upng_t) (chunk_data_offset cur_frame_index : Nat) :
    Except Fault Branch :=
  if ¬ upng.frames.isNone then .ok (.ret (SET_ERROR upng .UPNG_EMALFORMED 520))
  else
    (source_read upng.source chunk_data_offset 8).bind fun data =>
      if data.length ≠ 8 then .ok (.ret (SET_ERROR upng .UPNG_EREAD 523))
      else
        .ok (.next { upng with
          frame_count := intToU32 (MAKE_DWORD_PTR data 0),
          play_count := intToU32 (MAKE_DWORD_PTR data 0),
          frames := some (List.replicate (intToU32 (MAKE_DWORD_PTR data 0)) upng_frame.zero) }
          cur_frame_index)

/-- Conversion of an `int` to `unsigned short`. -/
def intToU16 (z : Int) : Nat := (z % 65536).toNat

/-- The frame that the `CHUNK_FCTL` branch builds from the 26 bytes of the chunk. -/
def fctl_frame (frame : upng_frame) (data : List Byte) : upng_frame :=
  { frame with
    width := intToU32 (MAKE_DWORD_PTR data 4),
    height := intToU32 (MAKE_DWORD_PTR data 8),
    offset_x := intToU32 (MAKE_DWORD_PTR data 12),
    offset_y := intToU32 (MAKE_DWORD_PTR data 16),
    delay_numerator := intToU16 (MAKE_WORD_PTR data 20),
    delay_denominator := intToU16 (MAKE_WORD_PTR data 22),
    dispose_op := byteAt data 24,
    blend_op := byteAt data 25,
    compressed_size := 0 }

/-- The part of the `CHUNK_FCTL` branch after the sequence checks: the frame at the new
`cur_frame_index` is filled in and then validated. -/
def process_FCTL_frame (upng : upng_t) (frames : List upng_frame) (data : List Byte)
    (cur_frame_index : Nat) : Except Fault Branch :=
  if ¬ (cur_frame_index < frames.length) then .error .out_of_bounds
  else
    let frame := fctl_frame (frames.getD cur_frame_index upng_frame.zero) data
    let upng := { upng with frames := some (frames.set cur_frame_index frame) }
    if ¬ (frame.width > 0 ∧ frame.height > 0) then
      .ok (.ret (SET_ERROR upng .UPNG_EMALFORMED 560))
    else if ¬ (u32 (frame.offset_x + frame.width) ≤ upng.width) then
      .ok (.ret (SET_ERROR upng .UPNG_EMALFORMED 561))
    else if ¬ (u32 (frame.offset_y + frame.height) ≤ upng.height) then
      .ok (.ret (SET_ERROR upng .UPNG_EMALFORMED 562))
    else if ¬ (frame.dispose_op ≤ UPNG_LAST_DISPOSE_OP) then
      .ok (.ret (SET_ERROR upng .UPNG_EUNSUPPORTED 563))
    else if ¬ (frame.blend_op ≤ UPNG_LAST_BLEND_OP) then
      .ok (.ret (SET_ERROR upng .UPNG_EUNSUPPORTED 564))
    else .ok (.next upng cur_frame_index)

/-- The `CHUNK_FCTL` branch of `upng_process_chunks`. -/
def process_FCTL (upng : upng_t) (chunk_data_offset cur_frame_index : Nat) :
    Except Fault Branch :=
  match upng.frames with
  | none => .ok (.ret (SET_ERROR upng .UPNG_EUNSUPPORTED 536))
  | some frames =>
    (source_read upng.source chunk_data_offset 26).bind fun data =>
      if data.length ≠ 26 then .ok (.ret (SET_ERROR upng .UPNG_EREAD 539))
      else if ¬ (intToU32 (MAKE_DWORD_PTR data 0) = u32 (cur_frame_index + 1)) then
        .ok (.ret (SET_ERROR upng .UPNG_EMALFORMED 543))
      else if ¬ (intToU32 (MAKE_DWORD_PTR data 0) < upng.frame_count) then
        .ok (.ret (SET_ERROR upng .UPNG_EMALFORMED 544))
      else process_FCTL_frame upng frames data (u32 (cur_frame_index + 1))

/-- The `CHUNK_OFFS` branch of `upng_process_chunks`. -/
def process_OFFS (upng : upng_t) (chunk_data_offset cur_frame_index : Nat) :
    Except Fault Branch :=
  (source_read upng.source chunk_data_offset 8).bind fun data =>
    if data.length ≠ 8 then .ok (.ret (SET_ERROR upng .UPNG_EREAD 569))
    else
      .ok (.next { upng with
        x_offset := MAKE_DWORD_PTR data 0,
        y_offset := MAKE_DWORD_PTR data 4 } cur_frame_index)

/-- The `CHUNK_PLTE` branch of `upng_process_chunks`; `palette_entries` is an
`unsigned char`, and the new block holds what the read copied. -/
def process_PLTE (upng : upng_t) (chunk_data_offset length cur_frame_index : Nat) :
    Except Fault Branch :=
  (source_read upng.source chunk_data_offset length).bind fun bytes =>
    if bytes.length ≠ length then
      .ok (.ret (SET_ERROR { upng with
        palette_entries := (toByte (length / 3)).val, palette := some bytes } .UPNG_EREAD 584))
    else
      .ok (.next { upng with
        palette_entries := (toByte (length / 3)).val, palette := some bytes } cur_frame_index)

/-- The `CHUNK_tRNS` branch of `upng_process_chunks`; `alpha_entries` is an
`unsigned char`, and the new block holds what the read copied. -/
def process_tRNS (upng : upng_t) (chunk_data_offset length cur_frame_index : Nat) :
    Except Fault Branch :=
  (source_read upng.source chunk_data_offset length).bind fun bytes =>
    if bytes.length ≠ length then
      .ok (.ret (SET_ERROR { upng with
        alpha_entries := (toByte length).val, alpha := some bytes } .UPNG_EREAD 596))
    else
      .ok (.next { upng with
        alpha_entries := (toByte length).val, alpha := some bytes } cur_frame_index)

/-- The decoder after `text[text_count].buffer` has received the bytes of the payload. -/
def text_buffer_set (upng : upng_t) (bytes : List Byte) : upng_t :=
  let slot := upng.text.getD upng.text_count upng_text.unset
  { upng with text := upng.text.set upng.text_count { slot with buffer := bytes } }

/-- The decoder after a text entry has been completed: keyword at the start of the buffer,
text after the first NUL, a NUL stored after the payload, and `text_count` incremented. -/
def text_entry_set (upng : upng_t) (bytes : List Byte) : upng_t :=
  let entry : upng_text :=
    { buffer := bytes ++ [0], keyword := some 0, text := some (bytes.indexOf 0 + 1) }
  { upng with
    text := upng.text.set upng.text_count entry,
    text_count := u32 (upng.text_count + 1) }

/-- The `CHUNK_TEXT` branch of `upng_process_chunks`. The array `text` has ten slots; the
slot at `text_count` receives its buffer before the payload is read and checked, and
`memchr` finds the first NUL of the payload. -/
def process_TEXT (upng : upng_t) (chunk_data_offset length cur_frame_index : Nat) :
    Except Fault Branch :=
  if ¬ (upng.text_count < 10) then .error .out_of_bounds
  else
    (source_read upng.source chunk_data_offset length).bind fun bytes =>
      if bytes.length ≠ length then
        .ok (.ret (SET_ERROR (text_buffer_set upng bytes) .UPNG_EREAD 603))
      else if ¬ ((0 : Byte) ∈ bytes) then
        .ok (.ret (SET_ERROR (text_buffer_set upng bytes) .UPNG_EMALFORMED 607))
      else .ok (.next (text_entry_set upng bytes) cur_frame_index)

/-- The chain of comparisons on the chunk type in `upng_process_chunks`. -/
def process_chunk_type (upng : upng_t) (chunk_header : List Byte)
    (chunk_offset chunk_data_offset length cur_frame_index : Nat) : Except Fault Branch :=
  if upng_chunk_type chunk_header = CHUNK_IDAT then
    process_IDAT upng chunk_offset length cur_frame_index
  else if upng_chunk_type chunk_header = CHUNK_FDAT then
    process_FDAT upng chunk_offset length cur_frame_index
  else if upng_chunk_type chunk_header = CHUNK_ACTL then
    process_ACTL upng chunk_data_offset cur_frame_index
  else if upng_chunk_type chunk_header = CHUNK_FCTL then
    process_FCTL upng chunk_data_offset cur_frame_index
  else if upng_chunk_type chunk_header = CHUNK_OFFS then
    process_OFFS upng chunk_data_offset cur_frame_index
  else if upng_chunk_type chunk_header = CHUNK_PLTE then
    process_PLTE upng chunk_data_offset length cur_frame_index
  else if upng_chunk_type chunk_header = CHUNK_tRNS then
    process_tRNS upng chunk_data_offset length cur_frame_index
  else if upng_chunk_type chunk_header = CHUNK_TEXT then
    process_TEXT upng chunk_data_offset length cur_frame_index
  else if upng_chunk_type chunk_header = CHUNK_IEND then
    .ok (.brk upng)
  else if ¬ (!upng_chunk_critical chunk_header) then
    .ok (.ret (SET_ERROR upng .UPNG_EUNSUPPORTED 621))
  else .ok (.next upng cur_frame_index)

/-- The outcome of one iteration of the loop of `upng_process_chunks`. -/
inductive Step where
  /-- The loop goes on at `chunk_offset`. -/
  | next (upng : upng_t) (chunk_offset : Nat) (cur_frame_index : Nat)
  /-- The function returns `upng->error`, after a `break` or from a `CHECK_RET`. -/
  | stop (upng : upng_t)

/-- What the loop does after the branch for a chunk: `chunk_offset += length + 12` and the
next iteration, or the end of the function. -/
def Branch.toStep (next_offset : Nat) : Branch → Step
  | .next upng cur_frame_index => .next upng next_offset cur_frame_index
  | .brk upng => .stop upng
  | .ret upng => .stop upng

/-- The body of the loop of `upng_process_chunks`, entered with
`chunk_offset < upng->source.size`. -/
def upng_process_chunk (upng : upng_t) (chunk_offset cur_frame_index : Nat) :
    Except Fault Step :=
  if ¬ (u64 (chunk_offset + 12) ≤ upng.source.size) then
    .ok (.stop (SET_ERROR upng .UPNG_EMALFORMED 474))
  else
    (source_read upng.source chunk_offset 12).bind fun chunk_header =>
      if chunk_header.length ≠ 12 then .ok (.stop (SET_ERROR upng .UPNG_EREAD 477))
      else if ¬ (intToU64 (upng_chunk_length chunk_header) < INT_MAX) then
        .ok (.stop (SET_ERROR upng .UPNG_EMALFORMED 481))
      else if ¬ (u64 (chunk_offset + intToU64 (upng_chunk_length chunk_header) + 12)
          ≤ upng.source.size) then
        .ok (.stop (SET_ERROR upng .UPNG_EMALFORMED 484))
      else
        (process_chunk_type upng chunk_header chunk_offset (upng_chunk_data chunk_offset)
          (intToU64 (upng_chunk_length chunk_header)) cur_frame_index).bind fun b =>
          .ok (b.toStep (u64 (chunk_offset + intToU64 (upng_chunk_length chunk_header) + 12)))

/-- The loop of `upng_process_chunks` from the state a `Step` describes. -/
def Step.resume (loop : upng_t → Nat → Nat → Except Fault upng_t) : Step →
    Except Fault upng_t
  | .next upng chunk_offset cur_frame_index => loop upng chunk_offset cur_frame_index
  | .stop upng => .ok upng

/-- The loop of `upng_process_chunks` with an iteration budget: `fuel` bounds the number
of chunks visited, and running out of it is the fault `out_of_fuel`. -/
def upng_process_chunks_loop : Nat → upng_t → Nat → Nat → Except Fault upng_t
  | 0, upng, chunk_offset, _ =>
    if chunk_offset < upng.source.size then .error .out_of_fuel else .ok upng
  | fuel + 1, upng, chunk_offset, cur_frame_index =>
    if chunk_offset < upng.source.size then
      (upng_process_chunk upng chunk_offset cur_frame_index).bind
        (Step.resume (upng_process_chunks_loop fuel))
    else .ok upng

/-- The function `upng_process_chunks`; its return value is the `error` field of the
result. Every iteration that goes on moves `chunk_offset` forward by at least 12, so
`source.size` iterations are enough unless the offset wraps. -/
def upng_process_chunks (upng : upng_t) : Except Fault upng_t :=
  upng_process_chunks_loop upng.source.size upng 33 FRAME_INDEX_NONE

/-- The constant array `PNG_HEADER`. -/
def PNG_HEADER : List Byte := [137, 80, 78, 71, 13, 10, 26, 10]

/-- The assignments of `upng_header` from the 29 bytes read: dimensions, depth, colour
type, and the format determined from them. -/
def header_fields (upng : upng_t) (header : List Byte) : upng_t :=
  let upng := { upng with
    width := intToU32 (MAKE_DWORD_PTR header 16),
    height := intToU32 (MAKE_DWORD_PTR header 20),
    color_depth := byteAt header 24,
    color_type := byteAt header 25 }
  { upng with format := determine_format upng }

/-- The end of `upng_header`: the state becomes `UPNG_HEADER` unless the scan failed. -/
def header_finish (upng : upng_t) : upng_t :=
  if upng.error ≠ .UPNG_EOK then upng else { upng with state := .UPNG_HEADER }

/-- The function `upng_header`; its return value is the `error` field of the result. -/
def upng_header (upng : upng_t) : Except Fault upng_t :=
  if upng.error ≠ .UPNG_EOK then .ok upng
  else if upng.state ≠ .UPNG_NEW then .ok upng
  else if ¬ (upng.source.size ≥ 29) then .ok (SET_ERROR upng .UPNG_ENOTPNG 649)
  else
    (source_read upng.source 0 29).bind fun header =>
      if header.length ≠ 29 then .ok (SET_ERROR upng .UPNG_EREAD 650)
      else if ¬ (header.take 8 = PNG_HEADER) then .ok (SET_ERROR upng .UPNG_ENOTPNG 654)
      else if ¬ (MAKE_DWORD_PTR header 12 = CHUNK_IHDR) then
        .ok (SET_ERROR upng .UPNG_EMALFORMED 657)
      else if ¬ ((header_fields upng header).format ≠ .UPNG_BADFORMAT) then
        .ok (SET_ERROR (header_fields upng header) .UPNG_EUNFORMAT 667)
      else if ¬ (byteAt header 26 = 0) then
        .ok (SET_ERROR (header_fields upng header) .UPNG_EMALFORMED 670)
      else if ¬ (byteAt header 27 = 0) then
        .ok (SET_ERROR (header_fields upng header) .UPNG_EMALFORMED 673)
      else if ¬ (byteAt header 28 = 0) then
        .ok (SET_ERROR (header_fields upng header) .UPNG_EUNINTERLACED 676)
      else
        (upng_process_chunks (header_fields upng header)).bind fun upng =>
          .ok (header_finish upng)

/-! ## Accessors -/

/-- The function `upng_get_components`. -/
def upng_get_components (upng : upng_t) : Nat :=
  if upng.color_type = UPNG_PLT then 1
  else if upng.color_type = UPNG_LUM then 1
  else if upng.color_type = UPNG_RGB then 3
  else if upng.color_type = UPNG_LUMA then 2
  else if upng.color_type = UPNG_RGBA then 4
  else 0

/-- The function `upng_get_bitdepth`. -/
def upng_get_bitdepth (upng : upng_t) : Nat := upng.color_depth

/-- The function `upng_get_bpp`. -/
def upng_get_bpp (upng : upng_t) : Nat :=
  u32 (upng_get_bitdepth upng * upng_get_components upng)

/-- The function `upng_get_error`. -/
def upng_get_error (upng : upng_t) : upng_error := upng.error

/-- The function `upng_get_error_line`. -/
def upng_get_error_line (upng : upng_t) : Nat := upng.error_line

/-- The function `upng_get_width`. -/
def upng_get_width (upng : upng_t) : Nat := upng.width

/-- The function `upng_get_height`. -/
def upng_get_height (upng : upng_t) : Nat := upng.height

/-- The function `upng_get_palette`: the value returned (an `int`) and the pointer stored
through `palette`. -/
def upng_get_palette (upng : upng_t) : Int × Option (List Byte) :=
  (upng.palette_entries, upng.palette)

/-- The function `upng_get_alpha`: the value returned (an `int`) and the pointer stored
through `alpha`. -/
def upng_get_alpha (upng : upng_t) : Int × Option (List Byte) :=
  (upng.alpha_entries, upng.alpha)

/-- The function `upng_get_format`. -/
def upng_get_format (upng : upng_t) : upng_format := upng.format

/-- The C string that starts at offset `start` of `buffer`: the bytes up to the first NUL. -/
def c_string (buffer : List Byte) (start : Nat) : List Byte :=
  (buffer.drop start).takeWhile (fun b => b != 0)

/-- The function `upng_get_text`: the keyword returned and the text stored through
`text_out`, both as C strings, or `none` for the null return. -/
def upng_get_text (upng : upng_t) (index : Nat) : Option (List Byte × List Byte) :=
  if index < upng.text_count then
    match upng.text[index]? with
    | none => none
    | some entry =>
      match entry.keyword, entry.text with
      | some k, some t => some (c_string entry.buffer k, c_string entry.buffer t)
      | _, _ => none
  else none

/-- The function `upng_get_buffer`. -/
def upng_get_buffer (upng : upng_t) : Option Mem := upng.buffer

/-- The function `upng_get_size` (the `unsigned long` field returned as `unsigned`). -/
def upng_get_size (upng : upng_t) : Nat := u32 upng.size

/-! ## Padding removal and post-processing -/

/-- The bit pointers and memory of `remove_padding_bits`. -/
structure BitState where
  mem : Mem
  obp : Nat
  ibp : Nat

/-- The body of the inner loop of `remove_padding_bits`. -/
def copy_bit (out inp : Nat) (s : BitState) : BitState :=
  let bit := ((s.mem (inp + (s.ibp >>> 3))).val >>> (7 - (s.ibp &&& 7))) &&& 1
  let ibp := u64 (s.ibp + 1)
  let cell := (s.mem (out + (s.obp >>> 3))).val
  let mem :=
    if bit = 0 then
      store s.mem (out + (s.obp >>> 3)) (toByte (cell &&& (255 - (1 <<< (7 - (s.obp &&& 7))))))
    else
      store s.mem (out + (s.obp >>> 3)) (toByte (cell ||| (1 <<< (7 - (s.obp &&& 7)))))
  { mem := mem, obp := u64 (s.obp + 1), ibp := ibp }

/-- The function `remove_padding_bits`; `out` and `inp` are addresses in `mem`. -/
def remove_padding_bits (mem : Mem) (out inp : Nat) (olinebits ilinebits h : Nat) : Mem :=
  let diff := u64 (ilinebits + 18446744073709551616 - olinebits)
  (forRange 0 h (fun _ s =>
      let s := forRange 0 olinebits (fun _ s => copy_bit out inp s) s
      { s with ibp := u64 (s.ibp + diff) })
    { mem := mem, obp := 0, ibp := 0 }).mem

/-- The function `post_process_scanlines`; `inp` is an address in `mem`, and the parameter
`out` is not used by the source. -/
def post_process_scanlines (upng : upng_t) (mem : Mem) (_out inp : Nat) (frame : upng_frame) :
    upng_t × Mem :=
  let bpp := upng_get_bpp upng
  let w := frame.width
  let h := frame.height
  if bpp = 0 then (SET_ERROR upng .UPNG_EMALFORMED 332, mem)
  else if bpp < 8 ∧ u32 (w * bpp) ≠ u32 (u32 (u32 (w * bpp) + 7) / 8 * 8) then
    let r := unfilter upng mem inp inp w h bpp
    if r.1.error ≠ .UPNG_EOK then r
    else
      let aligned_width := u32 (u32 (u32 (w * bpp) + 7) / 8 * 8)
      (r.1, remove_padding_bits r.2 inp inp aligned_width aligned_width h)
  else unfilter upng mem inp inp w h bpp

/-- The function `upng_free_source`: the source record is zeroed. -/
def upng_free_source (upng : upng_t) : upng_t :=
  { upng with source := { user := none, size := 0 } }

/-! ## Frame assembly and decoding -/

/-- An `unsigned int` object filled by copying four bytes into it (little-endian host). -/
def native_u32 (bytes : List Byte) : Nat :=
  byteAt bytes 0 + byteAt bytes 1 * 256 + byteAt bytes 2 * 65536 + byteAt bytes 3 * 16777216

/-- How the data-collecting loop of `upng_decode` ends. -/
inductive Collected where
  /-- The loop is left normally; `compressed` holds the bytes written so far. -/
  | done (compressed : List Byte)
  /-- A `CHECK_GOTO` jumped to the label `error`. -/
  | failed (upng : upng_t)

/-- The `CHUNK_IDAT` branch of the loop of `upng_decode`: the payload is copied to the end
of what `compressed` already holds; `k` is the rest of the loop. -/
def decode_IDAT (upng : upng_t) (compressed_size chunk_data_offset length : Nat)
    (compressed : List Byte) (k : List Byte → Except Fault Collected) :
    Except Fault Collected :=
  (source_read upng.source chunk_data_offset length).bind fun bytes =>
    if compressed.length + bytes.length > compressed_size then .error .out_of_bounds
    else if bytes.length ≠ length then .ok (.failed (SET_ERROR upng .UPNG_EREAD 731))
    else k (compressed ++ bytes)

/-- The `CHUNK_FDAT` branch of the loop of `upng_decode`: the sequence number is read into
an `unsigned int` and compared, then the rest of the payload is copied; `k` is the rest of
the loop. -/
def decode_FDAT (upng : upng_t) (compressed_size chunk_data_offset length : Nat)
    (compressed : List Byte) (fdat_sequence : Nat)
    (k : List Byte → Nat → Except Fault Collected) : Except Fault Collected :=
  (source_read upng.source chunk_data_offset 4).bind fun stated_sequence =>
    if stated_sequence.length ≠ 4 then .ok (.failed (SET_ERROR upng .UPNG_EREAD 737))
    else if ¬ (native_u32 stated_sequence = fdat_sequence) then
      .ok (.failed (SET_ERROR upng .UPNG_EMALFORMED 738))
    else
      (source_read upng.source (u64 (chunk_data_offset + 4))
          (u64 (length + 18446744073709551616 - 4))).bind fun bytes =>
        if compressed.length + bytes.length > compressed_size then .error .out_of_bounds
        else if bytes.length ≠ u64 (length + 18446744073709551616 - 4) then
          .ok (.failed (SET_ERROR upng .UPNG_EREAD 741))
        else k (compressed ++ bytes) (u32 (fdat_sequence + 1))

/-- The loop of `upng_decode` that copies the data chunks of a frame into the block
`compressed`, which was allocated with `compressed_size` bytes. The list `compressed` is
what has been written (`compressed_index` is its length); a copy that would end past the
block is a fault. `fuel` bounds the number of chunks visited. -/
def upng_decode_chunks (upng : upng_t) (compressed_size : Nat) :
    Nat → Nat → List Byte → Nat → Except Fault Collected
  | 0, chunk_offset, compressed, _ =>
    if chunk_offset < upng.source.size then .error .out_of_fuel else .ok (.done compressed)
  | fuel + 1, chunk_offset, compressed, fdat_sequence =>
    if chunk_offset < upng.source.size then
      (source_read upng.source chunk_offset 12).bind fun chunk_header =>
        if chunk_header.length ≠ 12 then .ok (.failed (SET_ERROR upng .UPNG_EREAD 724))
        else if upng_chunk_type chunk_header = CHUNK_IDAT then
          decode_IDAT upng compressed_size (upng_chunk_data chunk_offset)
            (intToU64 (upng_chunk_length chunk_header)) compressed
            fun compressed =>
              upng_decode_chunks upng compressed_size fuel
                (u64 (chunk_offset + intToU64 (upng_chunk_length chunk_header) + 12))
                compressed fdat_sequence
        else if upng_chunk_type chunk_header = CHUNK_FDAT then
          decode_FDAT upng compressed_size (upng_chunk_data chunk_offset)
            (intToU64 (upng_chunk_length chunk_header)) compressed fdat_sequence
            fun compressed fdat_sequence =>
              upng_decode_chunks upng compressed_size fuel
                (u64 (chunk_offset + intToU64 (upng_chunk_length chunk_header) + 12))
                compressed fdat_sequence
        else if upng_chunk_type chunk_header = CHUNK_IEND ∨
            upng_chunk_type chunk_header = CHUNK_FCTL then
          .ok (.done compressed)
        else
          upng_decode_chunks upng compressed_size fuel
            (u64 (chunk_offset + intToU64 (upng_chunk_length chunk_header) + 12))
            compressed fdat_sequence
    else .ok (.done compressed)

/-- The frame `upng->frames + upng->current_frame` that `upng_decode` works on; the frame
table must exist and hold that index. -/
def decode_frame (upng : upng_t) : Except Fault upng_frame :=
  match upng.frames with
  | none => .error .out_of_bounds
  | some frames =>
    if ¬ (upng.current_frame < frames.length) then .error .out_of_bounds
    else .ok (frames.getD upng.current_frame upng_frame.zero)

/-- The first part of `upng_decode`, up to the end of the loop over the data chunks: the
decoder after `upng_header`, and the frame with what the loop collected. The second
component is `none` when `upng_decode` returns before it allocates `compressed`. -/
def upng_decode_collect (upng : upng_t) :
    Except Fault (upng_t × Option (upng_frame × Collected)) :=
  (upng_header upng).bind fun upng =>
    if upng.error ≠ .UPNG_EOK then .ok (upng, none)
    else if upng.state ≠ .UPNG_HEADER ∧ upng.state ≠ .UPNG_DECODED then .ok (upng, none)
    else
      (decode_frame upng).bind fun frame =>
        (upng_decode_chunks upng frame.compressed_size upng.source.size
            frame.data_chunk_offset [] 0).bind fun c =>
          .ok (upng, some (frame, c))

/-- The second part of `upng_decode`, after the loop over the data chunks was left
normally: inflation and post-processing. -/
def upng_decode_finish (uz_inflate : Nat → List Byte → Nat → upng_error × Mem)
    (upng : upng_t) (frame : upng_frame) (compressed : List Byte) : upng_t :=
  let width_aligned_bytes := toInt32 (u32 (u32 (frame.width * upng_get_bpp upng) + 7) / 8)
  let inflated_size :=
    u32 (u32 (intToU32 width_aligned_bytes * frame.height) + frame.height)
  let r := uz_inflate inflated_size compressed frame.compressed_size
  if ¬ (r.1 = .UPNG_EOK) then SET_ERROR upng upng.error 760
  else
    let p := post_process_scanlines upng r.2 0 0 frame
    let upng : upng_t := { p.1 with
      buffer := some p.2,
      size := u32 (intToU32 width_aligned_bytes * frame.height) }
    let upng : upng_t :=
      if upng.error ≠ .UPNG_EOK then { upng with buffer := none, size := 0 }
      else { upng with state := .UPNG_DECODED }
    upng_free_source upng

/-- The function `upng_decode`; its return value is the `error` field of the result.
`uz_inflate outsize compressed insize` stands for the external decompressor: it is given
the bytes written to `compressed` and the length `insize` it is told to read, and yields
its status and the contents of the block `inflated`, which starts at address 0. The blocks
released at the label `error` leave the fields of the decoder as they are. -/
def upng_decode (uz_inflate : Nat → List Byte → Nat → upng_error × Mem) (upng : upng_t) :
    Except Fault upng_t :=
  (upng_decode_collect upng).bind fun r =>
    match r with
    | (upng, none) => .ok upng
    | (_, some (_, .failed upng)) => .ok upng
    | (upng, some (frame, .done compressed)) =>
      .ok (upng_decode_finish uz_inflate upng frame compressed)

/-! ## Reference definitions taken from the specification -/

/-- The Paeth predictor in the words of the specification: whichever of `a`, `b`, `c` is
nearest to `p = a + b - c`, ties broken in the order `a`, `b`, `c`. -/
def spec_paeth (a b c : Int) : Int :=
  let p := a + b - c
  if (p - a).natAbs ≤ (p - b).natAbs ∧ (p - a).natAbs ≤ (p - c).natAbs then a
  else if (p - b).natAbs ≤ (p - c).natAbs then b
  else c

/-- The predictor of filter type `t` (table of section 4.4): nothing for None, the left
neighbour for Sub, the upper one for Up, the floor of their mean for Average, Paeth. -/
def spec_predictor (t : Nat) (left up upleft : Nat) : Int :=
  match t with
  | 1 => left
  | 2 => up
  | 3 => ((left + up) / 2 : Nat)
  | 4 => spec_paeth left up upleft
  | _ => 0

/-- The byte `precon[i]` of the previous reconstructed row, zero when there is none. -/
def precon_at (mem : Mem) (precon : Option Nat) (i : Nat) : Nat :=
  match precon with
  | none => 0
  | some p => (mem (p + i)).val

/-- One byte of the reference PNG filter: the raw byte minus its predictor, modulo 256.
`row` is the raw row being filtered and `prev` the raw row above it (all zero for the
first row). -/
def reference_filter_byte (t bytewidth : Nat) (row prev : Nat → Byte) (i : Nat) : Byte :=
  let left : Nat := if i < bytewidth then 0 else (row (i - bytewidth)).val
  let up : Nat := (prev i).val
  let upleft : Nat := if i < bytewidth then 0 else (prev (i - bytewidth)).val
  intToByte ((row i).val - spec_predictor t left up upleft)

/-- The reference PNG filter applied to a raw image of `stride = ceil(w * bpp / 8)` bytes
per row: row `y` of the result is the byte `ft y` (its filter type) followed by the
filtered bytes of raw row `y`. The result is given as the byte at each stream offset. -/
def reference_filter (w bpp : Nat) (ft : Nat → Nat) (raw : Nat → Byte) : Nat → Byte :=
  let stride := (w * bpp + 7) / 8
  let bytewidth := max 1 ((bpp + 7) / 8)
  fun a =>
    let y := a / (stride + 1)
    let c := a % (stride + 1)
    if c = 0 then toByte (ft y)
    else reference_filter_byte (ft y) bytewidth (fun i => raw (stride * y + i))
      (fun i => if y = 0 then 0 else raw (stride * (y - 1) + i)) (c - 1)

/-! ## Auxiliary definitions for the proofs -/

/-- The memory after the first `k` iterations of a loop that stores `val i` at `recon + i`. -/
def writes (recon : Nat) (val : Nat → Mem → Byte) (k : Nat) (mem : Mem) : Mem :=
  forLoop (fun i m => store m (recon + i) (val i m)) k 0 mem

/-- The byte that `unfilter_scanline` stores at column `i`, computed from memory `m`. -/
def scanline_value (recon scanline : Nat) (precon : Option Nat) (bytewidth filterType : Nat)
    (i : Nat) (m : Mem) : Byte :=
  match filterType, precon with
  | 0, _ => m (scanline + i)
  | 1, _ =>
    if i < bytewidth then m (scanline + i)
    else toByte ((m (scanline + i)).val + (m (recon + (i - bytewidth))).val)
  | 2, some p => toByte ((m (scanline + i)).val + (m (p + i)).val)
  | 2, none => m (scanline + i)
  | 3, some p =>
    if i < bytewidth then toByte ((m (scanline + i)).val + (m (p + i)).val / 2)
    else toByte ((m (scanline + i)).val +
      ((m (recon + (i - bytewidth))).val + (m (p + i)).val) / 2)
  | 3, none =>
    if i < bytewidth then m (scanline + i)
    else toByte ((m (scanline + i)).val + (m (recon + (i - bytewidth))).val / 2)
  | 4, some p =>
    if i < bytewidth then
      intToByte ((m (scanline + i)).val + paeth_predictor 0 (m (p + i)).val 0)
    else intToByte ((m (scanline + i)).val +
      paeth_predictor (m (recon + (i - bytewidth))).val (m (p + i)).val
        (m (p + (i - bytewidth))).val)
  | 4, none =>
    if i < bytewidth then m (scanline + i)
    else intToByte ((m (scanline + i)).val +
      paeth_predictor (m (recon + (i - bytewidth))).val 0 0)
  | _, _ => 0

/-- The number of columns that `unfilter_scanline` writes. -/
def scanline_count (bytewidth filterType length : Nat) : Nat :=
  match filterType with
  | 0 => length
  | 2 => length
  | _ => bytewidth + (length - bytewidth)

/-- The big-endian 32-bit value stored at offset `off` (section 6: all multi-byte integers
are big-endian). -/
def be32 (p : List Byte) (off : Nat) : Nat :=
  byteAt p off * 16777216 + byteAt p (off + 1) * 65536 + byteAt p (off + 2) * 256
    + byteAt p (off + 3)

/-- The decoder that a branch of the scanner leaves behind. -/
def Branch.upng : Branch → upng_t
  | .next u _ => u
  | .brk u => u
  | .ret u => u

/-- The decoder that an iteration of the scanner leaves behind. -/
def Step.upng : Step → upng_t
  | .next u _ _ => u
  | .stop u => u

/-- The fields that the chunk scanner never writes. -/
def same_header (u u' : upng_t) : Prop :=
  u'.width = u.width ∧ u'.height = u.height ∧ u'.color_depth = u.color_depth ∧
  u'.color_type = u.color_type ∧ u'.format = u.format ∧ u'.source = u.source ∧
  u'.state = u.state ∧ u'.current_frame = u.current_frame ∧ u'.size = u.size

/-- A property of the result of a computation that ends without a fault. -/
def okAll {α : Type} (p : α → Prop) : Except Fault α → Prop
  | .ok a => p a
  | .error _ => True

/-- The decoder that a call leaves behind; a fresh decoder without a source in case of a
fault. -/
def result_of (r : Except Fault upng_t) : upng_t :=
  match r with
  | .ok upng => upng
  | .error _ => upng_new_from_source { user := none, size := 0 }

/-- The value that a call returns: the `error` field of the decoder it leaves behind, or
`none` in case of a fault. -/
def returned (r : Except Fault upng_t) : Option upng_error :=
  match r with
  | .ok upng => some upng.error
  | .error _ => none

/-- The format table of the specification (section 4.1): the tag for each valid pair of
colour type and bit depth, and `UPNG_BADFORMAT` for every other combination. -/
def spec_format (color_type depth : Nat) : upng_format :=
  if color_type = 0 ∧ depth = 1 then .UPNG_LUMINANCE1
  else if color_type = 0 ∧ depth = 2 then .UPNG_LUMINANCE2
  else if color_type = 0 ∧ depth = 4 then .UPNG_LUMINANCE4
  else if color_type = 0 ∧ depth = 8 then .UPNG_LUMINANCE8
  else if color_type = 2 ∧ depth = 8 then .UPNG_RGB8
  else if color_type = 2 ∧ depth = 16 then .UPNG_RGB16
  else if color_type = 3 ∧ depth = 1 then .UPNG_INDEXED1
  else if color_type = 3 ∧ depth = 2 then .UPNG_INDEXED2
  else if color_type = 3 ∧ depth = 4 then .UPNG_INDEXED4
  else if color_type = 3 ∧ depth = 8 then .UPNG_INDEXED8
  else if color_type = 4 ∧ depth = 1 then .UPNG_LUMINANCE_ALPHA1
  else if color_type = 4 ∧ depth = 2 then .UPNG_LUMINANCE_ALPHA2
  else if color_type = 4 ∧ depth = 4 then .UPNG_LUMINANCE_ALPHA4
  else if color_type = 4 ∧ depth = 8 then .UPNG_LUMINANCE_ALPHA8
  else if color_type = 6 ∧ depth = 8 then .UPNG_RGBA8
  else if color_type = 6 ∧ depth = 16 then .UPNG_RGBA16
  else .UPNG_BADFORMAT

/-- The pairs of colour type and bit depth that the specification lists as valid. -/
def accepted_pair (color_type depth : Nat) : Prop :=
  (color_type = 0 ∧ (depth = 1 ∨ depth = 2 ∨ depth = 4 ∨ depth = 8)) ∨
  (color_type = 2 ∧ (depth = 8 ∨ depth = 16)) ∨
  (color_type = 3 ∧ (depth = 1 ∨ depth = 2 ∨ depth = 4 ∨ depth = 8)) ∨
  (color_type = 4 ∧ (depth = 1 ∨ depth = 2 ∨ depth = 4 ∨ depth = 8)) ∨
  (color_type = 6 ∧ (depth = 8 ∨ depth = 16))

instance (color_type depth : Nat) : Decidable (accepted_pair color_type depth) := by
  unfold accepted_pair
  infer_instance

/-- The step after `s` in a run of the scanner that has `n` more iterations to show. -/
def Step.advance (steps : upng_t → Nat → Nat → Except Fault Step) : Step → Except Fault Step
  | .next upng chunk_offset cur_frame_index => steps upng chunk_offset cur_frame_index
  | .stop upng => .ok (.stop upng)

/-- The first `n` iterations of the loop of `upng_process_chunks`, started at the loop head
with the given decoder, chunk offset and frame index: the state at the loop head after
them, or `stop` when the function has returned by then. -/
def scan_steps : Nat → upng_t → Nat → Nat → Except Fault Step
  | 0, upng, chunk_offset, cur_frame_index => .ok (.next upng chunk_offset cur_frame_index)
  | n + 1, upng, chunk_offset, cur_frame_index =>
    if chunk_offset < upng.source.size then
      (upng_process_chunk upng chunk_offset cur_frame_index).bind
        (Step.advance (scan_steps n))
    else .ok (.stop upng)

/-- A header that passes the checks of section 4.1: at least 29 bytes, the signature, the
IHDR tag, a valid pair of colour type and depth, and zero compression, filter and
interlace methods. -/
def valid_header (buffer : List Byte) : Prop :=
  29 ≤ buffer.length ∧
  buffer.take 8 = [137, 80, 78, 71, 13, 10, 26, 10] ∧
  (byteAt buffer 12 = ch 'I' ∧ byteAt buffer 13 = ch 'H' ∧ byteAt buffer 14 = ch 'D' ∧
    byteAt buffer 15 = ch 'R') ∧
  accepted_pair (byteAt buffer 25) (byteAt buffer 24) ∧
  byteAt buffer 26 = 0 ∧ byteAt buffer 27 = 0 ∧ byteAt buffer 28 = 0

instance (buffer : List Byte) : Decidable (valid_header buffer) := by
  unfold valid_header
  infer_instance

/-- The four type bytes of the chunk that starts at offset `o`. -/
def chunk_type_at (buffer : List Byte) (o : Nat) : List Nat :=
  [byteAt buffer (o + 4), byteAt buffer (o + 5), byteAt buffer (o + 6), byteAt buffer (o + 7)]

/-- The chunk types that the scanner recognizes (section 6), IHDR apart, which it only
accepts as the first chunk. -/
def known_chunk_types : List (List Nat) :=
  [[ch 'I', ch 'D', ch 'A', ch 'T'], [ch 'f', ch 'd', ch 'A', ch 'T'],
   [ch 'a', ch 'c', ch 'T', ch 'L'], [ch 'f', ch 'c', ch 'T', ch 'L'],
   [ch 'o', ch 'F', ch 'F', ch 's'], [ch 'P', ch 'L', ch 'T', ch 'E'],
   [ch 't', ch 'R', ch 'N', ch 'S'], [ch 't', ch 'E', ch 'X', ch 't'],
   [ch 'I', ch 'E', ch 'N', ch 'D']]

/-- A chunk at offset `o` that passes the bounds checks of the scanner: its header and its
declared length fit in the source, and the length is below `INT_MAX`. -/
def chunk_in_bounds (buffer : List Byte) (o : Nat) : Prop :=
  o + 12 ≤ buffer.length ∧ be32 buffer o < INT_MAX ∧ o + be32 buffer o + 12 ≤ buffer.length

instance (buffer : List Byte) (o : Nat) : Decidable (chunk_in_bounds buffer o) := by
  unfold chunk_in_bounds
  infer_instance

/-- The type bytes `IDAT`. -/
def type_IDAT : List Nat := [ch 'I', ch 'D', ch 'A', ch 'T']

/-- The type bytes `IEND`. -/
def type_IEND : List Nat := [ch 'I', ch 'E', ch 'N', ch 'D']

/-- The type bytes `acTL`. -/
def type_acTL : List Nat := [ch 'a', ch 'c', ch 'T', ch 'L']

/-- The type bytes `fcTL`. -/
def type_fcTL : List Nat := [ch 'f', ch 'c', ch 'T', ch 'L']

/-- The type bytes `fdAT`. -/
def type_fdAT : List Nat := [ch 'f', ch 'd', ch 'A', ch 'T']

/-- A chunk of a stream as section 6 lays it out: the offset of its length field, its four
type bytes and its payload. -/
structure spec_chunk where
  offset : Nat
  type : List Nat
  data : List Byte
  deriving DecidableEq, Repr

/-- The chunks of the stream `buffer` from offset `o` on, in stream order, up to IEND or
the end of the stream: each chunk is `length` (big-endian, 4 bytes), type (4 bytes),
`length` bytes of data and 4 bytes of CRC. `fuel` bounds the number of chunks listed. -/
def spec_chunks (buffer : List Byte) : Nat → Nat → List spec_chunk
  | 0, _ => []
  | fuel + 1, o =>
    if o + 12 ≤ buffer.length then
      if chunk_type_at buffer o = type_IEND then []
      else
        { offset := o, type := chunk_type_at buffer o,
          data := (buffer.drop (o + 8)).take (be32 buffer o) } ::
          spec_chunks buffer fuel (o + be32 buffer o + 12)
    else []

/-- The concatenation, in order, of the payloads of the IDAT chunks of a list. -/
def idat_payloads : List spec_chunk → List Byte
  | [] => []
  | c :: cs => if c.type = type_IDAT then c.data ++ idat_payloads cs else idat_payloads cs

/-- The sum of the payload lengths of the IDAT chunks of a list. -/
def idat_total : List spec_chunk → Nat
  | [] => 0
  | c :: cs => if c.type = type_IDAT then c.data.length + idat_total cs else idat_total cs

/-- The offset of the first IDAT chunk of a list. -/
def first_idat_offset : List spec_chunk → Option Nat
  | [] => none
  | c :: cs => if c.type = type_IDAT then some c.offset else first_idat_offset cs

/-- What the branch for a chunk that carries no image data may do: go on with the frame
table, the error and the frame index untouched, or return with an error set. -/
def skips (u : upng_t) (c : Nat) : Branch → Prop
  | .next u1 c1 => u1.frames = u.frames ∧ u1.error = u.error ∧ c1 = c
  | .brk _ => False
  | .ret u1 => u1.error ≠ .UPNG_EOK

/-- The frame that `upng_setup_for_single_image` creates. -/
def single_frame (width height : Nat) : upng_frame :=
  { width := width, height := height, offset_x := 0, offset_y := 0,
    delay_numerator := 0, delay_denominator := 0, dispose_op := UPNG_DISPOSE_OP_NONE,
    blend_op := UPNG_BLEND_OP_SOURCE, compressed_size := 0, data_chunk_offset := 0 }

/-- The frame that an IDAT chunk of a still image is accounted to: the only frame of the
table, or the one that `upng_setup_for_single_image` creates when there is no table. -/
def still_frame (u : upng_t) : upng_frame :=
  match u.frames with
  | some (frame :: _) => frame
  | _ => single_frame u.width u.height

/-- What an iteration of the scanner on a chunk without image data may do: go on at
`next_offset` with the frame table, error, source, dimensions and frame index untouched,
or return with an error set. -/
def skips_step (u : upng_t) (next_offset c : Nat) : Step → Prop
  | .next u1 o1 c1 =>
    u1.frames = u.frames ∧ u1.error = u.error ∧ u1.source = u.source ∧
    u1.width = u.width ∧ u1.height = u.height ∧ o1 = next_offset ∧ c1 = c
  | .stop u1 => u1.error ≠ .UPNG_EOK

/-- What the scan of a still image has recorded once it ends in the decoder `u'`, having
started at a loop head with decoder `u` and the chunks `cs` ahead: without an IDAT the
frame table is as before, and with one it holds a single frame whose `compressed_size`
has grown by the IDAT lengths and whose `data_chunk_offset` is the first IDAT's offset
unless it was set before. -/
def still_result (u u' : upng_t) (cs : List spec_chunk) : Prop :=
  (first_idat_offset cs = none → u'.frames = u.frames) ∧
  (∀ o1, first_idat_offset cs = some o1 → ∃ fr, u'.frames = some [fr] ∧
    fr.compressed_size = (still_frame u).compressed_size + idat_total cs ∧
    fr.data_chunk_offset =
      (if (still_frame u).data_chunk_offset = 0 then o1
       else (still_frame u).data_chunk_offset)) ∧
  idat_total cs = (idat_payloads cs).length

/-- The data-collecting loop of `upng_decode`, started at chunk offset `o` with at least
`f` iterations allowed and enough room in the block, appends the payloads of the IDAT
chunks of `cs` and ends normally. -/
def still_decode (source : upng_source) (f o : Nat) (cs : List spec_chunk) : Prop :=
  ∀ (ud : upng_t) (csize f2 : Nat) (compressed : List Byte) (seq : Nat),
    ud.source = source → f ≤ f2 → compressed.length + idat_total cs ≤ csize →
    upng_decode_chunks ud csize f2 o compressed seq
      = .ok (.done (compressed ++ idat_payloads cs))

/-! ## Concrete inputs used by the witnesses and counterexamples -/

/-- A buffer being unfiltered in place, two rows of four bytes with two bytes per pixel:
row 0 is already reconstructed, row 1 (filter type 4) is still filtered. -/
def example_rows : Mem :=
  fun a => ([10, 20, 35, 50, 40, 4, 1, 2, 3, 4] : List Byte).getD a 0

/-- A raw image of two rows of four bytes. -/
def example_raw : Nat → Byte := fun k => toByte (k * 37 + 5)

/-- Filter types for the rows of `example_raw`: Average, then Paeth. -/
def example_filter_types : Nat → Nat := fun y => if y = 0 then 3 else 4

/-- Signature and IHDR chunk (33 bytes) of an image of `w` by `h` pixels. -/
def example_ihdr (w h depth color_type : Byte) : List Byte :=
  [137, 80, 78, 71, 13, 10, 26, 10, 0, 0, 0, 13, 73, 72, 68, 82, 0, 0, 0, w, 0, 0, 0, h,
   depth, color_type, 0, 0, 0, 0, 0, 0, 0]

/-- An IDAT chunk with the three payload bytes 1, 2, 3. -/
def example_idat3 : List Byte := [0, 0, 0, 3, 73, 68, 65, 84, 1, 2, 3, 0, 0, 0, 0]

/-- An IDAT chunk with the two payload bytes 7, 8. -/
def example_idat2 : List Byte := [0, 0, 0, 2, 73, 68, 65, 84, 7, 8, 0, 0, 0, 0]

/-- The IEND chunk. -/
def example_iend : List Byte := [0, 0, 0, 0, 73, 69, 78, 68, 0, 0, 0, 0]

/-- A chunk of type `zZZZ` with one payload byte. -/
def example_zZZZ : List Byte := [0, 0, 0, 1, 122, 90, 90, 90, 9, 0, 0, 0, 0]

/-- A chunk of type `ZZZZ` with one payload byte. -/
def example_ZZZZ : List Byte := [0, 0, 0, 1, 90, 90, 90, 90, 9, 0, 0, 0, 0]

/-- A still image of 1 by 1 RGBA pixels with two IDAT chunks around a `zZZZ` chunk. -/
def example_png : List Byte :=
  example_ihdr 1 1 8 6 ++ example_idat3 ++ example_zZZZ ++ example_idat2 ++ example_iend

/-- A file cut off inside its only IDAT chunk: the last two bytes of the CRC are missing
and there is no IEND. -/
def example_truncated : List Byte := example_ihdr 1 1 8 6 ++ example_idat3.take 13

/-- A still image whose first chunk after IHDR has the unknown type `ZZZZ`. -/
def example_critical : List Byte :=
  example_ihdr 1 1 8 6 ++ example_ZZZZ ++ example_idat3 ++ example_iend

/-- A still image whose first chunk after IHDR has the unknown type `zZZZ`. -/
def example_ancillary : List Byte :=
  example_ihdr 1 1 8 6 ++ example_zZZZ ++ example_idat3 ++ example_iend

/-- The acTL chunk of an animation of `n` frames. -/
def example_actl (n : Byte) : List Byte :=
  [0, 0, 0, 8, 97, 99, 84, 76, 0, 0, 0, n, 0, 0, 0, 0, 0, 0, 0, 0]

/-- The fcTL chunk with sequence number `seq` of a frame of 1 by 1 pixels at the origin. -/
def example_fctl (seq : Byte) : List Byte :=
  [0, 0, 0, 26, 102, 99, 84, 76, 0, 0, 0, seq, 0, 0, 0, 1, 0, 0, 0, 1, 0, 0, 0, 0,
   0, 0, 0, 0, 0, 0, 0, 0, 0, 0, 0, 0, 0, 0]

/-- An fdAT chunk whose four sequence bytes are `s0 s1 s2 s3` and whose data is `a b`. -/
def example_fdat (s0 s1 s2 s3 a b : Byte) : List Byte :=
  [0, 0, 0, 6, 102, 100, 65, 84, s0, s1, s2, s3, a, b, 0, 0, 0, 0]

/-- An animation of one frame whose data comes in two fdAT chunks that carry the
big-endian sequence numbers 0 and 1. -/
def example_apng_big_endian : List Byte :=
  example_ihdr 1 1 8 6 ++ example_actl 1 ++ example_fctl 0 ++
    example_fdat 0 0 0 0 5 6 ++ example_fdat 0 0 0 1 7 8 ++ example_iend

/-- The same animation with the sequence number 1 of the second fdAT chunk stored
little-endian (which reads 16777216 as a big-endian integer). -/
def example_apng_little_endian : List Byte :=
  example_ihdr 1 1 8 6 ++ example_actl 1 ++ example_fctl 0 ++
    example_fdat 0 0 0 0 5 6 ++ example_fdat 1 0 0 0 7 8 ++ example_iend

/-- The bytes that the data-collecting loop of `upng_decode` has assembled, when it ends
normally. -/
def assembled (r : Except Fault (upng_t × Option (upng_frame × Collected))) :
    Option (List Byte) :=
  match r with
  | .ok (_, some (_, .done compressed)) => some compressed
  | _ => none

/-! ## Reference definitions for the frame table, the side tables and the decode sizes -/

/-- The invariant of section 3 for a frame descriptor inside an image of the given
dimensions, with exact sums. -/
def frame_in_image (image_width image_height : Nat) (frame : upng_frame) : Prop :=
  frame.width > 0 ∧ frame.height > 0 ∧ frame.offset_x + frame.width ≤ image_width ∧
  frame.offset_y + frame.height ≤ image_height

instance (image_width image_height : Nat) (frame : upng_frame) :
    Decidable (frame_in_image image_width image_height frame) := by
  unfold frame_in_image
  infer_instance

/-- The row stride of section 4.4, `ceil(width * bpp / 8)`, over the integers. -/
def spec_stride (width bpp : Nat) : Nat := (width * bpp + 7) / 8

/-- The type bytes `tEXt`. -/
def type_tEXt : List Nat := [ch 't', ch 'E', ch 'X', ch 't']

/-- The type bytes `PLTE`. -/
def type_PLTE : List Nat := [ch 'P', ch 'L', ch 'T', ch 'E']

/-- The type bytes `tRNS`. -/
def type_tRNS : List Nat := [ch 't', ch 'R', ch 'N', ch 'S']

/-- The payload of the chunk at offset `o`: the `length` bytes after its header. -/
def chunk_payload (buffer : List Byte) (o : Nat) : List Byte :=
  (buffer.drop (o + 8)).take (be32 buffer o)

/-- The keyword of a tEXt payload in the words of the specification: the bytes before the
first NUL. -/
def spec_keyword (payload : List Byte) : List Byte := payload.take (payload.indexOf 0)

/-- The text of a tEXt payload in the words of the specification: the bytes after the
first NUL, up to the next NUL or the end of the payload. -/
def spec_text (payload : List Byte) : List Byte :=
  (payload.drop (payload.indexOf 0 + 1)).take ((payload.drop (payload.indexOf 0 + 1)).indexOf 0)

/-- The sequence numbers of the fcTL chunks of a list, in order: the big-endian 32-bit
value in the four bytes that follow the chunk header. -/
def fctl_sequence_numbers (buffer : List Byte) : List spec_chunk → List Nat
  | [] => []
  | c :: cs =>
    if c.type = type_fcTL then be32 buffer (c.offset + 8) :: fctl_sequence_numbers buffer cs
    else fctl_sequence_numbers buffer cs

/-- One move of the lifecycle of section 3: the state stays, or advances along
NEW, HEADER, DECODED. -/
def lifecycle_move (s s' : upng_state) : Prop :=
  s' = s ∨ (s = .UPNG_NEW ∧ s' = .UPNG_HEADER) ∨ (s = .UPNG_HEADER ∧ s' = .UPNG_DECODED) ∨
  (s = .UPNG_NEW ∧ s' = .UPNG_DECODED)

instance (s s' : upng_state) : Decidable (lifecycle_move s s') := by
  unfold lifecycle_move
  infer_instance

/-! ## The sizes computed by `upng_decode` -/

/-- The value of `width_aligned_bytes` in `upng_decode`, an `int`. -/
def decode_width_aligned_bytes (upng : upng_t) (frame : upng_frame) : Int :=
  toInt32 (u32 (u32 (frame.width * upng_get_bpp upng) + 7) / 8)

/-- The value of `inflated_size` in `upng_decode`: the size of the block handed to the
decompressor. -/
def decode_inflated_size (upng : upng_t) (frame : upng_frame) : Nat :=
  u32 (u32 (intToU32 (decode_width_aligned_bytes upng frame) * frame.height) + frame.height)

/-! ## Auxiliary definitions for the proofs about decoding and the frame table -/

/-- The decoder `r` is `u`, possibly with `UPNG_EMALFORMED` set on some line. -/
def sets_malformed (u r : upng_t) : Prop :=
  r = u ∨ ∃ line, r = SET_ERROR u .UPNG_EMALFORMED line

/-- What a branch of the scanner other than those for fcTL and IEND leaves behind: the
frame index is kept, a frame table that exists stays with its `frame_count`, and a
`frame_count` below `2^32` stays so; or the function returns with an error set. -/
def keeps_frames (u : upng_t) (c : Nat) : Branch → Prop
  | .next u1 c1 =>
    c1 = c ∧ (u.frames ≠ none → u1.frames ≠ none ∧ u1.frame_count = u.frame_count) ∧
    (u.frame_count < 4294967296 → u1.frame_count < 4294967296)
  | .brk _ => False
  | .ret u1 => u1.error ≠ .UPNG_EOK

/-- What the branch for an fcTL chunk with sequence number `seq` leaves behind: the number
follows the frame index and is below `frame_count`, and it is the new frame index; or the
function returns with an error set. -/
def fctl_branch (u : upng_t) (c seq : Nat) : Branch → Prop
  | .next u1 c1 =>
    seq = u32 (c + 1) ∧ seq < u.frame_count ∧ c1 = u32 (c + 1) ∧ u1.frames ≠ none ∧
    u1.frame_count = u.frame_count
  | .brk _ => False
  | .ret u1 => u1.error ≠ .UPNG_EOK

/-- What the branch for an acTL chunk that declares `count` frames leaves behind: there
was no frame table, and now there is one with that `frame_count`; or the function returns
with an error set. -/
def actl_branch (u : upng_t) (count : Nat) : Branch → Prop
  | .next u1 _ => u.frames = none ∧ u1.frames ≠ none ∧ u1.frame_count = count
  | .brk _ => False
  | .ret u1 => u1.error ≠ .UPNG_EOK

/-- What the checks of the fcTL branch establish for the frame it has filled, at `index`
of the frame table: positive dimensions, and offsets plus dimensions within the image when
the sums are taken in 32 bits. -/
def fctl_frame_checked (u : upng_t) (index : Nat) : Branch → Prop
  | .next u1 _ =>
    0 < ((u1.frames.getD []).getD index upng_frame.zero).width ∧
    0 < ((u1.frames.getD []).getD index upng_frame.zero).height ∧
    u32 (((u1.frames.getD []).getD index upng_frame.zero).offset_x +
      ((u1.frames.getD []).getD index upng_frame.zero).width) ≤ u.width ∧
    u32 (((u1.frames.getD []).getD index upng_frame.zero).offset_y +
      ((u1.frames.getD []).getD index upng_frame.zero).height) ≤ u.height
  | .brk _ => True
  | .ret _ => True

/-- What the scan has established about the fcTL chunks once it ends without error in the
decoder `u'`, having started at a loop head with decoder `u`, frame index `c` and the
chunks `cs` ahead: their sequence numbers count up from `c + 1`, all below the final
`frame_count`, which is the one declared by an acTL chunk of `cs` if there is one, and
the one of `u` if `u` has a frame table. -/
def fctl_result (buffer : List Byte) (u : upng_t) (c : Nat) (u' : upng_t)
    (cs : List spec_chunk) : Prop :=
  ∃ m, fctl_sequence_numbers buffer cs = List.range' (u32 (c + 1)) m ∧
    (m ≠ 0 → u32 (c + 1) + m ≤ u'.frame_count) ∧
    (u.frames ≠ none → u'.frame_count = u.frame_count ∧ ∀ x ∈ cs, x.type ≠ type_acTL) ∧
    (∀ x ∈ cs, x.type = type_acTL → u'.frame_count = be32 buffer (x.offset + 8))

/-! ## Concrete inputs for the side tables, the frame table and the decode sizes -/

/-- A chunk with the given type bytes and payload (shorter than 65536 bytes) and a zero
CRC, which the decoder does not read. -/
def example_chunk (type data : List Byte) : List Byte :=
  [0, 0, toByte (data.length / 256), toByte data.length] ++ type ++ data ++ [0, 0, 0, 0]

/-- A still image without any IDAT chunk: signature, IHDR, IEND. -/
def example_no_idat : List Byte := example_ihdr 1 1 8 6 ++ example_iend

/-- An animation that declares zero frames. -/
def example_no_frames : List Byte := example_ihdr 1 1 8 6 ++ example_actl 0 ++ example_iend

/-- An indexed image with a PLTE chunk of 768 bytes (256 entries) and a tRNS chunk of 256
bytes. -/
def example_palette_png : List Byte :=
  example_ihdr 1 1 8 3 ++ example_chunk [80, 76, 84, 69] (List.replicate 768 7) ++
    example_chunk [116, 82, 78, 83] (List.replicate 256 9) ++ example_idat3 ++ example_iend

/-- An fcTL chunk with sequence number 0 for a frame of width 2 and height 1 at the
horizontal offset `2^32 - 1`. -/
def example_fctl_wrap : List Byte :=
  [0, 0, 0, 26, 102, 99, 84, 76, 0, 0, 0, 0, 0, 0, 0, 2, 0, 0, 0, 1, 255, 255, 255, 255,
   0, 0, 0, 0, 0, 0, 0, 0, 0, 0, 0, 0, 0, 0]

/-- An animation of a 1 by 1 image whose only frame is described by `example_fctl_wrap`. -/
def example_apng_wrap : List Byte :=
  example_ihdr 1 1 8 6 ++ example_actl 1 ++ example_fctl_wrap ++
    example_fdat 0 0 0 0 5 6 ++ example_iend

/-- An animation that declares two frames and has the fcTL chunk of the first only. -/
def example_apng_missing_fctl : List Byte :=
  example_ihdr 1 1 8 6 ++ example_actl 2 ++ example_fctl 0 ++
    example_fdat 0 0 0 0 5 6 ++ example_iend

/-- A still image whose IHDR declares width 0 and height 5. -/
def example_zero_width : List Byte := example_ihdr 0 5 8 6 ++ example_idat3 ++ example_iend

/-- A tEXt chunk with keyword `k` and text `v`. -/
def example_text : List Byte := example_chunk [116, 69, 88, 116] [107, 0, 118]

/-- A tEXt chunk whose payload has no NUL byte. -/
def example_text_no_nul : List Byte := example_chunk [116, 69, 88, 116] [107, 118]

/-- A still image with `n` tEXt chunks before its IDAT chunk. -/
def example_texts (n : Nat) : List Byte :=
  example_ihdr 1 1 8 6 ++ (List.replicate n example_text).flatten ++ example_idat3 ++ example_iend

/-- A greyscale image of depth 8 whose IHDR declares width `2^29` and height 1. -/
def example_wide : List Byte :=
  [137, 80, 78, 71, 13, 10, 26, 10, 0, 0, 0, 13, 73, 72, 68, 82, 32, 0, 0, 0, 0, 0, 0, 1,
   8, 0, 0, 0, 0, 0, 0, 0, 0] ++ example_idat3 ++ example_iend

/-- A decompressor that reports success and fills the block with the given bytes, zero
after them. -/
def example_inflate (bytes : List Byte) : Nat → List Byte → Nat → upng_error × Mem :=
  fun _ _ _ => (.UPNG_EOK, fun a => bytes.getD a 0)

/-- An animation of two frames, each with its fcTL chunk and one fdAT chunk. -/
def example_apng_two_frames : List Byte :=
  example_ihdr 1 1 8 6 ++ example_actl 2 ++ example_fctl 0 ++ example_fdat 0 0 0 0 5 6 ++
    example_fctl 1 ++ example_fdat 0 0 0 0 7 8 ++ example_iend

/-! ## Reference and auxiliary definitions for the padding bits and termination -/

/-- Bit number `p` of the buffer that starts at address `base`, the bits numbered
most-significant-first within each byte (section 4.4). -/
def bit_at (mem : Mem) (base p : Nat) : Nat :=
  (mem (base + p / 8)).val / 2 ^ (7 - p % 8) % 2

/-- A computation that does not run out of its iteration budget. -/
def in_budget {α : Type} : Except Fault α → Prop
  | .error .out_of_fuel => False
  | _ => True

/-! ## Concrete inputs for re-decoding, the frame-table accesses and the block sizes -/

/-- A still image whose IHDR declares width 0 and height 0. -/
def example_zero_size : List Byte := example_ihdr 0 0 8 6 ++ example_idat3 ++ example_iend

/-- An animation of one declared frame with an fdAT chunk and no fcTL chunk before it. -/
def example_fdat_before_fctl : List Byte :=
  example_ihdr 1 1 8 6 ++ example_actl 1 ++ example_fdat 0 0 0 0 5 6 ++ example_iend

/-- An animation that declares zero frames and has an IDAT chunk. -/
def example_idat_no_frames : List Byte :=
  example_ihdr 1 1 8 6 ++ example_actl 0 ++ example_idat3 ++ example_iend

/-- An animation of one frame in which an IDAT chunk of three bytes precedes the fcTL chunk
of frame 0, and no data chunk follows it. -/
def example_idat_before_fctl : List Byte :=
  example_ihdr 1 1 8 6 ++ example_actl 1 ++ example_idat3 ++ example_fctl 0 ++ example_iend

/-- An animation of one frame in which an IDAT chunk of seven bytes precedes the fcTL chunk
of frame 0, which an fdAT chunk of length 6 follows. -/
def example_idat_fctl_fdat : List Byte :=
  example_ihdr 1 1 8 6 ++ example_actl 1 ++
    example_chunk [73, 68, 65, 84] [1, 2, 3, 4, 5, 6, 7] ++ example_fctl 0 ++
    example_fdat 0 0 0 0 5 6 ++ example_iend

/-! ## Concrete inputs for the padding bits and the unfiltering in place -/

/-- A greyscale image of 2 by 2 pixels of depth 1: one byte per row, six padding bits. -/
def example_bits : List Byte := example_ihdr 2 2 1 0 ++ example_idat3 ++ example_iend

/-- Some rows of 16 bits each: 1011 0000 1111 0000, then 0110 0000 0000 1111. -/
def example_bit_rows : Mem := fun a => ([176, 240, 96, 15] : List Byte).getD a 0

/-- A greyscale image of depth 1 whose IHDR declares width `2^32 - 1` and height 1. -/
def example_wide_bits : List Byte :=
  [137, 80, 78, 71, 13, 10, 26, 10, 0, 0, 0, 13, 73, 72, 68, 82, 255, 255, 255, 255,
   0, 0, 0, 1, 1, 0, 0, 0, 0, 0, 0, 0, 0] ++ example_idat3 ++ example_iend

/-- Some raw rows: the bytes 128, 64, 32, and zero after them. -/
def example_raw_bits : Nat → Byte := fun k => ([128, 64, 32] : List Byte).getD k 0

/-! ## Reference definitions for the data of a frame -/

/-- The compressed data of a frame in the words of the specification (sections 4.3 and 6):
the payloads of its data chunks in stream order, an IDAT payload whole and an fdAT payload
without its four bytes of sequence number. -/
def frame_payloads : List spec_chunk → List Byte
  | [] => []
  | c :: cs =>
    if c.type = type_IDAT then c.data ++ frame_payloads cs
    else if c.type = type_fdAT then c.data.drop 4 ++ frame_payloads cs
    else frame_payloads cs

/-- The chunks `cs` are the run of chunks that starts at offset `o` of the stream `buffer`
and ends before the next IEND or fcTL chunk: they lie one after the other, each within the
stream as section 6 lays a chunk out; every fdAT chunk among them holds its four bytes of
sequence number, which read as an `unsigned int` of the host count up from `seq`; and after
the last of them comes the end of the stream or the header of an IEND or fcTL chunk. -/
def frame_run (buffer : List Byte) : List spec_chunk → Nat → Nat → Prop
  | [], o, _ =>
    buffer.length ≤ o ∨
      (o + 12 ≤ buffer.length ∧
        (chunk_type_at buffer o = type_IEND ∨ chunk_type_at buffer o = type_fcTL))
  | c :: cs, o, seq =>
    c.offset = o ∧ c.type = chunk_type_at buffer o ∧
    c.data = (buffer.drop (o + 8)).take (be32 buffer o) ∧
    chunk_in_bounds buffer o ∧ c.type ≠ type_IEND ∧ c.type ≠ type_fcTL ∧
    (c.type = type_fdAT → 4 ≤ c.data.length ∧ native_u32 c.data = seq) ∧
    frame_run buffer cs (o + be32 buffer o + 12)
      (if c.type = type_fdAT then u32 (seq + 1) else seq)

instance frame_run_decidable (buffer : List Byte) :
    ∀ (cs : List spec_chunk) (o seq : Nat), Decidable (frame_run buffer cs o seq)
  | [], o, seq => by
    unfold frame_run
    infer_instance
  | c :: cs, o, seq => by
    unfold frame_run
    have _ := frame_run_decidable buffer cs
    infer_instance

/-! # Theorems -/

/-! ## Loops -/

theorem forLoop_succ_last {σ : Type} (body : Nat → σ → σ) (count start : Nat) (s : σ) :
    forLoop body (count + 1) start s = body (start + count) (forLoop body count start s) := by
  induction count generalizing start s with
  | zero => simp [forLoop]
  | succ k ih =>
    rw [forLoop, ih (start + 1) (body start s)]
    have e : start + 1 + k = start + (k + 1) := by omega
    rw [e]
    rfl

theorem forLoop_add {σ : Type} (body : Nat → σ → σ) (a b start : Nat) (s : σ) :
    forLoop body (a + b) start s = forLoop body b (start + a) (forLoop body a start s) := by
  induction b with
  | zero => simp [forLoop]
  | succ k ih =>
    rw [← Nat.add_assoc, forLoop_succ_last, ih, forLoop_succ_last]
    have e : start + (a + k) = start + a + k := by omega
    rw [e]

theorem forLoop_congr {σ : Type} (body1 body2 : Nat → σ → σ) (count start : Nat) (s : σ)
    (h : ∀ i t, start ≤ i → i < start + count → body1 i t = body2 i t) :
    forLoop body1 count start s = forLoop body2 count start s := by
  induction count with
  | zero => simp [forLoop]
  | succ k ih =>
    rw [forLoop_succ_last, forLoop_succ_last, ih (fun i t h1 h2 => h i t h1 (by omega))]
    exact h _ _ (by omega) (by omega)

theorem writes_succ (recon : Nat) (val : Nat → Mem → Byte) (k : Nat) (mem : Mem) :
    writes recon val (k + 1) mem
      = store (writes recon val k mem) (recon + k) (val k (writes recon val k mem)) := by
  unfold writes
  rw [forLoop_succ_last]
  simp

theorem writes_stable (recon : Nat) (val : Nat → Mem → Byte) (mem : Mem) (j k : Nat)
    (hjk : j ≤ k) (x : Nat) (hx : x < recon + j ∨ recon + k ≤ x) :
    writes recon val k mem x = writes recon val j mem x := by
  induction k with
  | zero =>
    have : j = 0 := by omega
    subst this; rfl
  | succ n ih =>
    by_cases hj : j = n + 1
    · subst hj; rfl
    · rw [writes_succ, store]
      have hne : x ≠ recon + n := by omega
      simp only [hne, if_false]
      exact ih (by omega) (by omega)

theorem writes_frame (recon : Nat) (val : Nat → Mem → Byte) (mem : Mem) (k : Nat)
    (x : Nat) (hx : x < recon ∨ recon + k ≤ x) :
    writes recon val k mem x = mem x := by
  have h := writes_stable recon val mem 0 k (Nat.zero_le k) x (by omega)
  rw [h]; rfl

theorem writes_at (recon : Nat) (val : Nat → Mem → Byte) (mem : Mem) (j k : Nat)
    (hjk : j < k) :
    writes recon val k mem (recon + j) = val j (writes recon val j mem) := by
  rw [writes_stable recon val mem (j + 1) k (by omega) (recon + j) (by omega), writes_succ]
  simp [store]

/-- Two consecutive loops over `[0, a)` and `[a, a + b)` as one loop. -/
theorem forLoop_two_phase {σ : Type} (body1 body2 : Nat → σ → σ) (a b : Nat) (s : σ) :
    forLoop body2 b a (forLoop body1 a 0 s)
      = forLoop (fun i t => if i < a then body1 i t else body2 i t) (a + b) 0 s := by
  rw [forLoop_add]
  have e1 : forLoop (fun i t => if i < a then body1 i t else body2 i t) a 0 s
      = forLoop body1 a 0 s := by
    apply forLoop_congr
    intro i t _ h2
    have : i < a := by omega
    simp [this]
  rw [e1, Nat.zero_add]
  apply forLoop_congr
  intro i t h1 _
  have : ¬ i < a := by omega
  simp [this]

/-! ## Scanline reconstruction -/

theorem unfilter_scanline_eq_writes (upng : upng_t) (mem : Mem) (recon scanline : Nat)
    (precon : Option Nat) (bytewidth t length : Nat) (ht : t ≤ 4) :
    unfilter_scanline upng mem recon scanline precon bytewidth t length
      = (upng, writes recon (scanline_value recon scanline precon bytewidth t)
          (scanline_count bytewidth t length) mem) := by
  have h2 : ∀ (b1 b2 : Nat → Mem → Mem) (v : Nat → Mem → Byte),
      (∀ i m, (if i < bytewidth then b1 i m else b2 i m) = store m (recon + i) (v i m)) →
      forRange bytewidth length b2 (forRange 0 bytewidth b1 mem)
        = writes recon v (bytewidth + (length - bytewidth)) mem := by
    intro b1 b2 v hv
    unfold forRange writes
    rw [Nat.sub_zero, forLoop_two_phase]
    congr 1
    funext i m
    exact hv i m
  have h1 : ∀ (v : Nat → Mem → Byte),
      forRange 0 length (fun i m => store m (recon + i) (v i m)) mem
        = writes recon v length mem := by
    intro v
    unfold forRange writes
    rw [Nat.sub_zero]
  have ht' : t = 0 ∨ t = 1 ∨ t = 2 ∨ t = 3 ∨ t = 4 := by omega
  cases precon <;> rcases ht' with rfl | rfl | rfl | rfl | rfl <;>
    simp only [unfilter_scanline, scanline_count] <;>
    first
    | (rw [h1]; rfl)
    | (rw [h2]; intro i m; simp only [scanline_value]; split <;> rfl)

theorem toByte_val (n : Nat) : (toByte n).val = n % 256 := rfl

theorem intToByte_val (z : Int) : ((intToByte z).val : Int) = z % 256 := by
  unfold intToByte
  rw [toByte_val]
  omega

theorem paeth_predictor_eq_spec (a b c : Int) : paeth_predictor a b c = spec_paeth a b c := by
  unfold paeth_predictor spec_paeth
  simp only []
  split_ifs <;> omega

theorem scanline_count_ge (bytewidth t length : Nat) :
    length ≤ scanline_count bytewidth t length := by
  unfold scanline_count
  split <;> omega

theorem unfilter_scanline_uniform_aux (upng : upng_t) (mem : Mem) (recon scanline : Nat)
    (precon : Option Nat) (bytewidth t length i : Nat)
    (hbw : 1 ≤ bytewidth) (ht : t ≤ 4) (hi : i < length)
    (hscan : recon ≤ scanline ∨ scanline + length ≤ recon)
    (hprev : ∀ p, precon = some p → p + length ≤ recon ∨ recon + length ≤ p) :
    let out := (unfilter_scanline upng mem recon scanline precon bytewidth t length).2
    let left : Nat := if i < bytewidth then 0 else (out (recon + (i - bytewidth))).val
    let up : Nat := precon_at mem precon i
    let upleft : Nat := if i < bytewidth then 0 else precon_at mem precon (i - bytewidth)
    ((out (recon + i)).val : Int)
      = (((mem (scanline + i)).val : Int) + spec_predictor t left up upleft) % 256 := by
  intro out left up upleft
  have hout : out = writes recon (scanline_value recon scanline precon bytewidth t)
      (scanline_count bytewidth t length) mem := by
    simp only [out, unfilter_scanline_eq_writes upng mem recon scanline precon bytewidth t length ht]
  have hN := scanline_count_ge bytewidth t length
  have hat : out (recon + i) = scanline_value recon scanline precon bytewidth t i
      (writes recon (scanline_value recon scanline precon bytewidth t) i mem) := by
    rw [hout]; exact writes_at _ _ _ _ _ (by omega)
  have F1 : writes recon (scanline_value recon scanline precon bytewidth t) i mem (scanline + i)
      = mem (scanline + i) := writes_frame _ _ _ _ _ (by omega)
  have F2 : bytewidth ≤ i →
      writes recon (scanline_value recon scanline precon bytewidth t) i mem
        (recon + (i - bytewidth)) = out (recon + (i - bytewidth)) := by
    intro h
    rw [hout]
    exact (writes_stable _ _ _ i _ (by omega) _ (by omega)).symm
  have F3 : ∀ p, precon = some p →
      writes recon (scanline_value recon scanline precon bytewidth t) i mem (p + i)
        = mem (p + i) := by
    intro p hp
    exact writes_frame _ _ _ _ _ (by have := hprev p hp; omega)
  have F4 : ∀ p, precon = some p →
      writes recon (scanline_value recon scanline precon bytewidth t) i mem (p + (i - bytewidth))
        = mem (p + (i - bytewidth)) := by
    intro p hp
    exact writes_frame _ _ _ _ _ (by have := hprev p hp; omega)
  have hb : (mem (scanline + i)).val < 256 := (mem (scanline + i)).isLt
  rw [hat]
  have ht' : t = 0 ∨ t = 1 ∨ t = 2 ∨ t = 3 ∨ t = 4 := by omega
  cases precon with
  | none =>
    rcases ht' with rfl | rfl | rfl | rfl | rfl <;>
      simp only [scanline_value, spec_predictor, left, up, upleft, precon_at] <;>
      (try split_ifs) <;>
      (try rw [F2 (by omega)]) <;>
      simp only [F1, toByte_val, intToByte_val, paeth_predictor_eq_spec] <;>
      (try push_cast) <;> (try simp [spec_paeth]) <;> omega
  | some p =>
    have F3' := F3 p rfl
    have F4' := F4 p rfl
    rcases ht' with rfl | rfl | rfl | rfl | rfl <;>
      simp only [scanline_value, spec_predictor, left, up, upleft, precon_at] <;>
      (try split_ifs) <;>
      (try rw [F2 (by omega)]) <;>
      simp only [F1, F3', F4', toByte_val, intToByte_val, paeth_predictor_eq_spec] <;>
      (try push_cast) <;> omega

theorem unfilter_scanline_upng (upng : upng_t) (mem : Mem) (recon scanline : Nat)
    (precon : Option Nat) (bytewidth t length : Nat) (ht : t ≤ 4) :
    (unfilter_scanline upng mem recon scanline precon bytewidth t length).1 = upng := by
  rw [unfilter_scanline_eq_writes upng mem recon scanline precon bytewidth t length ht]

/-- A row produced by the reference filter is reconstructed by `unfilter_scanline`. -/
theorem unfilter_scanline_inverts (upng : upng_t) (mem : Mem) (recon scanline : Nat)
    (precon : Option Nat) (bytewidth t length : Nat) (row prev : Nat → Byte)
    (hbw : 1 ≤ bytewidth) (ht : t ≤ 4)
    (hscan : recon ≤ scanline ∨ scanline + length ≤ recon)
    (hprev : ∀ p, precon = some p → p + length ≤ recon ∨ recon + length ≤ p)
    (hin : ∀ i, i < length →
      mem (scanline + i) = reference_filter_byte t bytewidth row prev i)
    (hup : ∀ p, precon = some p → ∀ i, i < length → mem (p + i) = prev i)
    (hup0 : precon = none → ∀ i, i < length → prev i = 0) :
    ∀ i, i < length →
      (unfilter_scanline upng mem recon scanline precon bytewidth t length).2 (recon + i)
        = row i := by
  intro i
  induction i using Nat.strong_induction_on with
  | _ i ih =>
    intro hi
    have h := unfilter_scanline_uniform_aux upng mem recon scanline precon bytewidth t length i
      hbw ht hi hscan hprev
    simp only at h
    have hrow : (row i).val < 256 := (row i).isLt
    apply Fin.ext
    have hl : (if i < bytewidth then 0 else
        ((unfilter_scanline upng mem recon scanline precon bytewidth t length).2
          (recon + (i - bytewidth))).val)
        = (if i < bytewidth then 0 else (row (i - bytewidth)).val) := by
      split_ifs with hlt
      · rfl
      · rw [ih (i - bytewidth) (by omega) (by omega)]
    rw [hl] at h
    have hu : ∀ j, j < length → precon_at mem precon j = (prev j).val := by
      intro j hj
      cases hp : precon with
      | none => simp [precon_at, hup0 hp j hj]
      | some p => simp [precon_at, hup p hp j hj]
    have hul : (if i < bytewidth then 0 else precon_at mem precon (i - bytewidth))
        = (if i < bytewidth then 0 else (prev (i - bytewidth)).val) := by
      split_ifs with hlt
      · rfl
      · exact hu _ (by omega)
    rw [hu i hi, hul, hin i hi] at h
    unfold reference_filter_byte at h
    simp only [intToByte_val] at h
    omega

theorem unfilter_scanline_frame (upng : upng_t) (mem : Mem) (recon scanline : Nat)
    (precon : Option Nat) (bytewidth t length : Nat) (ht : t ≤ 4) (hbw : bytewidth ≤ length)
    (x : Nat) (hx : x < recon ∨ recon + length ≤ x) :
    (unfilter_scanline upng mem recon scanline precon bytewidth t length).2 x = mem x := by
  rw [unfilter_scanline_eq_writes upng mem recon scanline precon bytewidth t length ht]
  apply writes_frame
  have : scanline_count bytewidth t length = length := by
    unfold scanline_count
    split <;> omega
  omega

theorem unfilter_rows_inverts (out inp bw L h : Nat) (ft : Nat → Nat) (raw filt : Nat → Byte)
    (hbwL : bw ≤ L) (hbw1 : 1 ≤ bw ∨ L = 0) (hsz : (L + 1) * h < 18446744073709551616)
    (hft : ∀ y, y < h → ft y ≤ 4)
    (hty : ∀ y, y < h → filt ((L + 1) * y) = toByte (ft y))
    (hfilt : ∀ y, y < h → ∀ i, i < L → filt ((L + 1) * y + 1 + i)
      = reference_filter_byte (ft y) bw (fun i => raw (L * y + i))
          (fun i => if y = 0 then 0 else raw (L * (y - 1) + i)) i)
    (halias : out = inp ∨ inp + (L + 1) * h ≤ out ∨ out + L * h ≤ inp) :
    ∀ (count y : Nat) (prevline : Option Nat) (upng : upng_t) (mem : Mem),
      y + count = h → upng.error = .UPNG_EOK →
      prevline = (if y = 0 then none else some (out + L * (y - 1))) →
      (∀ k, k < L * y → mem (out + k) = raw k) →
      (∀ a, (L + 1) * y ≤ a → a < (L + 1) * h → mem (inp + a) = filt a) →
      (unfilter_rows out inp bw L count y prevline upng mem).1 = upng ∧
      ∀ k, k < L * h →
        (unfilter_rows out inp bw L count y prevline upng mem).2 (out + k) = raw k := by
  intro count
  induction count with
  | zero =>
    intro y prevline upng mem hy _ _ ha _
    have : y = h := by omega
    subst this
    exact ⟨rfl, fun k hk => ha k hk⟩
  | succ n ih =>
    intro y prevline upng mem hy herr hprev ha hb
    have hyh : y < h := by omega
    have e1 : (L + 1) * y = L * y + y := by ring
    have e2 : (L + 1) * (y + 1) = L * y + y + L + 1 := by ring
    have e3 : L * (y + 1) = L * y + L := by ring
    have e4 : (L + 1) * h = L * h + h := by ring
    have m1 : (L + 1) * (y + 1) ≤ (L + 1) * h := Nat.mul_le_mul_left _ (by omega)
    have m2 : L * (y + 1) ≤ L * h := Nat.mul_le_mul_left _ (by omega)
    have hu1 : u64 (L * y) = L * y := by unfold u64; omega
    have hu2 : u64 ((1 + L) * y) = (L + 1) * y := by
      rw [Nat.add_comm 1 L]; unfold u64; omega
    have hfty : (mem (inp + (L + 1) * y)).val = ft y := by
      rw [hb _ (Nat.le_refl _) (by omega), hty y hyh, toByte_val]
      have := hft y hyh
      omega
    have ht := hft y hyh
    rw [unfilter_rows]
    simp only [hu1, hu2, hfty]
    rw [unfilter_scanline_upng _ _ _ _ _ _ _ _ ht]
    simp only [herr, ne_eq, not_true_eq_false, if_false]
    apply ih (y + 1) _ upng _ (by omega) herr (by simp)
    · -- the reconstructed rows
      intro k hk
      by_cases hlt : k < L * y
      · rw [unfilter_scanline_frame _ _ _ _ _ _ _ _ ht hbwL _ (by omega)]
        exact ha k hlt
      · have hk' : out + k = out + L * y + (k - L * y) := by omega
        have hL0 : L ≠ 0 := by
          intro h0; subst h0; simp at hk
        rw [hk']
        rw [unfilter_scanline_inverts upng mem (out + L * y) (inp + (L + 1) * y + 1) prevline bw
          (ft y) L (fun i => raw (L * y + i)) (fun i => if y = 0 then 0 else raw (L * (y - 1) + i))
          (by omega) ht (by omega)]
        · show raw (L * y + (k - L * y)) = raw k
          congr 1
          omega
        · intro p hp
          rw [hprev] at hp
          split_ifs at hp with hy0
          simp only [Option.some.injEq] at hp
          subst hp
          left
          have : L * (y - 1) + L = L * y := by
            obtain ⟨z, rfl⟩ : ∃ z, y = z + 1 := ⟨y - 1, by omega⟩
            simp only [Nat.add_sub_cancel]; ring
          omega
        · intro i hi
          have := hb ((L + 1) * y + 1 + i) (by omega) (by omega)
          rw [← hfilt y hyh i hi, ← this]
          congr 1
          omega
        · intro p hp i hi
          rw [hprev] at hp
          split_ifs at hp with hy0
          simp only [Option.some.injEq] at hp
          subst hp
          simp only [hy0, if_false]
          have : L * (y - 1) + L = L * y := by
            obtain ⟨z, rfl⟩ : ∃ z, y = z + 1 := ⟨y - 1, by omega⟩
            simp only [Nat.add_sub_cancel]; ring
          rw [Nat.add_assoc]
          exact ha _ (by omega)
        · intro hp i _
          rw [hprev] at hp
          split_ifs at hp with hy0
          simp [hy0]
        · omega
    · -- the rows still to be read
      intro a ha1 ha2
      rw [unfilter_scanline_frame _ _ _ _ _ _ _ _ ht hbwL _ (by omega)]
      exact hb a (by omega) ha2

theorem reference_filter_type (w bpp : Nat) (ft : Nat → Nat) (raw : Nat → Byte) (y : Nat) :
    reference_filter w bpp ft raw (((w * bpp + 7) / 8 + 1) * y) = toByte (ft y) := by
  unfold reference_filter
  simp only
  rw [Nat.mul_mod_right, Nat.mul_div_cancel_left _ (Nat.succ_pos _)]
  simp

theorem reference_filter_data (w bpp : Nat) (ft : Nat → Nat) (raw : Nat → Byte) (y i : Nat)
    (hi : i < (w * bpp + 7) / 8) :
    reference_filter w bpp ft raw (((w * bpp + 7) / 8 + 1) * y + 1 + i)
      = reference_filter_byte (ft y) (max 1 ((bpp + 7) / 8))
          (fun i => raw ((w * bpp + 7) / 8 * y + i))
          (fun i => if y = 0 then 0 else raw ((w * bpp + 7) / 8 * (y - 1) + i)) i := by
  unfold reference_filter
  simp only
  have hd : (((w * bpp + 7) / 8 + 1) * y + 1 + i) / ((w * bpp + 7) / 8 + 1) = y := by
    rw [Nat.add_assoc, Nat.mul_add_div (Nat.succ_pos _), Nat.div_eq_of_lt (by omega)]
    rfl
  have hm : (((w * bpp + 7) / 8 + 1) * y + 1 + i) % ((w * bpp + 7) / 8 + 1) = 1 + i := by
    rw [Nat.add_assoc, Nat.mul_add_mod, Nat.mod_eq_of_lt (by omega)]
  rw [hd, hm]
  have : 1 + i ≠ 0 := by omega
  simp only [this, if_false]
  congr 1
  omega

theorem unfilter_inverts_aux (upng : upng_t) (mem : Mem) (out inp w h bpp : Nat)
    (ft : Nat → Nat) (raw : Nat → Byte)
    (hw : 1 ≤ w) (hov : w * bpp + 7 < 4294967296) (hh : h < 4294967296)
    (herr : upng.error = .UPNG_EOK)
    (hft : ∀ y, y < h → ft y ≤ 4)
    (hmem : ∀ a, a < ((w * bpp + 7) / 8 + 1) * h →
      mem (inp + a) = reference_filter w bpp ft raw a)
    (halias : out = inp ∨ inp + ((w * bpp + 7) / 8 + 1) * h ≤ out ∨
      out + (w * bpp + 7) / 8 * h ≤ inp) :
    (unfilter upng mem out inp w h bpp).1 = upng ∧
    ∀ k, k < (w * bpp + 7) / 8 * h →
      (unfilter upng mem out inp w h bpp).2 (out + k) = raw k := by
  have hb : bpp ≤ w * bpp := Nat.le_mul_of_pos_left _ hw
  have e1 : u32 (bpp + 7) = bpp + 7 := by unfold u32; omega
  have e2 : u32 (u32 (w * bpp) + 7) = w * bpp + 7 := by unfold u32; omega
  have hL : (w * bpp + 7) / 8 + 1 ≤ 536870912 := by omega
  have hsz : ((w * bpp + 7) / 8 + 1) * h < 18446744073709551616 := by
    calc ((w * bpp + 7) / 8 + 1) * h ≤ 536870912 * h := Nat.mul_le_mul_right _ hL
      _ < 18446744073709551616 := by omega
  unfold unfilter
  simp only [e1, e2]
  apply unfilter_rows_inverts out inp ((bpp + 7) / 8) ((w * bpp + 7) / 8) h ft raw
    (reference_filter w bpp ft raw) (by omega) _ hsz hft _ _ halias h 0 none upng mem
    (by omega) herr (by simp) (by intro k hk; simp at hk) (by intro a _ ha; exact hmem a ha)
  · by_cases h0 : bpp = 0
    · right; subst h0; simp
    · left; omega
  · intro y _
    exact reference_filter_type w bpp ft raw y
  · intro y _ i hi
    rw [reference_filter_data w bpp ft raw y i hi]
    have : 1 ≤ (bpp + 7) / 8 := by
      by_cases h0 : bpp = 0
      · subst h0; simp at hi
      · omega
    rw [Nat.max_eq_right this]

/-! ## Claims on scanline reconstruction -/

/-- C1: for every row length, every `bytewidth ≥ 1`, every filter type `t ≤ 4` and every
column `i` of the row, `unfilter_scanline` leaves in `recon[i]` the value
`(s[i] + pred_t(left, up, upleft)) mod 256`, where `s` is the filtered row as it was on
entry, `left = recon[i - bytewidth]` (0 in the first `bytewidth` columns), `up = prev[i]`
and `upleft = prev[i - bytewidth]` (0 without a previous row or in the first columns).
The row `recon` may lie at or before `scanline` in memory (the in-place use) or after its
end, and the previous row is disjoint from `recon`. -/
theorem unfilter_scanline_uniform (upng : upng_t) (mem : Mem) (recon scanline : Nat)
    (precon : Option Nat) (bytewidth t length i : Nat)
    (hbw : 1 ≤ bytewidth) (ht : t ≤ 4) (hi : i < length)
    (hscan : recon ≤ scanline ∨ scanline + length ≤ recon)
    (hprev : ∀ p, precon = some p → p + length ≤ recon ∨ recon + length ≤ p) :
    let out := (unfilter_scanline upng mem recon scanline precon bytewidth t length).2
    let left : Nat := if i < bytewidth then 0 else (out (recon + (i - bytewidth))).val
    let up : Nat := precon_at mem precon i
    let upleft : Nat := if i < bytewidth then 0 else precon_at mem precon (i - bytewidth)
    ((out (recon + i)).val : Int)
      = (((mem (scanline + i)).val : Int) + spec_predictor t left up upleft) % 256 :=
  unfilter_scanline_uniform_aux upng mem recon scanline precon bytewidth t length i
    hbw ht hi hscan hprev

/-- Witness for C1: column 2 of the Paeth row of `example_rows`, reconstructed in place. -/
theorem unfilter_scanline_uniform_witness :
    (1 ≤ 2 ∧ 4 ≤ 4 ∧ 2 < 4) ∧
    (((unfilter_scanline (upng_new_from_bytes []) example_rows 4 6 (some 0) 2 4 4).2
        (4 + 2)).val : Int)
      = (((example_rows (6 + 2)).val : Int) + spec_predictor 4
          (if 2 < 2 then 0 else
            ((unfilter_scanline (upng_new_from_bytes []) example_rows 4 6 (some 0) 2 4 4).2
              (4 + (2 - 2))).val)
          (precon_at example_rows (some 0) 2)
          (if 2 < 2 then 0 else precon_at example_rows (some 0) (2 - 2))) % 256 :=
  ⟨by decide,
   unfilter_scanline_uniform (upng_new_from_bytes []) example_rows 4 6 (some 0) 2 4 4 2
    (by decide) (by decide) (by decide) (by decide)
    (by intro p hp; cases hp; decide)⟩

/-- C2: for all `a`, `b`, `c` in `0..255`, `paeth_predictor a b c` is one of `a`, `b`, `c`;
its distance to `p = a + b - c` is at most each of `|p - a|`, `|p - b|`, `|p - c|`; it is
`a` whenever `a` is among the nearest, and `b` whenever `b` is among the nearest and `a`
is not. -/
theorem paeth_predictor_nearest (a b c : Int) (ha : 0 ≤ a ∧ a ≤ 255) (hb : 0 ≤ b ∧ b ≤ 255)
    (hc : 0 ≤ c ∧ c ≤ 255) :
    (paeth_predictor a b c = a ∨ paeth_predictor a b c = b ∨ paeth_predictor a b c = c) ∧
    (a + b - c - paeth_predictor a b c).natAbs ≤ (a + b - c - a).natAbs ∧
    (a + b - c - paeth_predictor a b c).natAbs ≤ (a + b - c - b).natAbs ∧
    (a + b - c - paeth_predictor a b c).natAbs ≤ (a + b - c - c).natAbs ∧
    ((a + b - c - a).natAbs ≤ (a + b - c - b).natAbs ∧
      (a + b - c - a).natAbs ≤ (a + b - c - c).natAbs → paeth_predictor a b c = a) ∧
    ((a + b - c - b).natAbs < (a + b - c - a).natAbs ∧
      (a + b - c - b).natAbs ≤ (a + b - c - c).natAbs → paeth_predictor a b c = b) := by
  have _ := ha
  have _ := hb
  have _ := hc
  unfold paeth_predictor
  simp only []
  split_ifs <;> omega

/-- Witness for C2: the neighbours 11, 35, 10, for which the predictor is 35. -/
theorem paeth_predictor_nearest_witness :
    ((0 : Int) ≤ 11 ∧ (11 : Int) ≤ 255) ∧ paeth_predictor 11 35 10 = 35 ∧
    ((paeth_predictor 11 35 10 = 11 ∨ paeth_predictor 11 35 10 = 35 ∨
        paeth_predictor 11 35 10 = 10) ∧
      (11 + 35 - 10 - paeth_predictor 11 35 10).natAbs ≤ (11 + 35 - 10 - 11 : Int).natAbs ∧
      (11 + 35 - 10 - paeth_predictor 11 35 10).natAbs ≤ (11 + 35 - 10 - 35 : Int).natAbs ∧
      (11 + 35 - 10 - paeth_predictor 11 35 10).natAbs ≤ (11 + 35 - 10 - 10 : Int).natAbs ∧
      ((11 + 35 - 10 - 11 : Int).natAbs ≤ (11 + 35 - 10 - 35 : Int).natAbs ∧
        (11 + 35 - 10 - 11 : Int).natAbs ≤ (11 + 35 - 10 - 10 : Int).natAbs →
        paeth_predictor 11 35 10 = 11) ∧
      ((11 + 35 - 10 - 35 : Int).natAbs < (11 + 35 - 10 - 11 : Int).natAbs ∧
        (11 + 35 - 10 - 35 : Int).natAbs ≤ (11 + 35 - 10 - 10 : Int).natAbs →
        paeth_predictor 11 35 10 = 35)) :=
  ⟨by decide, by decide,
   paeth_predictor_nearest 11 35 10 (by decide) (by decide) (by decide)⟩

/-- C3, as amended: for every width `w ≥ 1`, height `h` and `bpp` (`unsigned` values) with
`w * bpp + 7 < 2^32`, every raw image of `ceil(w * bpp / 8) * h` bytes and every choice of
a filter type in `0..4` per row, running `unfilter` on the output of the reference PNG
filter yields exactly the raw image and sets no error, both when `out` is the input buffer
itself and when the two buffers are disjoint. -/
theorem unfilter_inverts_reference_filter (upng : upng_t) (mem : Mem) (out inp w h bpp : Nat)
    (ft : Nat → Nat) (raw : Nat → Byte)
    (hw : 1 ≤ w) (hov : w * bpp + 7 < 4294967296) (hh : h < 4294967296)
    (herr : upng.error = .UPNG_EOK)
    (hft : ∀ y, y < h → ft y ≤ 4)
    (hmem : ∀ a, a < ((w * bpp + 7) / 8 + 1) * h →
      mem (inp + a) = reference_filter w bpp ft raw a)
    (halias : out = inp ∨ inp + ((w * bpp + 7) / 8 + 1) * h ≤ out ∨
      out + (w * bpp + 7) / 8 * h ≤ inp) :
    (unfilter upng mem out inp w h bpp).1 = upng ∧
    ∀ k, k < (w * bpp + 7) / 8 * h →
      (unfilter upng mem out inp w h bpp).2 (out + k) = raw k :=
  unfilter_inverts_aux upng mem out inp w h bpp ft raw hw hov hh herr hft hmem halias

/-- Witness for C3: `example_raw` (2 pixels of 16 bits by 2 rows) filtered with Average and
Paeth and unfiltered in place; byte 6 comes back. -/
theorem unfilter_inverts_reference_filter_witness :
    (1 ≤ 2 ∧ 2 * 16 + 7 < 4294967296 ∧ 6 < (2 * 16 + 7) / 8 * 2) ∧
    (unfilter (upng_new_from_bytes [])
        (reference_filter 2 16 example_filter_types example_raw) 0 0 2 2 16).2 (0 + 6)
      = example_raw 6 :=
  ⟨by decide,
   (unfilter_inverts_reference_filter (upng_new_from_bytes [])
      (reference_filter 2 16 example_filter_types example_raw) 0 0 2 2 16
      example_filter_types example_raw (by decide) (by decide) (by decide) rfl
      (by intro y _; unfold example_filter_types; split <;> decide)
      (by intro a _; rw [Nat.zero_add]) (Or.inl rfl)).2 6 (by decide)⟩

/-- Counterexample to C3 as stated: for `w = 2^29`, `bpp = 8`, `h = 1` the product
`w * bpp` wraps to 0 in `unsigned` arithmetic, `unfilter` takes the rows to be empty, and
byte 0 of the result is the filter-type byte 0 instead of the raw byte 1. -/
theorem unfilter_inverts_reference_filter_counterexample :
    (unfilter (upng_new_from_bytes [])
        (reference_filter 536870912 8 (fun _ => 0) (fun _ => 1)) 0 0 536870912 1 8).2 (0 + 0)
      ≠ (fun _ => (1 : Byte)) 0 := by
  decide

/-! ## Header and chunk scanner -/

theorem byteAt_lt (p : List Byte) (i : Nat) : byteAt p i < 256 := (p.getD i 0).isLt

theorem MAKE_BYTE_of_lt (b : Nat) (h : b < 256) : MAKE_BYTE b = b := by
  unfold MAKE_BYTE
  have := Nat.and_pow_two_sub_one_eq_mod b 8
  simp only [Nat.reducePow, Nat.reduceSub] at this
  rw [this]
  omega

theorem dword_bits (a b c d : Nat) (hb : b < 256) (hc : c < 256) (hd : d < 256) :
    (a <<< 24) ||| (b <<< 16) ||| (c <<< 8) ||| d
      = a * 16777216 + b * 65536 + c * 256 + d := by
  simp only [Nat.shiftLeft_eq, Nat.reducePow]
  have h1 : a * 16777216 ||| b * 65536 = a * 16777216 + b * 65536 := by
    have := Nat.mul_add_lt_is_or (i := 24) (b := b * 65536) (by omega) a
    simp only [Nat.reducePow] at this
    rw [Nat.mul_comm a]; exact this.symm
  have h2 : (a * 16777216 + b * 65536) ||| c * 256 = a * 16777216 + b * 65536 + c * 256 := by
    have := Nat.mul_add_lt_is_or (i := 16) (b := c * 256) (by omega) (a * 256 + b)
    simp only [Nat.reducePow] at this
    have e : a * 16777216 + b * 65536 = 65536 * (a * 256 + b) := by omega
    rw [e]; exact this.symm
  have h3 : (a * 16777216 + b * 65536 + c * 256) ||| d
      = a * 16777216 + b * 65536 + c * 256 + d := by
    have := Nat.mul_add_lt_is_or (i := 8) (b := d) (by omega) (a * 65536 + b * 256 + c)
    simp only [Nat.reducePow] at this
    have e : a * 16777216 + b * 65536 + c * 256 = 256 * (a * 65536 + b * 256 + c) := by omega
    rw [e]; exact this.symm
  rw [h1, h2, h3]

theorem MAKE_DWORD_nat (a b c d : Nat) (ha : a < 256) (hb : b < 256) (hc : c < 256)
    (hd : d < 256) :
    MAKE_DWORD a b c d = toInt32 (a * 16777216 + b * 65536 + c * 256 + d) := by
  unfold MAKE_DWORD
  rw [MAKE_BYTE_of_lt a ha, MAKE_BYTE_of_lt b hb, MAKE_BYTE_of_lt c hc, MAKE_BYTE_of_lt d hd,
    dword_bits a b c d hb hc hd]

theorem MAKE_DWORD_PTR_eq (p : List Byte) (off : Nat) :
    MAKE_DWORD_PTR p off = toInt32 (be32 p off) := by
  unfold MAKE_DWORD_PTR be32
  exact MAKE_DWORD_nat _ _ _ _ (byteAt_lt _ _) (byteAt_lt _ _) (byteAt_lt _ _) (byteAt_lt _ _)

theorem be32_lt (p : List Byte) (off : Nat) : be32 p off < 4294967296 := by
  unfold be32
  have := byteAt_lt p off
  have := byteAt_lt p (off + 1)
  have := byteAt_lt p (off + 2)
  have := byteAt_lt p (off + 3)
  omega

theorem intToU32_toInt32 (n : Nat) (h : n < 4294967296) : intToU32 (toInt32 n) = n := by
  unfold intToU32 toInt32
  split <;> omega

theorem intToU64_toInt32 (n : Nat) (h : n < 4294967296) :
    intToU64 (toInt32 n)
      = if n < 2147483648 then n else n + 18446744069414584320 := by
  unfold intToU64 toInt32
  by_cases h1 : n < 2147483648
  · have h2 : n % 4294967296 < 2147483648 := by omega
    simp only [h1, h2, if_true]
    omega
  · have h2 : ¬ n % 4294967296 < 2147483648 := by omega
    simp only [h1, h2, if_false]
    omega

theorem toInt32_inj (m n : Nat) (hm : m < 4294967296) (hn : n < 4294967296)
    (h : toInt32 m = toInt32 n) : m = n := by
  unfold toInt32 at h
  split at h <;> split at h <;> omega

theorem intToU32_MAKE_DWORD_PTR (p : List Byte) (off : Nat) :
    intToU32 (MAKE_DWORD_PTR p off) = be32 p off := by
  rw [MAKE_DWORD_PTR_eq, intToU32_toInt32 _ (be32_lt p off)]

/-- The chunk length as the scanner sees it: the big-endian value when it is below `2^31`,
and a value above `INT_MAX` otherwise (the `int` is sign-extended). -/
theorem chunk_length_eq (p : List Byte) :
    intToU64 (upng_chunk_length p)
      = if be32 p 0 < 2147483648 then be32 p 0 else be32 p 0 + 18446744069414584320 := by
  unfold upng_chunk_length
  rw [MAKE_DWORD_PTR_eq, intToU64_toInt32 _ (be32_lt p 0)]

/-- A chunk type equals a four-character constant exactly when its four bytes do. -/
theorem MAKE_DWORD_PTR_eq_iff (p : List Byte) (off a b c d : Nat) (ha : a < 256)
    (hb : b < 256) (hc : c < 256) (hd : d < 256) :
    MAKE_DWORD_PTR p off = MAKE_DWORD a b c d ↔
      byteAt p off = a ∧ byteAt p (off + 1) = b ∧ byteAt p (off + 2) = c ∧
        byteAt p (off + 3) = d := by
  rw [MAKE_DWORD_PTR_eq, MAKE_DWORD_nat a b c d ha hb hc hd]
  have h0 := byteAt_lt p off
  have h1 := byteAt_lt p (off + 1)
  have h2 := byteAt_lt p (off + 2)
  have h3 := byteAt_lt p (off + 3)
  constructor
  · intro h
    have := toInt32_inj _ _ (be32_lt p off) (by omega) h
    unfold be32 at this
    omega
  · rintro ⟨rfl, rfl, rfl, rfl⟩
    rfl

theorem same_header_refl (u : upng_t) : same_header u u := by
  simp [same_header]

theorem same_header_trans {u v w : upng_t} (h1 : same_header u v) (h2 : same_header v w) :
    same_header u w := by
  unfold same_header at *
  obtain ⟨a1, a2, a3, a4, a5, a6, a7, a8, a9⟩ := h1
  obtain ⟨b1, b2, b3, b4, b5, b6, b7, b8, b9⟩ := h2
  refine ⟨?_, ?_, ?_, ?_, ?_, ?_, ?_, ?_, ?_⟩ <;> simp [*]

theorem okAll_ok {α : Type} {p : α → Prop} {x : Except Fault α} {a : α}
    (h : okAll p x) (hx : x = .ok a) : p a := by
  subst hx; exact h

theorem okAll_mono {α : Type} {p q : α → Prop} {x : Except Fault α}
    (h : ∀ a, p a → q a) (hx : okAll p x) : okAll q x := by
  cases x with
  | ok a => exact h a hx
  | error f => trivial

theorem okAll_of_forall {α : Type} {p : α → Prop} (x : Except Fault α) (h : ∀ a, p a) :
    okAll p x := by
  cases x with
  | ok a => exact h a
  | error f => trivial

theorem okAll_pure {α : Type} (p : α → Prop) (a : α) :
    okAll p (Except.ok a : Except Fault α) ↔ p a := Iff.rfl

theorem okAll_fault {α : Type} (p : α → Prop) (f : Fault) :
    okAll p (Except.error f : Except Fault α) ↔ True := Iff.rfl

theorem okAll_bind {α β : Type} (p : β → Prop) (x : Except Fault α)
    (k : α → Except Fault β) :
    okAll p (x.bind k) ↔ okAll (fun a => okAll p (k a)) x := by
  cases x <;> rfl

theorem okAll_ite {α : Type} (p : α → Prop) (c : Prop) [Decidable c]
    (x y : Except Fault α) :
    okAll p (if c then x else y) ↔ (c → okAll p x) ∧ (¬ c → okAll p y) := by
  split_ifs with h <;> simp [h]

theorem account_to_frame_same (u : upng_t) (index o len cur : Nat) :
    okAll (fun b => same_header u b.upng) (account_to_frame u index o len cur) := by
  unfold account_to_frame
  cases u.frames with
  | none => trivial
  | some frames =>
    simp only [okAll_ite, okAll_pure, okAll_fault]
    simp [same_header, Branch.upng]

theorem process_IDAT_same (u : upng_t) (o len cur : Nat) :
    okAll (fun b => same_header u b.upng) (process_IDAT u o len cur) := by
  have hs : same_header u (upng_setup_for_single_image u) := by
    simp [same_header, upng_setup_for_single_image]
  simp only [process_IDAT, okAll_ite, okAll_pure]
  refine ⟨fun _ => ?_, fun _ => ⟨fun _ => ⟨fun _ => hs, fun _ => ?_⟩, fun _ => ?_⟩⟩
  · simp [same_header, Branch.upng, SET_ERROR]
  · exact okAll_mono (fun b hb => same_header_trans hs hb) (account_to_frame_same _ _ _ _ _)
  · exact account_to_frame_same _ _ _ _ _

theorem process_FDAT_same (u : upng_t) (o len cur : Nat) :
    okAll (fun b => same_header u b.upng) (process_FDAT u o len cur) := by
  simp only [process_FDAT, okAll_ite, okAll_pure]
  refine ⟨fun _ => ?_, fun _ => account_to_frame_same _ _ _ _ _⟩
  simp [same_header, Branch.upng, SET_ERROR]

theorem process_ACTL_same (u : upng_t) (d cur : Nat) :
    okAll (fun b => same_header u b.upng) (process_ACTL u d cur) := by
  simp only [process_ACTL, okAll_ite, okAll_pure, okAll_bind]
  refine ⟨fun _ => ?_, fun _ => okAll_of_forall _ fun data => ?_⟩ <;>
    simp [same_header, Branch.upng, SET_ERROR]

theorem process_FCTL_frame_same (u : upng_t) (frames : List upng_frame) (data : List Byte)
    (cur : Nat) :
    okAll (fun b => same_header u b.upng) (process_FCTL_frame u frames data cur) := by
  simp only [process_FCTL_frame, okAll_ite, okAll_pure, okAll_fault]
  simp [same_header, Branch.upng, SET_ERROR]

theorem process_FCTL_same (u : upng_t) (d cur : Nat) :
    okAll (fun b => same_header u b.upng) (process_FCTL u d cur) := by
  unfold process_FCTL
  cases u.frames with
  | none => simp [okAll_pure, same_header, Branch.upng, SET_ERROR]
  | some frames =>
    simp only [okAll_ite, okAll_pure, okAll_bind]
    refine okAll_of_forall _ fun data => ?_
    refine ⟨?_, fun _ => ⟨?_, fun _ => ⟨?_, fun _ => process_FCTL_frame_same _ _ _ _⟩⟩⟩ <;>
      simp [same_header, Branch.upng, SET_ERROR]

theorem process_OFFS_same (u : upng_t) (d cur : Nat) :
    okAll (fun b => same_header u b.upng) (process_OFFS u d cur) := by
  simp only [process_OFFS, okAll_ite, okAll_pure, okAll_bind]
  refine okAll_of_forall _ fun data => ?_
  simp [same_header, Branch.upng, SET_ERROR]

theorem process_PLTE_same (u : upng_t) (d len cur : Nat) :
    okAll (fun b => same_header u b.upng) (process_PLTE u d len cur) := by
  simp only [process_PLTE, okAll_ite, okAll_pure, okAll_bind]
  refine okAll_of_forall _ fun data => ?_
  simp [same_header, Branch.upng, SET_ERROR]

theorem process_tRNS_same (u : upng_t) (d len cur : Nat) :
    okAll (fun b => same_header u b.upng) (process_tRNS u d len cur) := by
  simp only [process_tRNS, okAll_ite, okAll_pure, okAll_bind]
  refine okAll_of_forall _ fun data => ?_
  simp [same_header, Branch.upng, SET_ERROR]

theorem process_TEXT_same (u : upng_t) (d len cur : Nat) :
    okAll (fun b => same_header u b.upng) (process_TEXT u d len cur) := by
  simp only [process_TEXT, okAll_ite, okAll_pure, okAll_bind, okAll_fault]
  refine ⟨fun _ => trivial, fun _ => okAll_of_forall _ fun data => ?_⟩
  simp [same_header, Branch.upng, SET_ERROR, text_buffer_set, text_entry_set]

theorem process_chunk_type_same (u : upng_t) (hd : List Byte) (o d len cur : Nat) :
    okAll (fun b => same_header u b.upng) (process_chunk_type u hd o d len cur) := by
  simp only [process_chunk_type, okAll_ite, okAll_pure]
  refine ⟨fun _ => process_IDAT_same _ _ _ _, fun _ => ⟨fun _ => process_FDAT_same _ _ _ _,
    fun _ => ⟨fun _ => process_ACTL_same _ _ _, fun _ => ⟨fun _ => process_FCTL_same _ _ _,
    fun _ => ⟨fun _ => process_OFFS_same _ _ _, fun _ => ⟨fun _ => process_PLTE_same _ _ _ _,
    fun _ => ⟨fun _ => process_tRNS_same _ _ _ _, fun _ => ⟨fun _ => process_TEXT_same _ _ _ _,
    fun _ => ⟨fun _ => ?_, fun _ => ⟨fun _ => ?_, fun _ => ?_⟩⟩⟩⟩⟩⟩⟩⟩⟩⟩ <;>
    simp [Branch.upng, same_header, SET_ERROR]

theorem upng_process_chunk_same (u : upng_t) (o cur : Nat) :
    okAll (fun s => same_header u s.upng) (upng_process_chunk u o cur) := by
  simp only [upng_process_chunk, okAll_ite, okAll_pure, okAll_bind]
  refine ⟨fun _ => ?_, fun _ => okAll_of_forall _ fun hd => ⟨fun _ => ?_, fun _ =>
    ⟨fun _ => ?_, fun _ => ⟨fun _ => ?_, fun _ => ?_⟩⟩⟩⟩
  · simp [Step.upng, same_header, SET_ERROR]
  · simp [Step.upng, same_header, SET_ERROR]
  · simp [Step.upng, same_header, SET_ERROR]
  · simp [Step.upng, same_header, SET_ERROR]
  · refine okAll_mono ?_ (process_chunk_type_same u hd o _ _ cur)
    intro b hb
    cases b <;> exact hb

theorem upng_process_chunks_loop_same (fuel : Nat) :
    ∀ (u : upng_t) (o cur : Nat),
      okAll (fun u' => same_header u u') (upng_process_chunks_loop fuel u o cur) := by
  induction fuel with
  | zero =>
    intro u o cur
    simp only [upng_process_chunks_loop, okAll_ite, okAll_pure, okAll_fault]
    exact ⟨fun _ => trivial, fun _ => same_header_refl u⟩
  | succ n ih =>
    intro u o cur
    simp only [upng_process_chunks_loop, okAll_ite, okAll_pure, okAll_bind]
    refine ⟨fun _ => ?_, fun _ => same_header_refl u⟩
    refine okAll_mono ?_ (upng_process_chunk_same u o cur)
    intro s hs
    cases s with
    | next u' o' c' => exact okAll_mono (fun a ha => same_header_trans hs ha) (ih u' o' c')
    | stop u' => exact hs

theorem okAll_bind_of {α β : Type} (p : β → Prop) (x : Except Fault α)
    (k : α → Except Fault β) (h : ∀ a, x = .ok a → okAll p (k a)) : okAll p (x.bind k) := by
  cases x with
  | ok a => exact h a rfl
  | error f => trivial

theorem upng_byte_source_read_full (context : upng_byte_source_context) (off n : Nat)
    (bytes : List Byte) (h : upng_byte_source_read context off n = .ok bytes)
    (hlen : bytes.length = n) (hn : 0 < n) :
    bytes = (context.buffer.drop off).take n ∧ off + n ≤ context.buffer.length := by
  simp only [upng_byte_source_read, upng_byte_source_context.size] at h
  by_cases h1 : off ≥ context.buffer.length
  · simp only [h1, if_true] at h
    cases h; simp at hlen; omega
  · simp only [h1, if_false] at h
    by_cases h2 : u64 (off + n) > context.buffer.length
    · simp only [h2, if_true] at h
      by_cases h3 : off + (context.buffer.length - off) > context.buffer.length
      · simp only [h3, if_true] at h; cases h
      · simp only [h3, if_false] at h
        cases h
        simp only [List.length_take, List.length_drop] at hlen
        have e : context.buffer.length - off = n := by omega
        rw [e]
        exact ⟨rfl, by omega⟩
    · simp only [h2, if_false] at h
      by_cases h3 : off + n > context.buffer.length
      · simp only [h3, if_true] at h; cases h
      · simp only [h3, if_false] at h
        cases h
        exact ⟨rfl, by omega⟩

theorem source_read_full (source : upng_source) (off n : Nat) (bytes : List Byte)
    (h : source_read source off n = .ok bytes) (hlen : bytes.length = n) (hn : 0 < n) :
    ∃ context, source.user = some context ∧
      bytes = (context.buffer.drop off).take n ∧ off + n ≤ context.buffer.length := by
  unfold source_read at h
  cases hu : source.user with
  | none => rw [hu] at h; cases h
  | some context =>
    rw [hu] at h
    exact ⟨context, rfl, upng_byte_source_read_full context off n bytes h hlen hn⟩

theorem byteAt_take (l : List Byte) (n i : Nat) (h : i < n) :
    byteAt (l.take n) i = byteAt l i := by
  unfold byteAt
  simp [List.getD_eq_getElem?_getD, List.getElem?_take, h]

theorem byteAt_drop (l : List Byte) (n i : Nat) :
    byteAt (l.drop n) i = byteAt l (n + i) := by
  unfold byteAt
  simp [List.getD_eq_getElem?_getD]

theorem be32_take (l : List Byte) (n off : Nat) (h : off + 3 < n) :
    be32 (l.take n) off = be32 l off := by
  unfold be32
  rw [byteAt_take _ _ _ (by omega), byteAt_take _ _ _ (by omega), byteAt_take _ _ _ (by omega),
    byteAt_take _ _ _ (by omega)]

theorem header_fields_error (upng : upng_t) (header : List Byte) :
    (header_fields upng header).error = upng.error := rfl

theorem header_finish_error (upng : upng_t) : (header_finish upng).error = upng.error := by
  unfold header_finish
  split_ifs <;> rfl

theorem header_finish_same (upng : upng_t) :
    (header_finish upng).width = upng.width ∧ (header_finish upng).height = upng.height ∧
    (header_finish upng).color_depth = upng.color_depth ∧
    (header_finish upng).color_type = upng.color_type := by
  unfold header_finish
  split_ifs <;> simp

/-- What a successful `upng_header` has checked and stored. -/
theorem upng_header_ok_aux (upng : upng_t)
    (hstate : upng.state = .UPNG_NEW) (herr : upng.error = .UPNG_EOK) :
    okAll (fun upng' => upng'.error = .UPNG_EOK →
      ∃ context, upng.source.user = some context ∧
        29 ≤ upng.source.size ∧ 29 ≤ context.buffer.length ∧
        context.buffer.take 8 = PNG_HEADER ∧
        MAKE_DWORD_PTR (context.buffer.take 29) 12 = CHUNK_IHDR ∧
        byteAt context.buffer 26 = 0 ∧ byteAt context.buffer 27 = 0 ∧
        byteAt context.buffer 28 = 0 ∧
        upng'.width = be32 context.buffer 16 ∧ upng'.height = be32 context.buffer 20 ∧
        upng'.color_depth = byteAt context.buffer 24 ∧
        upng'.color_type = byteAt context.buffer 25 ∧
        ∃ u1, upng_process_chunks (header_fields upng (context.buffer.take 29)) = .ok u1 ∧
          upng' = header_finish u1)
      (upng_header upng) := by
  unfold upng_header
  simp only [herr, hstate, ne_eq, not_true_eq_false, if_false, okAll_ite, okAll_pure]
  refine ⟨fun _ => by simp [SET_ERROR], fun hsz => okAll_bind_of _ _ _ fun header hread => ?_⟩
  simp only [okAll_ite, okAll_pure, SET_ERROR, header_fields_error, herr]
  refine ⟨fun _ => by simp, fun hlen => ⟨fun _ => by simp, fun hsig => ⟨fun _ => by simp,
    fun hihdr => ⟨fun _ => by simp, fun _ => ⟨fun _ => by simp, fun h26 => ⟨fun _ => by simp,
    fun h27 => ⟨fun _ => by simp, fun h28 => okAll_bind_of _ _ _ fun u1 hscan => ?_⟩⟩⟩⟩⟩⟩⟩
  simp only [okAll_pure, header_finish_error]
  intro hok
  simp only [ne_eq, Decidable.not_not] at hlen hsig hihdr h26 h27 h28
  obtain ⟨context, hctx, hbytes, hbound⟩ := source_read_full _ _ _ _ hread hlen (by omega)
  simp only [Nat.zero_add, List.drop_zero] at hbytes hbound
  have hsame := okAll_ok (upng_process_chunks_loop_same _ _ _ _) hscan
  obtain ⟨hw, hh, hd, hc, _, _, _, _, _⟩ := hsame
  obtain ⟨fw, fh, fd, fc⟩ := header_finish_same u1
  subst hbytes
  refine ⟨context, hctx, by omega, hbound, ?_, hihdr, ?_, ?_, ?_, ?_, ?_, ?_, ?_, ?_⟩
  · rw [← hsig, List.take_take]; rfl
  · rw [← byteAt_take _ 29 26 (by omega)]; exact h26
  · rw [← byteAt_take _ 29 27 (by omega)]; exact h27
  · rw [← byteAt_take _ 29 28 (by omega)]; exact h28
  · rw [fw, hw, ← be32_take _ 29 16 (by omega)]
    exact intToU32_MAKE_DWORD_PTR _ _
  · rw [fh, hh, ← be32_take _ 29 20 (by omega)]
    exact intToU32_MAKE_DWORD_PTR _ _
  · rw [fd, hd, ← byteAt_take _ 29 24 (by omega)]; rfl
  · rw [fc, hc, ← byteAt_take _ 29 25 (by omega)]; rfl
  · exact ⟨u1, hscan, rfl⟩

theorem spec_format_bad_type (ct d : Nat) (h : 6 < ct) :
    spec_format ct d = .UPNG_BADFORMAT := by
  have h0 : ct ≠ 0 := by omega
  have h2 : ct ≠ 2 := by omega
  have h3 : ct ≠ 3 := by omega
  have h4 : ct ≠ 4 := by omega
  have h6 : ct ≠ 6 := by omega
  simp [spec_format, h0, h2, h3, h4, h6]

theorem spec_format_bad_depth (ct d : Nat) (h : 16 < d) :
    spec_format ct d = .UPNG_BADFORMAT := by
  have h1 : d ≠ 1 := by omega
  have h2 : d ≠ 2 := by omega
  have h4 : d ≠ 4 := by omega
  have h8 : d ≠ 8 := by omega
  have h16 : d ≠ 16 := by omega
  simp [spec_format, h1, h2, h4, h8, h16]

theorem determine_format_eq_spec (upng : upng_t) :
    determine_format upng = spec_format upng.color_type upng.color_depth := by
  unfold determine_format UPNG_PLT UPNG_LUM UPNG_RGB UPNG_LUMA UPNG_RGBA
  generalize upng.color_type = ct
  generalize upng.color_depth = d
  by_cases hct : ct ≤ 6
  · by_cases hd : d ≤ 16
    · interval_cases ct <;> interval_cases d <;> rfl
    · rw [spec_format_bad_depth ct d (by omega)]
      have h1 : d ≠ 1 := by omega
      have h2 : d ≠ 2 := by omega
      have h4 : d ≠ 4 := by omega
      have h8 : d ≠ 8 := by omega
      have h16 : d ≠ 16 := by omega
      simp [h1, h2, h4, h8, h16]
  · rw [spec_format_bad_type ct d (by omega)]
    have h0 : ct ≠ 0 := by omega
    have h2 : ct ≠ 2 := by omega
    have h3 : ct ≠ 3 := by omega
    have h4 : ct ≠ 4 := by omega
    have h6 : ct ≠ 6 := by omega
    simp [h0, h2, h3, h4, h6]

theorem spec_format_accepted (ct d : Nat) :
    spec_format ct d ≠ .UPNG_BADFORMAT ↔ accepted_pair ct d := by
  unfold accepted_pair
  by_cases hct : ct ≤ 6
  · by_cases hd : d ≤ 16
    · interval_cases ct <;> interval_cases d <;> simp [spec_format]
    · rw [spec_format_bad_depth ct d (by omega)]
      simp only [ne_eq, not_true_eq_false, false_iff]
      omega
  · rw [spec_format_bad_type ct d (by omega)]
    simp only [ne_eq, not_true_eq_false, false_iff]
    omega

theorem spec_format_injective (ct d ct' d' : Nat) (h : accepted_pair ct d)
    (h' : accepted_pair ct' d') (he : spec_format ct d = spec_format ct' d') :
    ct = ct' ∧ d = d' := by
  unfold accepted_pair at h h'
  rcases h with ⟨rfl, rfl | rfl | rfl | rfl⟩ | ⟨rfl, rfl | rfl⟩ | ⟨rfl, rfl | rfl | rfl | rfl⟩ |
    ⟨rfl, rfl | rfl | rfl | rfl⟩ | ⟨rfl, rfl | rfl⟩ <;>
  rcases h' with ⟨rfl, rfl | rfl | rfl | rfl⟩ | ⟨rfl, rfl | rfl⟩ | ⟨rfl, rfl | rfl | rfl | rfl⟩ |
    ⟨rfl, rfl | rfl | rfl | rfl⟩ | ⟨rfl, rfl | rfl⟩ <;>
  first | exact ⟨rfl, rfl⟩ | (exfalso; revert he; decide)
theorem u64_le (n : Nat) : u64 n ≤ n := by
  unfold u64
  exact Nat.mod_le _ _

theorem source_read_in_bounds (source : upng_source) (context : upng_byte_source_context)
    (off n : Nat) (hu : source.user = some context)
    (hb : off + n ≤ context.buffer.length) (hn : 0 < n) :
    source_read source off n = .ok ((context.buffer.drop off).take n) := by
  have h := u64_le (off + n)
  simp only [source_read, hu, upng_byte_source_read, upng_byte_source_context.size]
  have h1 : ¬ off ≥ context.buffer.length := by omega
  have h2 : ¬ u64 (off + n) > context.buffer.length := by omega
  have h3 : ¬ off + n > context.buffer.length := by omega
  simp only [h1, h2, h3, if_false]

theorem header_fields_format (upng : upng_t) (header : List Byte) :
    (header_fields upng header).format = spec_format (byteAt header 25) (byteAt header 24) := by
  unfold header_fields
  simp only
  rw [determine_format_eq_spec]

theorem CHUNK_IHDR_iff (p : List Byte) (off : Nat) :
    MAKE_DWORD_PTR p off = CHUNK_IHDR ↔
      byteAt p off = 73 ∧ byteAt p (off + 1) = 72 ∧ byteAt p (off + 2) = 68 ∧
        byteAt p (off + 3) = 82 :=
  MAKE_DWORD_PTR_eq_iff p off 73 72 68 82 (by decide) (by decide) (by decide) (by decide)

/-- A header with valid signature and IHDR tag but an invalid pair of colour type and
depth makes `upng_header` fail with `UPNG_EUNFORMAT`. -/
theorem upng_header_unformat_aux (upng : upng_t) (context : upng_byte_source_context)
    (hstate : upng.state = .UPNG_NEW) (herr : upng.error = .UPNG_EOK)
    (hu : upng.source.user = some context) (hsz : 29 ≤ upng.source.size)
    (hlen : 29 ≤ context.buffer.length)
    (hsig : context.buffer.take 8 = [137, 80, 78, 71, 13, 10, 26, 10])
    (hihdr : byteAt context.buffer 12 = 73 ∧ byteAt context.buffer 13 = 72 ∧
      byteAt context.buffer 14 = 68 ∧ byteAt context.buffer 15 = 82)
    (hbad : ¬ accepted_pair (byteAt context.buffer 25) (byteAt context.buffer 24)) :
    upng_header upng
      = .ok (SET_ERROR (header_fields upng (context.buffer.take 29)) .UPNG_EUNFORMAT 667) := by
  have hread := source_read_in_bounds upng.source context 0 29 hu (by omega) (by omega)
  simp only [List.drop_zero] at hread
  have h1 : (context.buffer.take 29).length = 29 := by
    rw [List.length_take]; omega
  have h2 : (context.buffer.take 29).take 8 = PNG_HEADER := by
    rw [List.take_take]; exact hsig
  have h3 : MAKE_DWORD_PTR (context.buffer.take 29) 12 = CHUNK_IHDR := by
    rw [CHUNK_IHDR_iff]
    rw [byteAt_take _ _ _ (by omega), byteAt_take _ _ _ (by omega),
      byteAt_take _ _ _ (by omega), byteAt_take _ _ _ (by omega)]
    exact hihdr
  have h4 : (header_fields upng (context.buffer.take 29)).format = .UPNG_BADFORMAT := by
    rw [header_fields_format, byteAt_take _ _ _ (by omega), byteAt_take _ _ _ (by omega)]
    by_contra hne
    exact hbad ((spec_format_accepted _ _).1 hne)
  unfold upng_header
  simp only [herr, hstate, hread, Except.bind, h1, h2, h3, h4, ne_eq, not_true_eq_false,
    if_false, ge_iff_le, hsz, not_false_eq_true, if_true]

/-- C4: if `upng_header`, called on a decoder in state NEW without error, returns OK, then
the source has at least 29 bytes, bytes 0..7 are the PNG signature, bytes 12..15 are
`IHDR`, bytes 26, 27 and 28 are 0, and the stored width and height are the big-endian
32-bit values at offsets 16 and 20, the bit depth is byte 24 and the colour type byte 25. -/
theorem upng_header_ok_contract (upng upng' : upng_t)
    (hstate : upng.state = .UPNG_NEW) (herr : upng.error = .UPNG_EOK)
    (hret : upng_header upng = .ok upng') (hok : upng'.error = .UPNG_EOK) :
    ∃ context, upng.source.user = some context ∧
      29 ≤ upng.source.size ∧ 29 ≤ context.buffer.length ∧
      context.buffer.take 8 = [137, 80, 78, 71, 13, 10, 26, 10] ∧
      (byteAt context.buffer 12 = ch 'I' ∧ byteAt context.buffer 13 = ch 'H' ∧
        byteAt context.buffer 14 = ch 'D' ∧ byteAt context.buffer 15 = ch 'R') ∧
      byteAt context.buffer 26 = 0 ∧ byteAt context.buffer 27 = 0 ∧
      byteAt context.buffer 28 = 0 ∧
      upng'.width = be32 context.buffer 16 ∧ upng'.height = be32 context.buffer 20 ∧
      upng'.color_depth = byteAt context.buffer 24 ∧
      upng'.color_type = byteAt context.buffer 25 := by
  obtain ⟨context, h1, h2, h3, h4, h5, h6, h7, h8, h9, h10, h11, h12, _⟩ :=
    okAll_ok (upng_header_ok_aux upng hstate herr) hret hok
  refine ⟨context, h1, h2, h3, h4, ?_, h6, h7, h8, h9, h10, h11, h12⟩
  rw [CHUNK_IHDR_iff] at h5
  rw [byteAt_take _ _ _ (by omega), byteAt_take _ _ _ (by omega),
    byteAt_take _ _ _ (by omega), byteAt_take _ _ _ (by omega)] at h5
  exact h5

/-- Witness for C4: the header of `example_png`. -/
theorem upng_header_ok_contract_witness :
    ((upng_new_from_bytes example_png).state = .UPNG_NEW ∧
      (result_of (upng_header (upng_new_from_bytes example_png))).error = .UPNG_EOK) ∧
    ∃ context, (upng_new_from_bytes example_png).source.user = some context ∧
      29 ≤ (upng_new_from_bytes example_png).source.size ∧ 29 ≤ context.buffer.length ∧
      context.buffer.take 8 = [137, 80, 78, 71, 13, 10, 26, 10] ∧
      (byteAt context.buffer 12 = ch 'I' ∧ byteAt context.buffer 13 = ch 'H' ∧
        byteAt context.buffer 14 = ch 'D' ∧ byteAt context.buffer 15 = ch 'R') ∧
      byteAt context.buffer 26 = 0 ∧ byteAt context.buffer 27 = 0 ∧
      byteAt context.buffer 28 = 0 ∧
      (result_of (upng_header (upng_new_from_bytes example_png))).width
        = be32 context.buffer 16 ∧
      (result_of (upng_header (upng_new_from_bytes example_png))).height
        = be32 context.buffer 20 ∧
      (result_of (upng_header (upng_new_from_bytes example_png))).color_depth
        = byteAt context.buffer 24 ∧
      (result_of (upng_header (upng_new_from_bytes example_png))).color_type
        = byteAt context.buffer 25 :=
  ⟨by decide,
   upng_header_ok_contract (upng_new_from_bytes example_png)
    (result_of (upng_header (upng_new_from_bytes example_png))) rfl rfl (by rfl) (by decide)⟩

/-- C5: `determine_format` returns a recognized tag (not `UPNG_BADFORMAT`) exactly for the
pairs (0, 1|2|4|8), (2, 8|16), (3, 1|2|4|8), (4, 1|2|4|8), (6, 8|16) of colour type and
depth; each such pair gets the tag of the specification's table, distinct pairs get
distinct tags; and a header with valid signature and IHDR tag whose pair is any other
combination makes `upng_header` fail with `UPNG_EUNFORMAT`. -/
theorem determine_format_total (upng : upng_t) :
    (determine_format upng ≠ .UPNG_BADFORMAT ↔
      accepted_pair upng.color_type upng.color_depth) ∧
    determine_format upng = spec_format upng.color_type upng.color_depth ∧
    (∀ upng' : upng_t, accepted_pair upng.color_type upng.color_depth →
      accepted_pair upng'.color_type upng'.color_depth →
      determine_format upng = determine_format upng' →
      upng.color_type = upng'.color_type ∧ upng.color_depth = upng'.color_depth) ∧
    (∀ context : upng_byte_source_context,
      upng.state = .UPNG_NEW → upng.error = .UPNG_EOK →
      upng.source.user = some context → 29 ≤ upng.source.size →
      29 ≤ context.buffer.length →
      context.buffer.take 8 = [137, 80, 78, 71, 13, 10, 26, 10] →
      (byteAt context.buffer 12 = ch 'I' ∧ byteAt context.buffer 13 = ch 'H' ∧
        byteAt context.buffer 14 = ch 'D' ∧ byteAt context.buffer 15 = ch 'R') →
      ¬ accepted_pair (byteAt context.buffer 25) (byteAt context.buffer 24) →
      returned (upng_header upng) = some .UPNG_EUNFORMAT ∧
      (result_of (upng_header upng)).error = .UPNG_EUNFORMAT) := by
  refine ⟨?_, determine_format_eq_spec upng, ?_, ?_⟩
  · rw [determine_format_eq_spec]
    exact spec_format_accepted _ _
  · intro upng' h h' he
    rw [determine_format_eq_spec, determine_format_eq_spec] at he
    exact spec_format_injective _ _ _ _ h h' he
  · intro context hstate herr hu hsz hlen hsig hihdr hbad
    rw [upng_header_unformat_aux upng context hstate herr hu hsz hlen hsig hihdr hbad]
    exact ⟨rfl, rfl⟩

/-- Witness for C5: a header that declares colour type 6 with depth 3. -/
theorem determine_format_total_witness :
    ¬ accepted_pair (byteAt (example_ihdr 1 1 3 6) 25) (byteAt (example_ihdr 1 1 3 6) 24) ∧
    returned (upng_header (upng_new_from_bytes (example_ihdr 1 1 3 6)))
      = some .UPNG_EUNFORMAT ∧
    (result_of (upng_header (upng_new_from_bytes (example_ihdr 1 1 3 6)))).error
      = .UPNG_EUNFORMAT :=
  ⟨by decide,
   (determine_format_total (upng_new_from_bytes (example_ihdr 1 1 3 6))).2.2.2
    { buffer := example_ihdr 1 1 3 6 } rfl rfl rfl (by decide) (by decide) (by decide)
    (by decide) (by decide)⟩
theorem loop_scan_steps (n fuel : Nat) :
    ∀ (u : upng_t) (o c : Nat),
      upng_process_chunks_loop (n + fuel) u o c
        = (scan_steps n u o c).bind (Step.resume (upng_process_chunks_loop fuel)) := by
  induction n with
  | zero =>
    intro u o c
    simp only [Nat.zero_add, scan_steps, Except.bind, Step.resume]
  | succ k ih =>
    intro u o c
    have e : k + 1 + fuel = (k + fuel) + 1 := by omega
    rw [e, upng_process_chunks_loop, scan_steps]
    split_ifs with h
    · cases hs : upng_process_chunk u o c with
      | error f => rfl
      | ok s =>
        cases s with
        | next u' o' c' =>
          simp only [Except.bind, Step.resume, Step.advance]
          exact ih u' o' c'
        | stop u' => rfl
    · rfl

/-- A valid header sends `upng_header` into the chunk scan. -/
theorem upng_header_scan (upng : upng_t) (context : upng_byte_source_context)
    (hstate : upng.state = .UPNG_NEW) (herr : upng.error = .UPNG_EOK)
    (hu : upng.source.user = some context) (hsz : 29 ≤ upng.source.size)
    (hvalid : valid_header context.buffer) :
    upng_header upng
      = (upng_process_chunks (header_fields upng (context.buffer.take 29))).bind
          fun u => .ok (header_finish u) := by
  obtain ⟨hlen, hsig, hihdr, hpair, h26, h27, h28⟩ := hvalid
  have hread := source_read_in_bounds upng.source context 0 29 hu (by omega) (by omega)
  simp only [List.drop_zero] at hread
  have h1 : (context.buffer.take 29).length = 29 := by
    rw [List.length_take]; omega
  have h2 : (context.buffer.take 29).take 8 = PNG_HEADER := by
    rw [List.take_take]; exact hsig
  have h3 : MAKE_DWORD_PTR (context.buffer.take 29) 12 = CHUNK_IHDR := by
    rw [CHUNK_IHDR_iff]
    rw [byteAt_take _ _ _ (by omega), byteAt_take _ _ _ (by omega),
      byteAt_take _ _ _ (by omega), byteAt_take _ _ _ (by omega)]
    exact hihdr
  have h4 : (header_fields upng (context.buffer.take 29)).format ≠ .UPNG_BADFORMAT := by
    rw [header_fields_format, byteAt_take _ _ _ (by omega), byteAt_take _ _ _ (by omega)]
    exact (spec_format_accepted _ _).2 hpair
  have h5 : byteAt (context.buffer.take 29) 26 = 0 := by
    rw [byteAt_take _ _ _ (by omega)]; exact h26
  have h6 : byteAt (context.buffer.take 29) 27 = 0 := by
    rw [byteAt_take _ _ _ (by omega)]; exact h27
  have h7 : byteAt (context.buffer.take 29) 28 = 0 := by
    rw [byteAt_take _ _ _ (by omega)]; exact h28
  unfold upng_header
  simp only [herr, hstate, hread, Except.bind, h1, h2, h3, h4, h5, h6, h7, ne_eq,
    not_true_eq_false, if_false, ge_iff_le, hsz, not_false_eq_true]

theorem u64_of_lt (n : Nat) (h : n < 18446744073709551616) : u64 n = n := by
  unfold u64
  exact Nat.mod_eq_of_lt h

theorem be32_drop_take (l : List Byte) (o n : Nat) (h : 4 ≤ n) :
    be32 ((l.drop o).take n) 0 = be32 l o := by
  rw [be32_take _ _ _ (by omega)]
  unfold be32
  simp only [byteAt_drop, Nat.add_zero, Nat.zero_add, Nat.add_assoc]

/-- The bounds checks at the head of the loop body: a chunk header that does not fit, or a
length of `INT_MAX` or more, or a chunk that ends past the source, stops the scan with
`UPNG_EMALFORMED`. -/
theorem upng_process_chunk_bounds (u : upng_t) (context : upng_byte_source_context)
    (o c : Nat) (hu : u.source.user = some context)
    (hsize : u.source.size = context.buffer.length)
    (hlt : u.source.size < 9223372036854775808) (ho : o < u.source.size)
    (hbad : o + 12 > u.source.size ∨ be32 context.buffer o ≥ INT_MAX ∨
      o + be32 context.buffer o + 12 > u.source.size) :
    ∃ line, line ≠ 0 ∧
      upng_process_chunk u o c = .ok (.stop (SET_ERROR u .UPNG_EMALFORMED line)) := by
  unfold upng_process_chunk
  by_cases h12 : o + 12 > u.source.size
  · refine ⟨474, by decide, ?_⟩
    have : ¬ u64 (o + 12) ≤ u.source.size := by
      rw [u64_of_lt _ (by omega)]; omega
    simp only [this, not_false_eq_true, if_true]
  · have h1 : u64 (o + 12) ≤ u.source.size := by
      rw [u64_of_lt _ (by omega)]; omega
    have hread := source_read_in_bounds u.source context o 12 hu (by omega) (by omega)
    have hl : ((context.buffer.drop o).take 12).length = 12 := by
      rw [List.length_take, List.length_drop]; omega
    have hlenv := chunk_length_eq ((context.buffer.drop o).take 12)
    rw [be32_drop_take _ _ _ (by omega)] at hlenv
    have hb := be32_lt context.buffer o
    simp only [h1, not_true_eq_false, if_false, hread, Except.bind, hl, ne_eq]
    unfold INT_MAX at hbad ⊢
    by_cases hmax : be32 context.buffer o ≥ 2147483647
    · refine ⟨481, by decide, ?_⟩
      have : ¬ intToU64 (upng_chunk_length ((context.buffer.drop o).take 12)) < 2147483647 := by
        rw [hlenv]; split_ifs <;> omega
      simp only [this, not_false_eq_true, if_true]
    · refine ⟨484, by decide, ?_⟩
      have e : intToU64 (upng_chunk_length ((context.buffer.drop o).take 12))
          = be32 context.buffer o := by
        rw [hlenv]; split_ifs <;> omega
      have h2 : intToU64 (upng_chunk_length ((context.buffer.drop o).take 12)) < 2147483647 := by
        rw [e]; omega
      have h3 : ¬ u64 (o + intToU64 (upng_chunk_length ((context.buffer.drop o).take 12)) + 12)
          ≤ u.source.size := by
        rw [e, u64_of_lt _ (by omega)]; omega
      simp only [h2, not_true_eq_false, if_false, h3, not_false_eq_true, if_true]
theorem chunk_type_eq_iff (buffer : List Byte) (o a b c d : Nat) (ha : a < 256)
    (hb : b < 256) (hc : c < 256) (hd : d < 256) :
    upng_chunk_type ((buffer.drop o).take 12) = MAKE_DWORD a b c d ↔
      chunk_type_at buffer o = [a, b, c, d] := by
  unfold upng_chunk_type chunk_type_at
  rw [MAKE_DWORD_PTR_eq_iff _ _ _ _ _ _ ha hb hc hd]
  rw [byteAt_take _ _ _ (by omega), byteAt_take _ _ _ (by omega),
    byteAt_take _ _ _ (by omega), byteAt_take _ _ _ (by omega)]
  simp only [byteAt_drop, List.cons.injEq, and_true, Nat.add_assoc, Nat.reduceAdd]

set_option maxRecDepth 100000 in
theorem critical_bit (x : Byte) : ((x.val &&& 32) == 0) = (x.val / 32 % 2 == 0) := by
  revert x
  decide

theorem upng_chunk_critical_iff (buffer : List Byte) (o : Nat) :
    upng_chunk_critical ((buffer.drop o).take 12) = true ↔ byteAt buffer (o + 4) / 32 % 2 = 0 := by
  unfold upng_chunk_critical
  rw [byteAt_take _ _ _ (by omega), byteAt_drop]
  unfold byteAt
  rw [critical_bit]
  simp

/-- The head of the loop body for a chunk that is in bounds: the header is read and the
branch for its type is taken. -/
theorem upng_process_chunk_in_bounds (u : upng_t) (context : upng_byte_source_context)
    (o c : Nat) (hu : u.source.user = some context)
    (hsize : u.source.size = context.buffer.length)
    (hlt : u.source.size < 9223372036854775808)
    (hin : chunk_in_bounds context.buffer o) :
    upng_process_chunk u o c
      = (process_chunk_type u ((context.buffer.drop o).take 12) o (o + 8)
          (be32 context.buffer o) c).bind fun b =>
            .ok (b.toStep (o + be32 context.buffer o + 12)) := by
  obtain ⟨h12, hmax, hend⟩ := hin
  unfold INT_MAX at hmax
  unfold upng_process_chunk
  have h1 : u64 (o + 12) ≤ u.source.size := by
    rw [u64_of_lt _ (by omega)]; omega
  have hread := source_read_in_bounds u.source context o 12 hu (by omega) (by omega)
  have hl : ((context.buffer.drop o).take 12).length = 12 := by
    rw [List.length_take, List.length_drop]; omega
  have hlenv := chunk_length_eq ((context.buffer.drop o).take 12)
  rw [be32_drop_take _ _ _ (by omega)] at hlenv
  have e : intToU64 (upng_chunk_length ((context.buffer.drop o).take 12))
      = be32 context.buffer o := by
    rw [hlenv]; split_ifs <;> omega
  have h2 : be32 context.buffer o < INT_MAX := hmax
  have h3 : u64 (o + be32 context.buffer o + 12) = o + be32 context.buffer o + 12 :=
    u64_of_lt _ (by omega)
  have h4 : upng_chunk_data o = o + 8 := by
    unfold upng_chunk_data; exact u64_of_lt _ (by omega)
  have h5 : o + be32 context.buffer o + 12 ≤ u.source.size := by omega
  simp only [h1, not_true_eq_false, if_false, hread, Except.bind, hl, ne_eq, e, h2, h3, h4, h5]

/-- The branch taken for a chunk whose type is none of the recognized ones. -/
theorem process_chunk_type_unknown (u : upng_t) (buffer : List Byte) (o d len c : Nat)
    (htype : chunk_type_at buffer o ∉ known_chunk_types) :
    process_chunk_type u ((buffer.drop o).take 12) o d len c
      = if byteAt buffer (o + 4) / 32 % 2 = 0 then
          .ok (.ret (SET_ERROR u .UPNG_EUNSUPPORTED 621))
        else .ok (.next u c) := by
  simp only [known_chunk_types, List.mem_cons, List.mem_singleton, not_or,
    List.not_mem_nil, not_false_eq_true, and_true] at htype
  obtain ⟨t1, t2, t3, t4, t5, t6, t7, t8, t9⟩ := htype
  have c1 : ¬ upng_chunk_type ((buffer.drop o).take 12) = CHUNK_IDAT := by
    unfold CHUNK_IDAT
    rw [chunk_type_eq_iff _ _ _ _ _ _ (by decide) (by decide) (by decide) (by decide)]
    exact t1
  have c2 : ¬ upng_chunk_type ((buffer.drop o).take 12) = CHUNK_FDAT := by
    unfold CHUNK_FDAT
    rw [chunk_type_eq_iff _ _ _ _ _ _ (by decide) (by decide) (by decide) (by decide)]
    exact t2
  have c3 : ¬ upng_chunk_type ((buffer.drop o).take 12) = CHUNK_ACTL := by
    unfold CHUNK_ACTL
    rw [chunk_type_eq_iff _ _ _ _ _ _ (by decide) (by decide) (by decide) (by decide)]
    exact t3
  have c4 : ¬ upng_chunk_type ((buffer.drop o).take 12) = CHUNK_FCTL := by
    unfold CHUNK_FCTL
    rw [chunk_type_eq_iff _ _ _ _ _ _ (by decide) (by decide) (by decide) (by decide)]
    exact t4
  have c5 : ¬ upng_chunk_type ((buffer.drop o).take 12) = CHUNK_OFFS := by
    unfold CHUNK_OFFS
    rw [chunk_type_eq_iff _ _ _ _ _ _ (by decide) (by decide) (by decide) (by decide)]
    exact t5
  have c6 : ¬ upng_chunk_type ((buffer.drop o).take 12) = CHUNK_PLTE := by
    unfold CHUNK_PLTE
    rw [chunk_type_eq_iff _ _ _ _ _ _ (by decide) (by decide) (by decide) (by decide)]
    exact t6
  have c7 : ¬ upng_chunk_type ((buffer.drop o).take 12) = CHUNK_tRNS := by
    unfold CHUNK_tRNS
    rw [chunk_type_eq_iff _ _ _ _ _ _ (by decide) (by decide) (by decide) (by decide)]
    exact t7
  have c8 : ¬ upng_chunk_type ((buffer.drop o).take 12) = CHUNK_TEXT := by
    unfold CHUNK_TEXT
    rw [chunk_type_eq_iff _ _ _ _ _ _ (by decide) (by decide) (by decide) (by decide)]
    exact t8
  have c9 : ¬ upng_chunk_type ((buffer.drop o).take 12) = CHUNK_IEND := by
    unfold CHUNK_IEND
    rw [chunk_type_eq_iff _ _ _ _ _ _ (by decide) (by decide) (by decide) (by decide)]
    exact t9
  unfold process_chunk_type
  simp only [c1, c2, c3, c4, c5, c6, c7, c8, c9, if_false]
  by_cases hc : byteAt buffer (o + 4) / 32 % 2 = 0
  · have := (upng_chunk_critical_iff buffer o).2 hc
    simp [this, hc]
  · have : upng_chunk_critical ((buffer.drop o).take 12) = false := by
      rw [← Bool.not_eq_true, upng_chunk_critical_iff]; exact hc
    simp [this, hc]
theorem upng_process_chunk_next (u u' : upng_t) (o c o' c' : Nat)
    (hlt : u.source.size < 9223372036854775808) (ho : o < u.source.size)
    (h : upng_process_chunk u o c = .ok (.next u' o' c')) :
    o + 12 ≤ o' ∧ u'.source = u.source := by
  constructor
  · have key : okAll (fun s => ∀ u' o' c', s = Step.next u' o' c' → o + 12 ≤ o')
        (upng_process_chunk u o c) := by
      simp only [upng_process_chunk, okAll_ite, okAll_pure, okAll_bind]
      refine ⟨fun _ => by simp, fun _ => okAll_of_forall _ fun hd => ⟨fun _ => by simp,
        fun _ => ⟨fun _ => by simp, fun hmax => ⟨fun _ => by simp, fun _ =>
          okAll_of_forall _ fun b => ?_⟩⟩⟩⟩
      intro u1 o1 c1 hb
      simp only [Decidable.not_not] at hmax
      unfold INT_MAX at hmax
      cases b with
      | next u2 c2 =>
        simp only [Branch.toStep, Step.next.injEq] at hb
        rw [u64_of_lt _ (by omega)] at hb
        omega
      | brk u2 => simp [Branch.toStep] at hb
      | ret u2 => simp [Branch.toStep] at hb
    exact okAll_ok key h u' o' c' rfl
  · have := okAll_ok (upng_process_chunk_same u o c) h
    exact this.2.2.2.2.2.1

theorem scan_steps_reach (n : Nat) :
    ∀ (u0 : upng_t) (o0 c0 : Nat) (u : upng_t) (o c : Nat),
      u0.source.size < 9223372036854775808 →
      scan_steps n u0 o0 c0 = .ok (.next u o c) →
      u.source = u0.source ∧ o0 + 12 * n ≤ o := by
  induction n with
  | zero =>
    intro u0 o0 c0 u o c _ h
    simp only [scan_steps, Except.ok.injEq, Step.next.injEq] at h
    obtain ⟨rfl, rfl, rfl⟩ := h
    exact ⟨rfl, by omega⟩
  | succ k ih =>
    intro u0 o0 c0 u o c hlt h
    rw [scan_steps] at h
    split_ifs at h with ho
    · cases hs : upng_process_chunk u0 o0 c0 with
      | error f => rw [hs] at h; cases h
      | ok s =>
        rw [hs] at h
        cases s with
        | stop u1 => simp [Except.bind, Step.advance] at h
        | next u1 o1 c1 =>
          simp only [Except.bind, Step.advance] at h
          obtain ⟨h1, h2⟩ := upng_process_chunk_next u0 u1 o0 c0 o1 c1 hlt ho hs
          obtain ⟨h3, h4⟩ := ih u1 o1 c1 u o c (by rw [h2]; exact hlt) h
          exact ⟨by rw [h3, h2], by omega⟩
    · simp at h

/-- When the scanner reaches a state at the loop head, `upng_header` returns what the
rest of the loop returns from there. -/
theorem upng_header_of_reach (upng : upng_t) (context : upng_byte_source_context)
    (n : Nat) (u : upng_t) (o c : Nat)
    (hstate : upng.state = .UPNG_NEW) (herr : upng.error = .UPNG_EOK)
    (hu : upng.source.user = some context)
    (hsize : upng.source.size = context.buffer.length)
    (hlt : upng.source.size < 9223372036854775808)
    (hvalid : valid_header context.buffer)
    (hreach : scan_steps n (header_fields upng (context.buffer.take 29)) 33 FRAME_INDEX_NONE
      = .ok (.next u o c))
    (ho : o < upng.source.size) :
    u.source = upng.source ∧
    ∃ fuel, upng_header upng
      = (upng_process_chunks_loop (fuel + 1) u o c).bind fun u => .ok (header_finish u) := by
  have hsrc : (header_fields upng (context.buffer.take 29)).source = upng.source := rfl
  obtain ⟨h1, h2⟩ := scan_steps_reach n _ 33 FRAME_INDEX_NONE u o c (by rw [hsrc]; exact hlt)
    hreach
  refine ⟨by rw [h1, hsrc], upng.source.size - n - 1, ?_⟩
  rw [upng_header_scan upng context hstate herr hu (by rw [hsize]; exact hvalid.1) hvalid]
  unfold upng_process_chunks
  rw [hsrc]
  have e : upng.source.size = n + (upng.source.size - n - 1 + 1) := by omega
  conv_lhs => rw [e]
  rw [loop_scan_steps, hreach]
  rfl

/-- C8: for every source (smaller than `2^63` bytes) with a valid header, if the chunk
scan reaches a chunk at offset `o` whose header does not fit in the source, or whose
declared length `L` is `INT_MAX` or more, or has `o + L + 12` past the end of the source,
then `upng_header` returns `UPNG_EMALFORMED` and records a nonzero error line. -/
theorem scan_out_of_bounds_malformed (upng : upng_t) (context : upng_byte_source_context)
    (n : Nat) (u : upng_t) (o c : Nat)
    (hstate : upng.state = .UPNG_NEW) (herr : upng.error = .UPNG_EOK)
    (hu : upng.source.user = some context)
    (hsize : upng.source.size = context.buffer.length)
    (hlt : upng.source.size < 9223372036854775808)
    (hvalid : valid_header context.buffer)
    (hreach : scan_steps n (header_fields upng (context.buffer.take 29)) 33 FRAME_INDEX_NONE
      = .ok (.next u o c))
    (ho : o < upng.source.size)
    (hbad : o + 12 > upng.source.size ∨ be32 context.buffer o ≥ INT_MAX ∨
      o + be32 context.buffer o + 12 > upng.source.size) :
    returned (upng_header upng) = some .UPNG_EMALFORMED ∧
    (result_of (upng_header upng)).error = .UPNG_EMALFORMED ∧
    upng_get_error_line (result_of (upng_header upng)) ≠ 0 := by
  obtain ⟨hsrc, fuel, hhdr⟩ :=
    upng_header_of_reach upng context n u o c hstate herr hu hsize hlt hvalid hreach ho
  obtain ⟨line, hline, hstep⟩ := upng_process_chunk_bounds u context o c
    (by rw [hsrc]; exact hu) (by rw [hsrc]; exact hsize) (by rw [hsrc]; exact hlt)
    (by rw [hsrc]; exact ho) (by rw [hsrc]; exact hbad)
  have hloop : upng_process_chunks_loop (fuel + 1) u o c
      = .ok (SET_ERROR u .UPNG_EMALFORMED line) := by
    rw [upng_process_chunks_loop]
    simp only [hsrc, ho, if_true, hstep, Except.bind, Step.resume]
  rw [hhdr, hloop]
  simp only [Except.bind, returned, result_of, header_finish, SET_ERROR, ne_eq,
    reduceCtorEq, not_false_eq_true, if_true, upng_get_error_line]
  exact ⟨trivial, trivial, hline⟩
/-- Witness for C8: `example_truncated`, whose IDAT chunk at offset 33 declares three
payload bytes and would end at offset 48, past the 46 bytes of the file. -/
theorem scan_out_of_bounds_malformed_witness :
    (valid_header example_truncated ∧
      33 + be32 example_truncated 33 + 12 > example_truncated.length) ∧
    returned (upng_header (upng_new_from_bytes example_truncated)) = some .UPNG_EMALFORMED ∧
    (result_of (upng_header (upng_new_from_bytes example_truncated))).error
      = .UPNG_EMALFORMED ∧
    upng_get_error_line (result_of (upng_header (upng_new_from_bytes example_truncated)))
      ≠ 0 :=
  ⟨by decide,
   scan_out_of_bounds_malformed (upng_new_from_bytes example_truncated)
    { buffer := example_truncated } 0
    (header_fields (upng_new_from_bytes example_truncated) (example_truncated.take 29))
    33 FRAME_INDEX_NONE rfl rfl rfl rfl (by decide) (by decide) rfl (by decide)
    (Or.inr (Or.inr (by decide)))⟩

theorem scan_steps_add (n m : Nat) :
    ∀ (u : upng_t) (o c : Nat),
      scan_steps (n + m) u o c = (scan_steps n u o c).bind (Step.advance (scan_steps m)) := by
  induction n with
  | zero =>
    intro u o c
    simp only [Nat.zero_add, scan_steps, Except.bind, Step.advance]
  | succ k ih =>
    intro u o c
    have e : k + 1 + m = (k + m) + 1 := by omega
    rw [e, scan_steps, scan_steps]
    split_ifs with h
    · cases hs : upng_process_chunk u o c with
      | error f => rfl
      | ok s =>
        cases s with
        | next u' o' c' =>
          simp only [Except.bind, Step.advance]
          exact ih u' o' c'
        | stop u' => rfl
    · rfl

/-- The iteration of the scanner on an in-bounds chunk of unrecognized type. -/
theorem upng_process_chunk_unknown (u : upng_t) (context : upng_byte_source_context)
    (o c : Nat) (hu : u.source.user = some context)
    (hsize : u.source.size = context.buffer.length)
    (hlt : u.source.size < 9223372036854775808)
    (hin : chunk_in_bounds context.buffer o)
    (htype : chunk_type_at context.buffer o ∉ known_chunk_types) :
    upng_process_chunk u o c
      = if byteAt context.buffer (o + 4) / 32 % 2 = 0 then
          .ok (.stop (SET_ERROR u .UPNG_EUNSUPPORTED 621))
        else .ok (.next u (o + be32 context.buffer o + 12) c) := by
  rw [upng_process_chunk_in_bounds u context o c hu hsize hlt hin,
    process_chunk_type_unknown u context.buffer o _ _ c htype]
  split_ifs <;> rfl

/-- C9: for every in-bounds chunk that the scanner handles (in any state `u`, at any
offset `o`) and whose type is none of IDAT, fdAT, acTL, fcTL, oFFs, PLTE, tRNS, tEXt,
IEND: if bit 5 of the first type byte is 0 the scan fails with `UPNG_EUNSUPPORTED`, and
otherwise the chunk is skipped: the decoder is unchanged in every field and the scan goes
on at `o + length + 12`. The source is smaller than `2^63` bytes. -/
theorem unknown_chunk_dispatch (u : upng_t) (context : upng_byte_source_context)
    (o c : Nat) (hu : u.source.user = some context)
    (hsize : u.source.size = context.buffer.length)
    (hlt : u.source.size < 9223372036854775808)
    (hin : chunk_in_bounds context.buffer o)
    (htype : chunk_type_at context.buffer o ∉ known_chunk_types) :
    (byteAt context.buffer (o + 4) / 32 % 2 = 0 →
      upng_process_chunk u o c = .ok (.stop (SET_ERROR u .UPNG_EUNSUPPORTED 621)) ∧
      ∀ fuel, upng_process_chunks_loop (fuel + 1) u o c
        = .ok (SET_ERROR u .UPNG_EUNSUPPORTED 621)) ∧
    (byteAt context.buffer (o + 4) / 32 % 2 ≠ 0 →
      upng_process_chunk u o c = .ok (.next u (o + be32 context.buffer o + 12) c) ∧
      ∀ fuel, upng_process_chunks_loop (fuel + 1) u o c
        = upng_process_chunks_loop fuel u (o + be32 context.buffer o + 12) c) := by
  have hstep := upng_process_chunk_unknown u context o c hu hsize hlt hin htype
  have ho : o < u.source.size := by
    have := hin.1
    omega
  constructor
  · intro hc
    rw [if_pos hc] at hstep
    refine ⟨hstep, fun fuel => ?_⟩
    rw [upng_process_chunks_loop]
    simp only [ho, if_true, hstep, Except.bind, Step.resume]
  · intro hc
    rw [if_neg hc] at hstep
    refine ⟨hstep, fun fuel => ?_⟩
    rw [upng_process_chunks_loop]
    simp only [ho, if_true, hstep, Except.bind, Step.resume]

/-- Witness for C9: the `zZZZ` chunk at offset 33 of `example_ancillary` is skipped. -/
theorem unknown_chunk_dispatch_witness :
    (chunk_in_bounds example_ancillary 33 ∧
      chunk_type_at example_ancillary 33 ∉ known_chunk_types ∧
      byteAt example_ancillary (33 + 4) / 32 % 2 ≠ 0) ∧
    upng_process_chunk (upng_new_from_bytes example_ancillary) 33 FRAME_INDEX_NONE
      = .ok (.next (upng_new_from_bytes example_ancillary)
          (33 + be32 example_ancillary 33 + 12) FRAME_INDEX_NONE) :=
  ⟨by decide,
   ((unknown_chunk_dispatch (upng_new_from_bytes example_ancillary)
      { buffer := example_ancillary } 33 FRAME_INDEX_NONE rfl rfl (by decide) (by decide)
      (by decide)).2 (by decide)).1⟩

/-- C10, as amended: in every stream (smaller than `2^63` bytes) with a valid header in
which the scanner reaches an in-bounds chunk of unrecognized type, `upng_header` fails
with `UPNG_EUNSUPPORTED` when the first type byte has bit 5 clear (an upper-case letter,
as in `ZZZZ`); a chunk of type `zZZZ` has the bit set and is skipped, the scan going on
behind it with the decoder unchanged. -/
theorem unknown_critical_chunk_unsupported (upng : upng_t)
    (context : upng_byte_source_context) (n : Nat) (u : upng_t) (o c : Nat)
    (hstate : upng.state = .UPNG_NEW) (herr : upng.error = .UPNG_EOK)
    (hu : upng.source.user = some context)
    (hsize : upng.source.size = context.buffer.length)
    (hlt : upng.source.size < 9223372036854775808)
    (hvalid : valid_header context.buffer)
    (hreach : scan_steps n (header_fields upng (context.buffer.take 29)) 33 FRAME_INDEX_NONE
      = .ok (.next u o c))
    (hin : chunk_in_bounds context.buffer o)
    (htype : chunk_type_at context.buffer o ∉ known_chunk_types) :
    (byteAt context.buffer (o + 4) / 32 % 2 = 0 →
      returned (upng_header upng) = some .UPNG_EUNSUPPORTED ∧
      (result_of (upng_header upng)).error = .UPNG_EUNSUPPORTED) ∧
    (chunk_type_at context.buffer o = [ch 'z', ch 'Z', ch 'Z', ch 'Z'] →
      scan_steps (n + 1) (header_fields upng (context.buffer.take 29)) 33 FRAME_INDEX_NONE
        = .ok (.next u (o + be32 context.buffer o + 12) c)) := by
  have ho : o < upng.source.size := by
    have := hin.1
    omega
  obtain ⟨hsrc, fuel, hhdr⟩ :=
    upng_header_of_reach upng context n u o c hstate herr hu hsize hlt hvalid hreach ho
  have hstep := upng_process_chunk_unknown u context o c (by rw [hsrc]; exact hu)
    (by rw [hsrc]; exact hsize) (by rw [hsrc]; exact hlt) hin htype
  constructor
  · intro hc
    rw [if_pos hc] at hstep
    have hloop : upng_process_chunks_loop (fuel + 1) u o c
        = .ok (SET_ERROR u .UPNG_EUNSUPPORTED 621) := by
      rw [upng_process_chunks_loop]
      simp only [hsrc, ho, if_true, hstep, Except.bind, Step.resume]
    rw [hhdr, hloop]
    simp only [Except.bind, returned, result_of, header_finish, SET_ERROR, ne_eq,
      reduceCtorEq, not_false_eq_true, if_true]
    exact ⟨trivial, trivial⟩
  · intro hz
    have hb : byteAt context.buffer (o + 4) = ch 'z' := by
      unfold chunk_type_at at hz
      simp only [List.cons.injEq] at hz
      exact hz.1
    have hc : ¬ byteAt context.buffer (o + 4) / 32 % 2 = 0 := by
      rw [hb]; decide
    rw [if_neg hc] at hstep
    rw [scan_steps_add n 1, hreach]
    simp only [Except.bind, Step.advance, scan_steps, hsrc, ho, if_true, hstep]

/-- Witness for C10 as amended: `example_critical`, whose first chunk has type `ZZZZ`. -/
theorem unknown_critical_chunk_unsupported_witness :
    (valid_header example_critical ∧ chunk_in_bounds example_critical 33 ∧
      chunk_type_at example_critical 33 = [ch 'Z', ch 'Z', ch 'Z', ch 'Z']) ∧
    returned (upng_header (upng_new_from_bytes example_critical))
      = some .UPNG_EUNSUPPORTED ∧
    (result_of (upng_header (upng_new_from_bytes example_critical))).error
      = .UPNG_EUNSUPPORTED :=
  ⟨by decide,
   (unknown_critical_chunk_unsupported (upng_new_from_bytes example_critical)
      { buffer := example_critical } 0
      (header_fields (upng_new_from_bytes example_critical) (example_critical.take 29))
      33 FRAME_INDEX_NONE rfl rfl rfl rfl (by decide) (by decide) rfl (by decide)
      (by decide)).1 (by decide)⟩

/-- Counterexample to C10 as stated: `example_png` has a valid header, all its chunks are
in bounds and it contains a chunk of type `zZZZ` (at offset 48) before IEND, yet
`upng_header` returns `UPNG_EOK`. -/
theorem zZZZ_chunk_counterexample :
    valid_header example_png ∧ chunk_in_bounds example_png 48 ∧
    chunk_type_at example_png 48 = [ch 'z', ch 'Z', ch 'Z', ch 'Z'] ∧
    returned (upng_header (upng_new_from_bytes example_png)) = some .UPNG_EOK ∧
    returned (upng_header (upng_new_from_bytes example_png)) ≠ some .UPNG_EUNSUPPORTED := by
  decide
theorem process_OFFS_skips (u : upng_t) (d c : Nat) :
    okAll (skips u c) (process_OFFS u d c) := by
  simp only [process_OFFS, okAll_ite, okAll_pure, okAll_bind]
  refine okAll_of_forall _ fun data => ?_
  simp [skips, SET_ERROR]

theorem process_PLTE_skips (u : upng_t) (d len c : Nat) :
    okAll (skips u c) (process_PLTE u d len c) := by
  simp only [process_PLTE, okAll_ite, okAll_pure, okAll_bind]
  refine okAll_of_forall _ fun data => ?_
  simp [skips, SET_ERROR]

theorem process_tRNS_skips (u : upng_t) (d len c : Nat) :
    okAll (skips u c) (process_tRNS u d len c) := by
  simp only [process_tRNS, okAll_ite, okAll_pure, okAll_bind]
  refine okAll_of_forall _ fun data => ?_
  simp [skips, SET_ERROR]

theorem process_TEXT_skips (u : upng_t) (d len c : Nat) :
    okAll (skips u c) (process_TEXT u d len c) := by
  simp only [process_TEXT, okAll_ite, okAll_pure, okAll_bind, okAll_fault]
  refine ⟨fun _ => trivial, fun _ => okAll_of_forall _ fun data => ?_⟩
  simp [skips, SET_ERROR, text_entry_set]

/-- The nine comparisons of the chunk type, on the type bytes of the stream. -/
theorem chunk_type_cases (buffer : List Byte) (o : Nat) :
    (upng_chunk_type ((buffer.drop o).take 12) = CHUNK_IDAT ↔
      chunk_type_at buffer o = type_IDAT) ∧
    (upng_chunk_type ((buffer.drop o).take 12) = CHUNK_FDAT ↔
      chunk_type_at buffer o = type_fdAT) ∧
    (upng_chunk_type ((buffer.drop o).take 12) = CHUNK_ACTL ↔
      chunk_type_at buffer o = type_acTL) ∧
    (upng_chunk_type ((buffer.drop o).take 12) = CHUNK_FCTL ↔
      chunk_type_at buffer o = type_fcTL) ∧
    (upng_chunk_type ((buffer.drop o).take 12) = CHUNK_IEND ↔
      chunk_type_at buffer o = type_IEND) := by
  refine ⟨?_, ?_, ?_, ?_, ?_⟩
  · exact chunk_type_eq_iff _ _ _ _ _ _ (by decide) (by decide) (by decide) (by decide)
  · exact chunk_type_eq_iff _ _ _ _ _ _ (by decide) (by decide) (by decide) (by decide)
  · exact chunk_type_eq_iff _ _ _ _ _ _ (by decide) (by decide) (by decide) (by decide)
  · exact chunk_type_eq_iff _ _ _ _ _ _ (by decide) (by decide) (by decide) (by decide)
  · exact chunk_type_eq_iff _ _ _ _ _ _ (by decide) (by decide) (by decide) (by decide)

/-- A chunk that is none of IDAT, fdAT, acTL, fcTL, IEND leaves the frame table alone. -/
theorem process_chunk_type_skips (u : upng_t) (buffer : List Byte) (o d len c : Nat)
    (h1 : chunk_type_at buffer o ≠ type_IDAT) (h2 : chunk_type_at buffer o ≠ type_fdAT)
    (h3 : chunk_type_at buffer o ≠ type_acTL) (h4 : chunk_type_at buffer o ≠ type_fcTL)
    (h5 : chunk_type_at buffer o ≠ type_IEND) :
    okAll (skips u c) (process_chunk_type u ((buffer.drop o).take 12) o d len c) := by
  obtain ⟨e1, e2, e3, e4, e5⟩ := chunk_type_cases buffer o
  have c1 := mt e1.1 h1
  have c2 := mt e2.1 h2
  have c3 := mt e3.1 h3
  have c4 := mt e4.1 h4
  have c5 := mt e5.1 h5
  unfold process_chunk_type
  simp only [c1, c2, c3, c4, c5, if_false, okAll_ite, okAll_pure]
  refine ⟨fun _ => process_OFFS_skips _ _ _, fun _ => ⟨fun _ => process_PLTE_skips _ _ _ _,
    fun _ => ⟨fun _ => process_tRNS_skips _ _ _ _, fun _ => ⟨fun _ => process_TEXT_skips _ _ _ _,
    fun _ => ⟨fun _ => ?_, fun _ => ?_⟩⟩⟩⟩⟩ <;>
    simp [skips, SET_ERROR]
theorem source_read_within (source : upng_source) (context : upng_byte_source_context)
    (off n : Nat) (hu : source.user = some context)
    (hb : off + n ≤ context.buffer.length) :
    source_read source off n = .ok ((context.buffer.drop off).take n) := by
  by_cases hn : 0 < n
  · exact source_read_in_bounds source context off n hu hb hn
  · have hn0 : n = 0 := by omega
    subst hn0
    have h := u64_le (off + 0)
    simp only [source_read, hu, upng_byte_source_read, upng_byte_source_context.size]
    by_cases h1 : off ≥ context.buffer.length
    · simp only [h1, if_true, List.take_zero]
    · have h2 : ¬ u64 (off + 0) > context.buffer.length := by omega
      have h3 : ¬ off + 0 > context.buffer.length := by omega
      simp only [h1, h2, h3, if_false]

theorem process_IDAT_still (u : upng_t) (o len : Nat) (herr : u.error = .UPNG_EOK)
    (hshape : u.frames = none ∨ ∃ fr, u.frames = some [fr]) :
    ∃ u1, process_IDAT u o len FRAME_INDEX_NONE = .ok (.next u1 FRAME_INDEX_NONE) ∧
      u1.frames = some [account_data_chunk (still_frame u) o len] ∧
      u1.error = .UPNG_EOK ∧ u1.source = u.source := by
  rcases hshape with hnone | ⟨fr, hfr⟩
  · refine ⟨{ upng_setup_for_single_image u with
      frames := some [account_data_chunk (still_frame u) o len] }, ?_, rfl, herr, rfl⟩
    have e : still_frame u = single_frame u.width u.height := by
      simp [still_frame, hnone]
    rw [e]
    unfold single_frame
    simp only [process_IDAT, true_or, not_true_eq_false, if_false, hnone, Option.isNone_none,
      if_true, upng_setup_for_single_image, herr, ne_eq, account_to_frame,
      List.length_singleton, Nat.lt_one_iff, List.getD_cons_zero, List.set_cons_zero]
  · refine ⟨{ u with frames := some [account_data_chunk (still_frame u) o len] },
      ?_, rfl, herr, rfl⟩
    have e : still_frame u = fr := by simp [still_frame, hfr]
    rw [e]
    simp only [process_IDAT, true_or, not_true_eq_false, if_false, hfr, Option.isNone_some,
      Bool.false_eq_true, account_to_frame, List.length_singleton, Nat.lt_one_iff,
      List.getD_cons_zero, List.set_cons_zero, if_true]
/-- One iteration of the data-collecting loop of `upng_decode` on a chunk that is in
bounds, in terms of the bytes of the stream. -/
theorem upng_decode_chunks_step (ud : upng_t) (context : upng_byte_source_context)
    (csize f o : Nat) (compressed : List Byte) (seq : Nat)
    (hu : ud.source.user = some context)
    (hsize : ud.source.size = context.buffer.length)
    (hlt : ud.source.size < 9223372036854775808)
    (hin : chunk_in_bounds context.buffer o) :
    upng_decode_chunks ud csize (f + 1) o compressed seq
      = if chunk_type_at context.buffer o = type_IDAT then
          if compressed.length + be32 context.buffer o > csize then .error .out_of_bounds
          else
            upng_decode_chunks ud csize f (o + be32 context.buffer o + 12)
              (compressed ++ (context.buffer.drop (o + 8)).take (be32 context.buffer o)) seq
        else if chunk_type_at context.buffer o = type_fdAT then
          decode_FDAT ud csize (o + 8) (be32 context.buffer o) compressed seq
            fun compressed seq =>
              upng_decode_chunks ud csize f (o + be32 context.buffer o + 12) compressed seq
        else if chunk_type_at context.buffer o = type_IEND ∨
            chunk_type_at context.buffer o = type_fcTL then
          .ok (.done compressed)
        else upng_decode_chunks ud csize f (o + be32 context.buffer o + 12) compressed seq := by
  obtain ⟨h12, hmax, hend⟩ := hin
  unfold INT_MAX at hmax
  have ho : o < ud.source.size := by omega
  have hread := source_read_in_bounds ud.source context o 12 hu (by omega) (by omega)
  have hl : ((context.buffer.drop o).take 12).length = 12 := by
    rw [List.length_take, List.length_drop]; omega
  have hlenv := chunk_length_eq ((context.buffer.drop o).take 12)
  rw [be32_drop_take _ _ _ (by omega)] at hlenv
  have e : intToU64 (upng_chunk_length ((context.buffer.drop o).take 12))
      = be32 context.buffer o := by
    rw [hlenv]; split_ifs <;> omega
  have h3 : u64 (o + be32 context.buffer o + 12) = o + be32 context.buffer o + 12 :=
    u64_of_lt _ (by omega)
  have h4 : upng_chunk_data o = o + 8 := by
    unfold upng_chunk_data; exact u64_of_lt _ (by omega)
  obtain ⟨e1, e2, _, e4, e5⟩ := chunk_type_cases context.buffer o
  have hpay := source_read_within ud.source context (o + 8) (be32 context.buffer o) hu
    (by omega)
  have hpl : ((context.buffer.drop (o + 8)).take (be32 context.buffer o)).length
      = be32 context.buffer o := by
    rw [List.length_take, List.length_drop]; omega
  rw [upng_decode_chunks]
  simp only [ho, if_true, hread, Except.bind, hl, ne_eq, not_true_eq_false, if_false, e, h3, h4,
    e1, e2, e4, e5]
  by_cases t1 : chunk_type_at context.buffer o = type_IDAT
  · simp only [t1, if_true, decode_IDAT, hpay, Except.bind, hpl, ne_eq, not_true_eq_false,
      if_false]
  · simp only [t1, if_false]

/-- The data-collecting loop at the end of the source. -/
theorem upng_decode_chunks_end (ud : upng_t) (csize f o : Nat) (compressed : List Byte)
    (seq : Nat) (ho : ¬ o < ud.source.size) :
    upng_decode_chunks ud csize f o compressed seq = .ok (.done compressed) := by
  cases f with
  | zero => simp only [upng_decode_chunks, ho, if_false]
  | succ k => rw [upng_decode_chunks]; simp only [ho, if_false]
theorem okAll_and {α : Type} {p q : α → Prop} {x : Except Fault α}
    (hp : okAll p x) (hq : okAll q x) : okAll (fun a => p a ∧ q a) x := by
  cases x with
  | ok a => exact ⟨hp, hq⟩
  | error f => trivial

theorem process_chunk_type_IDAT (u : upng_t) (buffer : List Byte) (o d len c : Nat)
    (ht : chunk_type_at buffer o = type_IDAT) :
    process_chunk_type u ((buffer.drop o).take 12) o d len c = process_IDAT u o len c := by
  have e1 := (chunk_type_cases buffer o).1.2 ht
  unfold process_chunk_type
  simp only [e1, if_true]

theorem process_chunk_type_IEND (u : upng_t) (buffer : List Byte) (o d len c : Nat)
    (ht : chunk_type_at buffer o = type_IEND) :
    process_chunk_type u ((buffer.drop o).take 12) o d len c = .ok (.brk u) := by
  have e5 := (chunk_type_cases buffer o).2.2.2.2.2 ht
  unfold process_chunk_type
  rw [e5]
  have n1 : CHUNK_IEND ≠ CHUNK_IDAT := by decide
  have n2 : CHUNK_IEND ≠ CHUNK_FDAT := by decide
  have n3 : CHUNK_IEND ≠ CHUNK_ACTL := by decide
  have n4 : CHUNK_IEND ≠ CHUNK_FCTL := by decide
  have n5 : CHUNK_IEND ≠ CHUNK_OFFS := by decide
  have n6 : CHUNK_IEND ≠ CHUNK_PLTE := by decide
  have n7 : CHUNK_IEND ≠ CHUNK_tRNS := by decide
  have n8 : CHUNK_IEND ≠ CHUNK_TEXT := by decide
  simp only [n1, n2, n3, n4, n5, n6, n7, n8, if_false, if_true]

/-- The iteration of the scanner on an in-bounds IEND chunk. -/
theorem upng_process_chunk_IEND (u : upng_t) (context : upng_byte_source_context)
    (o c : Nat) (hu : u.source.user = some context)
    (hsize : u.source.size = context.buffer.length)
    (hlt : u.source.size < 9223372036854775808)
    (hin : chunk_in_bounds context.buffer o)
    (ht : chunk_type_at context.buffer o = type_IEND) :
    upng_process_chunk u o c = .ok (.stop u) := by
  rw [upng_process_chunk_in_bounds u context o c hu hsize hlt hin,
    process_chunk_type_IEND u context.buffer o _ _ c ht]
  rfl

/-- The iteration of the scanner on an in-bounds IDAT chunk of a still image. -/
theorem upng_process_chunk_IDAT_still (u : upng_t) (context : upng_byte_source_context)
    (o : Nat) (hu : u.source.user = some context)
    (hsize : u.source.size = context.buffer.length)
    (hlt : u.source.size < 9223372036854775808)
    (hin : chunk_in_bounds context.buffer o)
    (ht : chunk_type_at context.buffer o = type_IDAT)
    (herr : u.error = .UPNG_EOK)
    (hshape : u.frames = none ∨ ∃ fr, u.frames = some [fr]) :
    ∃ u1, upng_process_chunk u o FRAME_INDEX_NONE
        = .ok (.next u1 (o + be32 context.buffer o + 12) FRAME_INDEX_NONE) ∧
      u1.frames = some [account_data_chunk (still_frame u) o (be32 context.buffer o)] ∧
      u1.error = .UPNG_EOK ∧ u1.source = u.source := by
  obtain ⟨u1, h1, h2, h3, h4⟩ := process_IDAT_still u o (be32 context.buffer o) herr hshape
  refine ⟨u1, ?_, h2, h3, h4⟩
  rw [upng_process_chunk_in_bounds u context o _ hu hsize hlt hin,
    process_chunk_type_IDAT u context.buffer o _ _ _ ht, h1]
  rfl

/-- The iteration of the scanner on an in-bounds chunk that is none of IDAT, fdAT, acTL,
fcTL, IEND. -/
theorem upng_process_chunk_skips (u : upng_t) (context : upng_byte_source_context)
    (o c : Nat) (hu : u.source.user = some context)
    (hsize : u.source.size = context.buffer.length)
    (hlt : u.source.size < 9223372036854775808)
    (hin : chunk_in_bounds context.buffer o)
    (h1 : chunk_type_at context.buffer o ≠ type_IDAT)
    (h2 : chunk_type_at context.buffer o ≠ type_fdAT)
    (h3 : chunk_type_at context.buffer o ≠ type_acTL)
    (h4 : chunk_type_at context.buffer o ≠ type_fcTL)
    (h5 : chunk_type_at context.buffer o ≠ type_IEND) :
    okAll (skips_step u (o + be32 context.buffer o + 12) c) (upng_process_chunk u o c) := by
  rw [upng_process_chunk_in_bounds u context o c hu hsize hlt hin, okAll_bind]
  refine okAll_mono ?_ (okAll_and
    (process_chunk_type_skips u context.buffer o (o + 8) (be32 context.buffer o) c
      h1 h2 h3 h4 h5)
    (process_chunk_type_same u ((context.buffer.drop o).take 12) o (o + 8)
      (be32 context.buffer o) c))
  intro b ⟨hs, hsame⟩
  obtain ⟨hw, hh, _, _, _, hsrc, _, _, _⟩ := hsame
  cases b with
  | next u1 c1 =>
    obtain ⟨a1, a2, a3⟩ := hs
    exact ⟨a1, a2, hsrc, hw, hh, rfl, a3⟩
  | brk u1 => exact hs.elim
  | ret u1 => exact hs

theorem first_idat_none (cs : List spec_chunk) (h : first_idat_offset cs = none) :
    idat_total cs = 0 ∧ idat_payloads cs = [] := by
  induction cs with
  | nil => exact ⟨rfl, rfl⟩
  | cons c cs ih =>
    unfold first_idat_offset at h
    split_ifs at h with ht
    simp only [idat_total, idat_payloads, ht, if_false]
    exact ih h
theorem still_frame_congr (u u1 : upng_t) (hf : u1.frames = u.frames)
    (hw : u1.width = u.width) (hh : u1.height = u.height) : still_frame u1 = still_frame u := by
  unfold still_frame
  rw [hf, hw, hh]

theorem still_frame_single (u : upng_t) (fr : upng_frame) (h : u.frames = some [fr]) :
    still_frame u = fr := by
  unfold still_frame
  rw [h]

theorem not_in_bounds_bad (buffer : List Byte) (o size : Nat) (hsize : size = buffer.length)
    (h : ¬ chunk_in_bounds buffer o) :
    o + 12 > size ∨ be32 buffer o ≥ INT_MAX ∨ o + be32 buffer o + 12 > size := by
  unfold chunk_in_bounds at h
  omega

/-- The scan of a still image and the later collection of its data, in step. -/
theorem still_scan_decode (context : upng_byte_source_context) (f : Nat) :
    ∀ (u u' : upng_t) (o : Nat),
      u.source.user = some context → u.source.size = context.buffer.length →
      u.source.size < 9223372036854775808 → u.error = .UPNG_EOK →
      (u.frames = none ∨ ∃ fr, u.frames = some [fr]) →
      (still_frame u).compressed_size ≤ o → 0 < o →
      upng_process_chunks_loop f u o FRAME_INDEX_NONE = .ok u' → u'.error = .UPNG_EOK →
      (∀ c ∈ spec_chunks context.buffer f o,
        c.type ≠ type_acTL ∧ c.type ≠ type_fcTL ∧ c.type ≠ type_fdAT) →
      still_result u u' (spec_chunks context.buffer f o) ∧
      still_decode u.source f o (spec_chunks context.buffer f o) ∧
      ∀ o1, first_idat_offset (spec_chunks context.buffer f o) = some o1 →
        still_decode u.source f o1 (spec_chunks context.buffer f o) := by
  induction f with
  | zero =>
    intro u u' o hu hsize hlt herr hshape hcs ho hloop hok hanim
    simp only [upng_process_chunks_loop] at hloop
    split_ifs at hloop with hlt2
    cases hloop
    simp only [spec_chunks]
    refine ⟨⟨fun _ => rfl, fun o1 h => by simp [first_idat_offset] at h, rfl⟩, ?_,
      fun o1 h => by simp [first_idat_offset] at h⟩
    intro ud csize f2 compressed seq hsrc _ _
    rw [upng_decode_chunks_end ud csize f2 o compressed seq (by rw [hsrc]; exact hlt2)]
    simp [idat_payloads]
  | succ k ih =>
    intro u u' o hu hsize hlt herr hshape hcs ho hloop hok hanim
    rw [upng_process_chunks_loop] at hloop
    by_cases hlt2 : o < u.source.size
    swap
    · -- the end of the source
      simp only [hlt2, if_false, Except.ok.injEq] at hloop
      subst hloop
      have hnil : spec_chunks context.buffer (k + 1) o = [] := by
        rw [spec_chunks]
        have : ¬ o + 12 ≤ context.buffer.length := by omega
        simp only [this, if_false]
      rw [hnil]
      refine ⟨⟨fun _ => rfl, fun o1 h => by simp [first_idat_offset] at h, rfl⟩, ?_,
        fun o1 h => by simp [first_idat_offset] at h⟩
      intro ud csize f2 compressed seq hsrc _ _
      rw [upng_decode_chunks_end ud csize f2 o compressed seq (by rw [hsrc]; exact hlt2)]
      simp [idat_payloads]
    simp only [hlt2, if_true] at hloop
    by_cases hin : chunk_in_bounds context.buffer o
    swap
    · -- a chunk out of bounds ends the scan with an error
      obtain ⟨line, _, hstep⟩ := upng_process_chunk_bounds u context o FRAME_INDEX_NONE hu hsize
        hlt hlt2 (not_in_bounds_bad _ _ _ hsize hin)
      rw [hstep] at hloop
      simp only [Except.bind, Step.resume, Except.ok.injEq] at hloop
      subst hloop
      simp [SET_ERROR] at hok
    have hin' := hin
    obtain ⟨h12, hmax, hend⟩ := hin'
    unfold INT_MAX at hmax
    have hpl : ((context.buffer.drop (o + 8)).take (be32 context.buffer o)).length
        = be32 context.buffer o := by
      rw [List.length_take, List.length_drop]; omega
    by_cases tE : chunk_type_at context.buffer o = type_IEND
    · -- IEND
      rw [upng_process_chunk_IEND u context o _ hu hsize hlt hin tE] at hloop
      simp only [Except.bind, Step.resume, Except.ok.injEq] at hloop
      subst hloop
      have hnil : spec_chunks context.buffer (k + 1) o = [] := by
        rw [spec_chunks]
        simp only [h12, if_true, tE]
      rw [hnil]
      refine ⟨⟨fun _ => rfl, fun o1 h => by simp [first_idat_offset] at h, rfl⟩, ?_,
        fun o1 h => by simp [first_idat_offset] at h⟩
      intro ud csize f2 compressed seq hsrc hf2 _
      obtain ⟨f3, rfl⟩ : ∃ f3, f2 = f3 + 1 := ⟨f2 - 1, by omega⟩
      rw [upng_decode_chunks_step ud context csize f3 o compressed seq (by rw [hsrc]; exact hu)
        (by rw [hsrc]; exact hsize) (by rw [hsrc]; exact hlt) hin]
      have n1 : type_IEND ≠ type_IDAT := by decide
      have n2 : type_IEND ≠ type_fdAT := by decide
      simp only [tE, n1, n2, if_false, true_or, if_true, idat_payloads, List.append_nil]
    have hcons : spec_chunks context.buffer (k + 1) o
        = { offset := o, type := chunk_type_at context.buffer o,
            data := (context.buffer.drop (o + 8)).take (be32 context.buffer o) } ::
          spec_chunks context.buffer k (o + be32 context.buffer o + 12) := by
      rw [spec_chunks]
      simp only [h12, if_true, tE, if_false]
    rw [hcons] at hanim ⊢
    have hhead := hanim _ (List.mem_cons_self _ _)
    simp only at hhead
    obtain ⟨tA, tF, tD⟩ := hhead
    have hanim' : ∀ c ∈ spec_chunks context.buffer k (o + be32 context.buffer o + 12),
        c.type ≠ type_acTL ∧ c.type ≠ type_fcTL ∧ c.type ≠ type_fdAT :=
      fun c hc => hanim c (List.mem_cons_of_mem _ hc)
    by_cases tI : chunk_type_at context.buffer o = type_IDAT
    · -- IDAT
      obtain ⟨u1, hstep, hfr1, herr1, hsrc1⟩ :=
        upng_process_chunk_IDAT_still u context o hu hsize hlt hin tI herr hshape
      rw [hstep] at hloop
      simp only [Except.bind, Step.resume] at hloop
      have hsf1 := still_frame_single u1 _ hfr1
      have hcs1 : (still_frame u1).compressed_size
          = (still_frame u).compressed_size + be32 context.buffer o := by
        rw [hsf1]
        unfold account_data_chunk
        simp only
        split_ifs <;> exact u64_of_lt _ (by omega)
      have hoff1 : (still_frame u1).data_chunk_offset
          = if (still_frame u).data_chunk_offset = 0 then o
            else (still_frame u).data_chunk_offset := by
        rw [hsf1]
        unfold account_data_chunk
        simp only
        split_ifs <;> rfl
      have hoff1ne : (still_frame u1).data_chunk_offset ≠ 0 := by
        rw [hoff1]; split_ifs with hz
        · omega
        · exact hz
      obtain ⟨⟨r1, r2, r3⟩, d1, d2⟩ := ih u1 u' (o + be32 context.buffer o + 12)
        (by rw [hsrc1]; exact hu) (by rw [hsrc1]; exact hsize) (by rw [hsrc1]; exact hlt)
        herr1 (Or.inr ⟨_, hfr1⟩) (by rw [hcs1]; omega) (by omega) hloop hok hanim'
      have hdec : still_decode u.source (k + 1) o
          ({ offset := o, type := chunk_type_at context.buffer o,
             data := (context.buffer.drop (o + 8)).take (be32 context.buffer o) } ::
            spec_chunks context.buffer k (o + be32 context.buffer o + 12)) := by
        intro ud csize f2 compressed seq hsrc hf2 hfit
        obtain ⟨f3, rfl⟩ : ∃ f3, f2 = f3 + 1 := ⟨f2 - 1, by omega⟩
        simp only [idat_total, tI, if_true, hpl] at hfit
        rw [upng_decode_chunks_step ud context csize f3 o compressed seq
          (by rw [hsrc]; exact hu) (by rw [hsrc]; exact hsize) (by rw [hsrc]; exact hlt) hin]
        have hnot : ¬ compressed.length + be32 context.buffer o > csize := by omega
        simp only [tI, if_true, hnot, if_false]
        rw [d1 ud csize f3 _ seq (by rw [hsrc, hsrc1]) (by omega)
          (by rw [List.length_append, hpl]; omega)]
        simp only [idat_payloads, tI, if_true, List.append_assoc]
      refine ⟨⟨fun h => by simp [first_idat_offset, tI] at h, ?_, ?_⟩, hdec, ?_⟩
      · intro o1 ho1
        simp only [first_idat_offset, tI, if_true, Option.some.injEq] at ho1
        subst ho1
        simp only [idat_total, tI, if_true, hpl]
        cases hfirst : first_idat_offset
            (spec_chunks context.buffer k (o + be32 context.buffer o + 12)) with
        | none =>
          refine ⟨_, (r1 hfirst).trans hfr1, ?_, ?_⟩
          · rw [← hsf1, hcs1, (first_idat_none _ hfirst).1, Nat.add_zero]
          · rw [← hsf1, hoff1]
        | some o2 =>
          obtain ⟨fr, e1, e2, e3⟩ := r2 o2 hfirst
          refine ⟨fr, e1, ?_, ?_⟩
          · rw [e2, hcs1]; omega
          · rw [e3, if_neg hoff1ne, hoff1]
      · simp only [idat_total, idat_payloads, tI, if_true, List.length_append, hpl, r3]
      · intro o1 ho1
        simp only [first_idat_offset, tI, if_true, Option.some.injEq] at ho1
        subst ho1
        exact hdec
    · -- a chunk without image data
      have hsk := upng_process_chunk_skips u context o FRAME_INDEX_NONE hu hsize hlt hin
        tI tD tA tF tE
      cases hstep : upng_process_chunk u o FRAME_INDEX_NONE with
      | error e => rw [hstep] at hloop; cases hloop
      | ok s =>
        rw [hstep] at hloop hsk
        cases s with
        | stop u1 =>
          simp only [Except.bind, Step.resume, Except.ok.injEq] at hloop
          subst hloop
          exact absurd hok hsk
        | next u1 o1 c1 =>
          obtain ⟨a1, a2, a3, a4, a5, a6, a7⟩ := hsk
          subst a6 a7
          simp only [Except.bind, Step.resume] at hloop
          have hsf := still_frame_congr u u1 a1 a4 a5
          obtain ⟨⟨r1, r2, r3⟩, d1, d2⟩ := ih u1 u' (o + be32 context.buffer o + 12)
            (by rw [a3]; exact hu) (by rw [a3]; exact hsize) (by rw [a3]; exact hlt)
            (by rw [a2]; exact herr) (by rw [a1]; exact hshape) (by rw [hsf]; omega) (by omega)
            hloop hok hanim'
          have hdec : ∀ o1, still_decode u.source k o1
              (spec_chunks context.buffer k (o + be32 context.buffer o + 12)) →
              still_decode u.source k o1
                ({ offset := o, type := chunk_type_at context.buffer o,
                   data := (context.buffer.drop (o + 8)).take (be32 context.buffer o) } ::
                  spec_chunks context.buffer k (o + be32 context.buffer o + 12)) := by
            intro o1 hd ud csize f2 compressed seq hsrc hf2 hfit
            simp only [idat_total, tI, if_false] at hfit
            rw [hd ud csize f2 compressed seq hsrc hf2 hfit]
            simp only [idat_payloads, tI, if_false]
          refine ⟨⟨?_, ?_, ?_⟩, ?_, ?_⟩
          · intro h
            simp only [first_idat_offset, tI, if_false] at h
            rw [r1 h, a1]
          · intro o2 h
            simp only [first_idat_offset, tI, if_false] at h
            obtain ⟨fr, e1, e2, e3⟩ := r2 o2 h
            refine ⟨fr, e1, ?_, ?_⟩
            · rw [e2, hsf]; simp only [idat_total, tI, if_false]
            · rw [e3, hsf]
          · simp only [idat_total, idat_payloads, tI, if_false, r3]
          · intro ud csize f2 compressed seq hsrc hf2 hfit
            obtain ⟨f3, rfl⟩ : ∃ f3, f2 = f3 + 1 := ⟨f2 - 1, by omega⟩
            simp only [idat_total, tI, if_false] at hfit
            rw [upng_decode_chunks_step ud context csize f3 o compressed seq
              (by rw [hsrc]; exact hu) (by rw [hsrc]; exact hsize) (by rw [hsrc]; exact hlt)
              hin]
            simp only [tI, tD, tE, tF, if_false, or_self]
            rw [d1 ud csize f3 compressed seq (by rw [hsrc, a3]) (by omega) hfit]
            simp only [idat_payloads, tI, if_false]
          · intro o2 h
            simp only [first_idat_offset, tI, if_false] at h
            have := d2 o2 h
            rw [a3] at this
            intro ud csize f2 compressed seq hsrc hf2 hfit
            exact hdec o2 this ud csize f2 compressed seq hsrc (by omega) hfit
/-- C6: for every still-image stream (no acTL, fcTL or fdAT chunk, smaller than `2^63`
bytes) that `upng_header` accepts and that contains an IDAT chunk, the frame table holds
one frame, whose `data_chunk_offset` is the offset of the first IDAT and whose
`compressed_size` is the sum of the IDAT lengths; and the blob that `upng_decode`
assembles for frame 0 is the concatenation, in stream order, of the payloads of the IDAT
chunks before IEND, of that same length. -/
theorem still_image_assembly (buffer : List Byte) (u1 : upng_t)
    (hlt : buffer.length < 9223372036854775808)
    (hhdr : upng_header (upng_new_from_bytes buffer) = .ok u1)
    (hok : u1.error = .UPNG_EOK)
    (hstill : ∀ c ∈ spec_chunks buffer buffer.length 33,
      c.type ≠ type_acTL ∧ c.type ≠ type_fcTL ∧ c.type ≠ type_fdAT)
    (hidat : first_idat_offset (spec_chunks buffer buffer.length 33) ≠ none) :
    ∃ frame, u1.frames = some [frame] ∧ u1.current_frame = 0 ∧
      some frame.data_chunk_offset = first_idat_offset (spec_chunks buffer buffer.length 33) ∧
      frame.compressed_size = idat_total (spec_chunks buffer buffer.length 33) ∧
      frame.compressed_size = (idat_payloads (spec_chunks buffer buffer.length 33)).length ∧
      upng_decode_collect (upng_new_from_bytes buffer)
        = .ok (u1, some (frame, .done (idat_payloads (spec_chunks buffer buffer.length 33)))) := by
  obtain ⟨context, hctx, _, _, _, _, _, _, _, _, _, _, _, u0, hscan, hfin⟩ :=
    okAll_ok (upng_header_ok_aux (upng_new_from_bytes buffer) rfl rfl) hhdr hok
  have hc : context = { buffer := buffer } := by
    have : (upng_new_from_bytes buffer).source.user = some { buffer := buffer } := rfl
    rw [this] at hctx
    exact (Option.some.inj hctx).symm
  subst hc
  have hok0 : u0.error = .UPNG_EOK := by
    rw [← header_finish_error, ← hfin]; exact hok
  have hsame := okAll_ok (upng_process_chunks_loop_same _ _ _ _) hscan
  obtain ⟨_, _, _, _, _, hsrc0, _, hcur0, _⟩ := hsame
  have hu1 : u1 = { u0 with state := .UPNG_HEADER } := by
    rw [hfin]; unfold header_finish
    simp only [hok0, ne_eq, not_true_eq_false, if_false]
  obtain ⟨⟨_, r2, r3⟩, _, d2⟩ := still_scan_decode { buffer := buffer } buffer.length
    (header_fields (upng_new_from_bytes buffer) (buffer.take 29)) u0 33
    rfl rfl hlt rfl (Or.inl rfl) (Nat.zero_le _) (by decide) hscan hok0 hstill
  obtain ⟨o1, ho1⟩ := Option.ne_none_iff_exists'.1 hidat
  obtain ⟨fr, e1, e2, e3⟩ := r2 o1 ho1
  have hz : (still_frame (header_fields (upng_new_from_bytes buffer)
      (buffer.take 29))).compressed_size = 0 := rfl
  have hz2 : (still_frame (header_fields (upng_new_from_bytes buffer)
      (buffer.take 29))).data_chunk_offset = 0 := rfl
  rw [hz, Nat.zero_add] at e2
  rw [hz2] at e3
  simp only [if_true] at e3
  have hfr1 : u1.frames = some [fr] := by rw [hu1]; exact e1
  have hcur1 : u1.current_frame = 0 := by rw [hu1]; exact hcur0
  have hsrc1 : u1.source = (header_fields (upng_new_from_bytes buffer)
      (buffer.take 29)).source := by rw [hu1]; exact hsrc0
  refine ⟨fr, hfr1, hcur1, by rw [e3, ho1], e2, by rw [e2, r3], ?_⟩
  have hdec := d2 o1 ho1 u1 fr.compressed_size u1.source.size [] 0 hsrc1
    (by rw [hsrc1]; exact Nat.le_refl _) (by rw [e2]; simp)
  have hst : u1.state = .UPNG_HEADER := by rw [hu1]
  have hframe : decode_frame u1 = .ok fr := by
    unfold decode_frame
    rw [hfr1, hcur1]
    simp
  unfold upng_decode_collect
  rw [hhdr]
  simp only [Except.bind, hok, hst, ne_eq, not_true_eq_false, if_false, false_and, hframe,
    e3, hdec, List.nil_append]

/-- Witness for C6: `example_png`, whose two IDAT payloads 1, 2, 3 and 7, 8 lie around a
`zZZZ` chunk. -/
theorem still_image_assembly_witness :
    (first_idat_offset (spec_chunks example_png example_png.length 33) = some 33 ∧
      idat_payloads (spec_chunks example_png example_png.length 33) = [1, 2, 3, 7, 8]) ∧
    ∃ frame, (result_of (upng_header (upng_new_from_bytes example_png))).frames
        = some [frame] ∧
      (result_of (upng_header (upng_new_from_bytes example_png))).current_frame = 0 ∧
      some frame.data_chunk_offset
        = first_idat_offset (spec_chunks example_png example_png.length 33) ∧
      frame.compressed_size = idat_total (spec_chunks example_png example_png.length 33) ∧
      frame.compressed_size
        = (idat_payloads (spec_chunks example_png example_png.length 33)).length ∧
      upng_decode_collect (upng_new_from_bytes example_png)
        = .ok (result_of (upng_header (upng_new_from_bytes example_png)),
            some (frame, .done (idat_payloads (spec_chunks example_png example_png.length 33)))) :=
  ⟨by decide,
   still_image_assembly example_png (result_of (upng_header (upng_new_from_bytes example_png)))
    (by decide) (by rfl) (by decide) (by decide) (by decide)⟩

set_option maxRecDepth 1000000 in
/-- C7, the code at the failing input: in `example_apng_big_endian` the two fdAT chunks of
frame 0 carry the big-endian sequence numbers 0 and 1, the header is accepted, and
`upng_decode` fails with `UPNG_EMALFORMED` (raised on source line 738) whatever the
decompressor; with the second number stored little-endian instead, the loop ends normally
and has assembled the two payloads without their sequence bytes. -/
theorem fdat_sequence_read_in_host_order
    (uz_inflate : Nat → List Byte → Nat → upng_error × Mem) :
    (be32 example_apng_big_endian (91 + 8) = 0 ∧ be32 example_apng_big_endian (109 + 8) = 1) ∧
    returned (upng_header (upng_new_from_bytes example_apng_big_endian)) = some .UPNG_EOK ∧
    returned (upng_decode uz_inflate (upng_new_from_bytes example_apng_big_endian))
      = some .UPNG_EMALFORMED ∧
    (result_of (upng_decode uz_inflate (upng_new_from_bytes example_apng_big_endian))).error_line
      = 738 ∧
    be32 example_apng_little_endian (109 + 8) = 16777216 ∧
    assembled (upng_decode_collect (upng_new_from_bytes example_apng_little_endian))
      = some [5, 6, 7, 8] := by
  refine ⟨by decide, by decide, ?_, ?_, by decide, by decide⟩
  · rfl
  · rfl

/-! ## The frame table and the fcTL sequence -/

theorem process_FCTL_frame_checked (u : upng_t) (frames : List upng_frame) (data : List Byte)
    (index : Nat) :
    okAll (fctl_frame_checked u index) (process_FCTL_frame u frames data index) := by
  simp only [process_FCTL_frame, okAll_ite, okAll_pure, okAll_fault]
  refine ⟨fun _ => trivial, fun hi => ⟨fun _ => trivial, fun h1 => ⟨fun _ => trivial, fun h2 =>
    ⟨fun _ => trivial, fun h3 => ⟨fun _ => trivial, fun _ => ⟨fun _ => trivial, fun _ => ?_⟩⟩⟩⟩⟩⟩
  simp only [ne_eq, Decidable.not_not, not_not] at hi h1 h2 h3
  have hget : ((frames.set index (fctl_frame (frames.getD index upng_frame.zero) data)).getD
      index upng_frame.zero) = fctl_frame (frames.getD index upng_frame.zero) data := by
    rw [List.getD_eq_getElem?_getD, List.getElem?_set_self hi]
    rfl
  simp only [fctl_frame_checked, Option.getD_some, hget]
  exact ⟨h1.1, h1.2, h2, h3⟩

set_option maxRecDepth 1000000 in
/-- C11, the code and failing inputs: for the frame that it fills, the fcTL branch
establishes positive dimensions and `offset + dimension` within the image only for sums
taken in 32 bits. So `upng_header` accepts `example_apng_wrap`, whose only frame has
`offset_x + width = 2^32 + 1` inside an image of width 1; it also accepts
`example_apng_missing_fctl`, whose second slot stays as acTL zeroed it, with width and
height 0, and `example_zero_width`, whose synthetic descriptor has width 0. -/
theorem frame_table_outside_image (u : upng_t) (frames : List upng_frame) (data : List Byte)
    (index : Nat) :
    okAll (fctl_frame_checked u index) (process_FCTL_frame u frames data index) ∧
    (returned (upng_header (upng_new_from_bytes example_apng_wrap)) = some .UPNG_EOK ∧
      (result_of (upng_header (upng_new_from_bytes example_apng_wrap))).width = 1 ∧
      ((result_of (upng_header (upng_new_from_bytes example_apng_wrap))).frames.getD []).map
        (fun f => (f.offset_x, f.width)) = [(4294967295, 2)] ∧
      ¬ ∀ f ∈ (result_of (upng_header (upng_new_from_bytes example_apng_wrap))).frames.getD [],
        frame_in_image 1 1 f) ∧
    (returned (upng_header (upng_new_from_bytes example_apng_missing_fctl))
        = some .UPNG_EOK ∧
      ((result_of (upng_header (upng_new_from_bytes example_apng_missing_fctl))).frames.getD
        []).map (fun f => (f.width, f.height)) = [(1, 1), (0, 0)]) ∧
    (returned (upng_header (upng_new_from_bytes example_zero_width)) = some .UPNG_EOK ∧
      ((result_of (upng_header (upng_new_from_bytes example_zero_width))).frames.getD
        []).map (fun f => (f.width, f.height)) = [(0, 5)]) := by
  refine ⟨process_FCTL_frame_checked u frames data index, ?_, ?_, ?_⟩
  · decide
  · decide
  · decide

theorem intToU32_lt (z : Int) : intToU32 z < 4294967296 := by
  unfold intToU32
  omega

theorem account_to_frame_keeps (u : upng_t) (index o len c : Nat) :
    okAll (keeps_frames u c) (account_to_frame u index o len c) := by
  unfold account_to_frame
  cases u.frames with
  | none => trivial
  | some frames =>
    simp only [okAll_ite, okAll_pure, okAll_fault]
    simp [keeps_frames]

theorem process_IDAT_keeps (u : upng_t) (o len c : Nat) :
    okAll (keeps_frames u c) (process_IDAT u o len c) := by
  simp only [process_IDAT, okAll_ite, okAll_pure]
  refine ⟨fun _ => ?_, fun _ => ⟨fun hn => ⟨fun he => he, fun _ => ?_⟩, fun _ => ?_⟩⟩
  · simp [keeps_frames, SET_ERROR]
  · refine okAll_mono ?_ (account_to_frame_keeps (upng_setup_for_single_image u) _ _ _ _)
    intro b hb
    cases b with
    | next u1 c1 =>
      obtain ⟨h1, h2, h3⟩ := hb
      have hf : (upng_setup_for_single_image u).frames ≠ none := by
        simp [upng_setup_for_single_image]
      have hn' : u.frames = none := by simpa using hn
      refine ⟨h1, fun h => (h hn').elim, fun _ => ?_⟩
      rw [(h2 hf).2]
      simp [upng_setup_for_single_image]
    | brk u1 => exact hb
    | ret u1 => exact hb
  · exact account_to_frame_keeps _ _ _ _ _

theorem process_FDAT_keeps (u : upng_t) (o len c : Nat) :
    okAll (keeps_frames u c) (process_FDAT u o len c) := by
  simp only [process_FDAT, okAll_ite, okAll_pure]
  refine ⟨fun _ => ?_, fun _ => account_to_frame_keeps _ _ _ _ _⟩
  simp [keeps_frames, SET_ERROR]

theorem process_ACTL_keeps (u : upng_t) (d c : Nat) :
    okAll (keeps_frames u c) (process_ACTL u d c) := by
  simp only [process_ACTL, okAll_ite, okAll_pure, okAll_bind]
  refine ⟨fun _ => ?_, fun hn => okAll_of_forall _ fun data => ⟨fun _ => ?_, fun _ => ?_⟩⟩
  · simp [keeps_frames, SET_ERROR]
  · simp [keeps_frames, SET_ERROR]
  · have hn' : u.frames = none := by simpa using hn
    exact ⟨rfl, fun h => (h hn').elim, fun _ => intToU32_lt _⟩

theorem process_OFFS_keeps (u : upng_t) (d c : Nat) :
    okAll (keeps_frames u c) (process_OFFS u d c) := by
  simp only [process_OFFS, okAll_ite, okAll_pure, okAll_bind]
  refine okAll_of_forall _ fun data => ?_
  simp [keeps_frames, SET_ERROR]

theorem process_PLTE_keeps (u : upng_t) (d len c : Nat) :
    okAll (keeps_frames u c) (process_PLTE u d len c) := by
  simp only [process_PLTE, okAll_ite, okAll_pure, okAll_bind]
  refine okAll_of_forall _ fun data => ?_
  simp [keeps_frames, SET_ERROR]

theorem process_tRNS_keeps (u : upng_t) (d len c : Nat) :
    okAll (keeps_frames u c) (process_tRNS u d len c) := by
  simp only [process_tRNS, okAll_ite, okAll_pure, okAll_bind]
  refine okAll_of_forall _ fun data => ?_
  simp [keeps_frames, SET_ERROR]

theorem process_TEXT_keeps (u : upng_t) (d len c : Nat) :
    okAll (keeps_frames u c) (process_TEXT u d len c) := by
  simp only [process_TEXT, okAll_ite, okAll_pure, okAll_bind, okAll_fault]
  refine ⟨fun _ => trivial, fun _ => okAll_of_forall _ fun data => ?_⟩
  simp [keeps_frames, SET_ERROR, text_entry_set]

/-- The branch taken for a chunk that is neither fcTL nor IEND. -/
theorem process_chunk_type_keeps (u : upng_t) (buffer : List Byte) (o d len c : Nat)
    (h4 : chunk_type_at buffer o ≠ type_fcTL) (h5 : chunk_type_at buffer o ≠ type_IEND) :
    okAll (keeps_frames u c) (process_chunk_type u ((buffer.drop o).take 12) o d len c) := by
  obtain ⟨_, _, _, e4, e5⟩ := chunk_type_cases buffer o
  have c4 := mt e4.1 h4
  have c5 := mt e5.1 h5
  unfold process_chunk_type
  simp only [c4, c5, if_false, okAll_ite, okAll_pure]
  refine ⟨fun _ => process_IDAT_keeps _ _ _ _, fun _ => ⟨fun _ => process_FDAT_keeps _ _ _ _,
    fun _ => ⟨fun _ => process_ACTL_keeps _ _ _, fun _ => ⟨fun _ => process_OFFS_keeps _ _ _,
    fun _ => ⟨fun _ => process_PLTE_keeps _ _ _ _, fun _ => ⟨fun _ => process_tRNS_keeps _ _ _ _,
    fun _ => ⟨fun _ => process_TEXT_keeps _ _ _ _, fun _ => ⟨fun _ => ?_, fun _ => ?_⟩⟩⟩⟩⟩⟩⟩⟩ <;>
    simp [keeps_frames, SET_ERROR]

theorem process_chunk_type_FCTL (u : upng_t) (buffer : List Byte) (o d len c : Nat)
    (ht : chunk_type_at buffer o = type_fcTL) :
    process_chunk_type u ((buffer.drop o).take 12) o d len c = process_FCTL u d c := by
  have e : upng_chunk_type ((buffer.drop o).take 12) = CHUNK_FCTL :=
    (chunk_type_cases buffer o).2.2.2.1.2 ht
  unfold process_chunk_type
  rw [e]
  have n1 : CHUNK_FCTL ≠ CHUNK_IDAT := by decide
  have n2 : CHUNK_FCTL ≠ CHUNK_FDAT := by decide
  have n3 : CHUNK_FCTL ≠ CHUNK_ACTL := by decide
  simp only [n1, n2, n3, if_false, if_true]

theorem process_chunk_type_ACTL (u : upng_t) (buffer : List Byte) (o d len c : Nat)
    (ht : chunk_type_at buffer o = type_acTL) :
    process_chunk_type u ((buffer.drop o).take 12) o d len c = process_ACTL u d c := by
  have e : upng_chunk_type ((buffer.drop o).take 12) = CHUNK_ACTL :=
    (chunk_type_cases buffer o).2.2.1.2 ht
  unfold process_chunk_type
  rw [e]
  have n1 : CHUNK_ACTL ≠ CHUNK_IDAT := by decide
  have n2 : CHUNK_ACTL ≠ CHUNK_FDAT := by decide
  simp only [n1, n2, if_false, if_true]

/-- The first four bytes that a read of at least four bytes at `off` delivers. -/
theorem source_read_be32 (source : upng_source) (context : upng_byte_source_context)
    (off n : Nat) (data : List Byte) (hu : source.user = some context)
    (hread : source_read source off n = .ok data) (hlen : data.length = n) (hn : 4 ≤ n) :
    intToU32 (MAKE_DWORD_PTR data 0) = be32 context.buffer off := by
  obtain ⟨context', hc, hd, _⟩ := source_read_full source off n data hread hlen (by omega)
  rw [hu] at hc
  cases hc
  rw [intToU32_MAKE_DWORD_PTR, hd, be32_drop_take _ _ _ hn]

theorem process_FCTL_frame_branch (u : upng_t) (frames : List upng_frame) (data : List Byte)
    (c seq : Nat) (h1 : seq = u32 (c + 1)) (h2 : seq < u.frame_count) :
    okAll (fctl_branch u c seq) (process_FCTL_frame u frames data (u32 (c + 1))) := by
  simp only [process_FCTL_frame, okAll_ite, okAll_pure, okAll_fault]
  refine ⟨fun _ => trivial, fun _ => ⟨fun _ => ?_, fun _ => ⟨fun _ => ?_, fun _ =>
    ⟨fun _ => ?_, fun _ => ⟨fun _ => ?_, fun _ => ⟨fun _ => ?_, fun _ => ?_⟩⟩⟩⟩⟩⟩
  · simp [fctl_branch, SET_ERROR]
  · simp [fctl_branch, SET_ERROR]
  · simp [fctl_branch, SET_ERROR]
  · simp [fctl_branch, SET_ERROR]
  · simp [fctl_branch, SET_ERROR]
  · exact ⟨h1, h2, rfl, by simp, rfl⟩

/-- The branch for an fcTL chunk whose sequence number field is at `d`. -/
theorem process_FCTL_branch (u : upng_t) (context : upng_byte_source_context) (d c : Nat)
    (hu : u.source.user = some context) :
    okAll (fctl_branch u c (be32 context.buffer d)) (process_FCTL u d c) := by
  unfold process_FCTL
  cases hf : u.frames with
  | none => simp [okAll_pure, fctl_branch, SET_ERROR]
  | some frames =>
    simp only
    refine okAll_bind_of _ _ _ fun data hread => ?_
    simp only [okAll_ite, okAll_pure]
    refine ⟨fun _ => by simp [fctl_branch, SET_ERROR], fun hlen => ⟨fun _ => by
      simp [fctl_branch, SET_ERROR], fun h1 => ⟨fun _ => by simp [fctl_branch, SET_ERROR],
      fun h2 => ?_⟩⟩⟩
    simp only [ne_eq, Decidable.not_not] at hlen h1 h2
    have e := source_read_be32 u.source context d 26 data hu hread hlen (by omega)
    rw [e] at h1 h2
    exact process_FCTL_frame_branch u frames data c _ h1 h2

/-- The branch for an acTL chunk whose frame count field is at `d`. -/
theorem process_ACTL_branch (u : upng_t) (context : upng_byte_source_context) (d c : Nat)
    (hu : u.source.user = some context) :
    okAll (actl_branch u (be32 context.buffer d)) (process_ACTL u d c) := by
  unfold process_ACTL
  simp only [okAll_ite, okAll_pure]
  refine ⟨fun _ => by simp [actl_branch, SET_ERROR], fun hn => okAll_bind_of _ _ _
    fun data hread => ?_⟩
  simp only [okAll_ite, okAll_pure]
  refine ⟨fun _ => by simp [actl_branch, SET_ERROR], fun hlen => ?_⟩
  simp only [ne_eq, Decidable.not_not] at hlen
  have e := source_read_be32 u.source context d 8 data hu hread hlen (by omega)
  have hn' : u.frames = none := by simpa using hn
  exact ⟨hn', by simp, e⟩

theorem fctl_result_nil (buffer : List Byte) (u : upng_t) (c : Nat) :
    fctl_result buffer u c u [] :=
  ⟨0, rfl, fun h => (h rfl).elim, fun _ => ⟨rfl, fun x hx => by cases hx⟩,
    fun x hx => by cases hx⟩

/-- The scan of the chunks and the sequence numbers of the fcTL chunks, in step. -/
theorem fctl_scan (context : upng_byte_source_context) (f : Nat) :
    ∀ (u u' : upng_t) (o c : Nat),
      u.source.user = some context → u.source.size = context.buffer.length →
      u.source.size < 9223372036854775808 → u.frame_count < 4294967296 →
      upng_process_chunks_loop f u o c = .ok u' → u'.error = .UPNG_EOK →
      fctl_result context.buffer u c u' (spec_chunks context.buffer f o) := by
  induction f with
  | zero =>
    intro u u' o c hu hsize hlt hfc hloop hok
    simp only [upng_process_chunks_loop] at hloop
    split_ifs at hloop with hlt2
    cases hloop
    exact fctl_result_nil _ _ _
  | succ k ih =>
    intro u u' o c hu hsize hlt hfc hloop hok
    rw [upng_process_chunks_loop] at hloop
    by_cases hlt2 : o < u.source.size
    swap
    · simp only [hlt2, if_false, Except.ok.injEq] at hloop
      subst hloop
      have hnil : spec_chunks context.buffer (k + 1) o = [] := by
        rw [spec_chunks]
        have : ¬ o + 12 ≤ context.buffer.length := by omega
        simp only [this, if_false]
      rw [hnil]
      exact fctl_result_nil _ _ _
    simp only [hlt2, if_true] at hloop
    by_cases hin : chunk_in_bounds context.buffer o
    swap
    · obtain ⟨line, _, hstep⟩ := upng_process_chunk_bounds u context o c hu hsize
        hlt hlt2 (not_in_bounds_bad _ _ _ hsize hin)
      rw [hstep] at hloop
      simp only [Except.bind, Step.resume, Except.ok.injEq] at hloop
      subst hloop
      simp [SET_ERROR] at hok
    have h12 := hin.1
    by_cases tE : chunk_type_at context.buffer o = type_IEND
    · rw [upng_process_chunk_IEND u context o _ hu hsize hlt hin tE] at hloop
      simp only [Except.bind, Step.resume, Except.ok.injEq] at hloop
      subst hloop
      have hnil : spec_chunks context.buffer (k + 1) o = [] := by
        rw [spec_chunks]
        simp only [h12, if_true, tE]
      rw [hnil]
      exact fctl_result_nil _ _ _
    have hcons : spec_chunks context.buffer (k + 1) o
        = { offset := o, type := chunk_type_at context.buffer o,
            data := (context.buffer.drop (o + 8)).take (be32 context.buffer o) } ::
          spec_chunks context.buffer k (o + be32 context.buffer o + 12) := by
      rw [spec_chunks]
      simp only [h12, if_true, tE, if_false]
    rw [hcons]
    rw [upng_process_chunk_in_bounds u context o c hu hsize hlt hin] at hloop
    cases hb : process_chunk_type u ((context.buffer.drop o).take 12) o (o + 8)
        (be32 context.buffer o) c with
    | error e =>
      rw [hb] at hloop
      cases hloop
    | ok b =>
      rw [hb] at hloop
      simp only [Except.bind] at hloop
      have hsame := okAll_ok (process_chunk_type_same u _ o (o + 8) (be32 context.buffer o) c) hb
      obtain ⟨_, _, _, _, _, hsrc, _, _, _⟩ := hsame
      by_cases tF : chunk_type_at context.buffer o = type_fcTL
      · -- fcTL
        rw [process_chunk_type_FCTL u context.buffer o _ _ c tF] at hb
        have hbr := okAll_ok (process_FCTL_branch u context (o + 8) c hu) hb
        cases b with
        | brk u1 => exact hbr.elim
        | ret u1 =>
          simp only [Branch.toStep, Step.resume, Except.ok.injEq] at hloop
          subst hloop
          exact (hbr hok).elim
        | next u1 c1 =>
          simp only [Branch.toStep, Step.resume] at hloop
          obtain ⟨b1, b2, b3, b4, b5⟩ := hbr
          have hsrc1 : u1.source = u.source := hsrc
          obtain ⟨m, r1, r2, r3, r4⟩ := ih u1 u' _ c1 (by rw [hsrc1]; exact hu)
            (by rw [hsrc1]; exact hsize) (by rw [hsrc1]; exact hlt) (by rw [b5]; exact hfc)
            hloop hok
          obtain ⟨r3a, r3b⟩ := r3 b4
          have hnext : u32 (c1 + 1) = u32 (c + 1) + 1 := by
            rw [b3, ← b1]
            unfold u32
            omega
          have n1 : type_fcTL ≠ type_acTL := by decide
          refine ⟨m + 1, ?_, fun _ => ?_, fun _ => ⟨by rw [r3a, b5], fun x hx => ?_⟩,
            fun x hx hxa => ?_⟩
          · simp only [fctl_sequence_numbers, tF, if_true]
            rw [r1, hnext, b1]
            rfl
          · by_cases hm : m = 0
            · subst hm
              rw [r3a, b5, ← b1]
              omega
            · have := r2 hm
              rw [hnext] at this
              omega
          · rcases List.mem_cons.1 hx with rfl | hx
            · simp only [tF]
              exact n1
            · exact r3b x hx
          · rcases List.mem_cons.1 hx with rfl | hx
            · simp only [tF] at hxa
              exact (n1 hxa).elim
            · exact (r3b x hx hxa).elim
      · -- any other chunk
        have hk := okAll_ok (process_chunk_type_keeps u context.buffer o (o + 8)
          (be32 context.buffer o) c tF tE) hb
        cases b with
        | brk u1 => exact hk.elim
        | ret u1 =>
          simp only [Branch.toStep, Step.resume, Except.ok.injEq] at hloop
          subst hloop
          exact (hk hok).elim
        | next u1 c1 =>
          simp only [Branch.toStep, Step.resume] at hloop
          obtain ⟨k1, k2, k3⟩ := hk
          subst k1
          have hsrc1 : u1.source = u.source := hsrc
          obtain ⟨m, r1, r2, r3, r4⟩ := ih u1 u' _ c1 (by rw [hsrc1]; exact hu)
            (by rw [hsrc1]; exact hsize) (by rw [hsrc1]; exact hlt) (k3 hfc) hloop hok
          have hactl : chunk_type_at context.buffer o = type_acTL →
              u.frames = none ∧ u1.frames ≠ none ∧
              u1.frame_count = be32 context.buffer (o + 8) := by
            intro tA
            rw [process_chunk_type_ACTL u context.buffer o _ _ c1 tA] at hb
            have ha := okAll_ok (process_ACTL_branch u context (o + 8) c1 hu) hb
            exact ha
          refine ⟨m, ?_, r2, fun hne => ?_, fun x hx hxa => ?_⟩
          · simp only [fctl_sequence_numbers, tF, if_false]
            exact r1
          · obtain ⟨k2a, k2b⟩ := k2 hne
            obtain ⟨r3a, r3b⟩ := r3 k2a
            refine ⟨by rw [r3a, k2b], fun x hx => ?_⟩
            rcases List.mem_cons.1 hx with rfl | hx
            · intro tA
              exact hne (hactl tA).1
            · exact r3b x hx
          · rcases List.mem_cons.1 hx with rfl | hx
            · obtain ⟨_, a2, a3⟩ := hactl hxa
              rw [(r3 a2).1, a3]
            · exact r4 x hx hxa

/-- C12, as amended: for every stream (smaller than `2^63` bytes) that `upng_header`
accepts, the fcTL chunks before IEND carry, in stream order, the sequence numbers
0, 1, ..., m - 1 for some `m` that is at most the frame count, and the frame count is the
one that the acTL chunk declares. The code does not require `m` to reach the frame count:
a declared frame may lack its fcTL. -/
theorem fctl_sequence_counts_up (buffer : List Byte) (u1 : upng_t)
    (hlt : buffer.length < 9223372036854775808)
    (hhdr : upng_header (upng_new_from_bytes buffer) = .ok u1)
    (hok : u1.error = .UPNG_EOK) :
    ∃ m, fctl_sequence_numbers buffer (spec_chunks buffer buffer.length 33) = List.range m ∧
      m ≤ u1.frame_count ∧
      ∀ x ∈ spec_chunks buffer buffer.length 33, x.type = type_acTL →
        u1.frame_count = be32 buffer (x.offset + 8) := by
  obtain ⟨context, hctx, _, _, _, _, _, _, _, _, _, _, _, u0, hscan, hfin⟩ :=
    okAll_ok (upng_header_ok_aux (upng_new_from_bytes buffer) rfl rfl) hhdr hok
  have hc : context = { buffer := buffer } := by
    have : (upng_new_from_bytes buffer).source.user = some { buffer := buffer } := rfl
    rw [this] at hctx
    exact (Option.some.inj hctx).symm
  subst hc
  have hok0 : u0.error = .UPNG_EOK := by
    rw [← header_finish_error, ← hfin]; exact hok
  have hfc : u1.frame_count = u0.frame_count := by
    rw [hfin]; unfold header_finish
    split_ifs <;> rfl
  obtain ⟨m, r1, r2, _, r4⟩ := fctl_scan { buffer := buffer } buffer.length
    (header_fields (upng_new_from_bytes buffer) (buffer.take 29)) u0 33 FRAME_INDEX_NONE
    rfl rfl hlt (show (0 : Nat) < 4294967296 by decide) hscan hok0
  have hz : u32 (FRAME_INDEX_NONE + 1) = 0 := by decide
  rw [hz] at r1 r2
  refine ⟨m, ?_, ?_, fun x hx hxa => ?_⟩
  · rw [r1, List.range_eq_range']
  · rw [hfc]
    by_cases hm : m = 0
    · omega
    · have := r2 hm
      omega
  · rw [hfc]
    exact r4 x hx hxa

set_option maxRecDepth 1000000 in
/-- Witness for C12: `example_apng_two_frames`, whose fcTL chunks carry 0 and 1. -/
theorem fctl_sequence_counts_up_witness :
    fctl_sequence_numbers example_apng_two_frames
      (spec_chunks example_apng_two_frames example_apng_two_frames.length 33) = [0, 1] ∧
    (result_of (upng_header (upng_new_from_bytes example_apng_two_frames))).frame_count = 2 ∧
    ∃ m, fctl_sequence_numbers example_apng_two_frames
        (spec_chunks example_apng_two_frames example_apng_two_frames.length 33)
        = List.range m ∧
      m ≤ (result_of (upng_header (upng_new_from_bytes example_apng_two_frames))).frame_count ∧
      ∀ x ∈ spec_chunks example_apng_two_frames example_apng_two_frames.length 33,
        x.type = type_acTL →
        (result_of (upng_header (upng_new_from_bytes example_apng_two_frames))).frame_count
          = be32 example_apng_two_frames (x.offset + 8) :=
  ⟨by decide, by decide,
   fctl_sequence_counts_up example_apng_two_frames
    (result_of (upng_header (upng_new_from_bytes example_apng_two_frames)))
    (by decide) (by rfl) (by decide)⟩

set_option maxRecDepth 1000000 in
/-- Counterexample to C12 as stated: `example_apng_missing_fctl` declares two frames in
its acTL chunk and has the fcTL chunk with sequence number 0 only; `upng_header` returns
`UPNG_EOK` with `frame_count = 2`, so the declared frame 1 has no fcTL. -/
theorem missing_fctl_counterexample :
    returned (upng_header (upng_new_from_bytes example_apng_missing_fctl))
      = some .UPNG_EOK ∧
    (result_of (upng_header (upng_new_from_bytes example_apng_missing_fctl))).frame_count = 2 ∧
    fctl_sequence_numbers example_apng_missing_fctl
      (spec_chunks example_apng_missing_fctl example_apng_missing_fctl.length 33) = [0] ∧
    fctl_sequence_numbers example_apng_missing_fctl
      (spec_chunks example_apng_missing_fctl example_apng_missing_fctl.length 33)
      ≠ List.range 2 := by
  decide

set_option maxRecDepth 1000000 in
/-- C13, the code at failing inputs: `upng_header` returns `UPNG_EOK` on
`example_no_idat` and leaves the frame table null, and on `example_no_frames` it leaves a
table of zero descriptors; in both cases `upng_decode` then takes the address of
`frames[0]` and reads outside the table. -/
theorem header_without_frame (uz_inflate : Nat → List Byte → Nat → upng_error × Mem) :
    (returned (upng_header (upng_new_from_bytes example_no_idat)) = some .UPNG_EOK ∧
      (result_of (upng_header (upng_new_from_bytes example_no_idat))).frames = none ∧
      (result_of (upng_header (upng_new_from_bytes example_no_idat))).current_frame = 0 ∧
      upng_decode uz_inflate (upng_new_from_bytes example_no_idat) = .error .out_of_bounds) ∧
    (returned (upng_header (upng_new_from_bytes example_no_frames)) = some .UPNG_EOK ∧
      (result_of (upng_header (upng_new_from_bytes example_no_frames))).frames = some [] ∧
      (result_of (upng_header (upng_new_from_bytes example_no_frames))).current_frame = 0 ∧
      upng_decode uz_inflate (upng_new_from_bytes example_no_frames)
        = .error .out_of_bounds) := by
  refine ⟨⟨by decide, by decide, by decide, ?_⟩, by decide, by decide, by decide, ?_⟩
  · rfl
  · rfl

/-! ## Palette, transparency and text entries -/

theorem process_PLTE_entries (u : upng_t) (d len c : Nat) :
    okAll (fun b => (upng_get_palette b.upng).1 = ((len / 3 % 256 : Nat) : Int))
      (process_PLTE u d len c) := by
  simp only [process_PLTE, okAll_ite, okAll_pure, okAll_bind]
  refine okAll_of_forall _ fun data => ?_
  simp [upng_get_palette, Branch.upng, SET_ERROR, toByte_val]

theorem process_tRNS_entries (u : upng_t) (d len c : Nat) :
    okAll (fun b => (upng_get_alpha b.upng).1 = ((len % 256 : Nat) : Int))
      (process_tRNS u d len c) := by
  simp only [process_tRNS, okAll_ite, okAll_pure, okAll_bind]
  refine okAll_of_forall _ fun data => ?_
  simp [upng_get_alpha, Branch.upng, SET_ERROR, toByte_val]

set_option maxRecDepth 1000000 in
/-- C14, the code at the failing input: the branches for PLTE and tRNS store the entry
counts in an `unsigned char`, so `upng_get_palette` returns `(L / 3) mod 256` and
`upng_get_alpha` returns `L mod 256`; `upng_header` accepts `example_palette_png`, whose
PLTE chunk has 768 payload bytes and whose tRNS chunk has 256, and both accessors then
return 0 although the tables hold 768 and 256 bytes. -/
theorem palette_entry_count_truncated (u : upng_t) (d len c : Nat) :
    okAll (fun b => (upng_get_palette b.upng).1 = ((len / 3 % 256 : Nat) : Int))
      (process_PLTE u d len c) ∧
    okAll (fun b => (upng_get_alpha b.upng).1 = ((len % 256 : Nat) : Int))
      (process_tRNS u d len c) ∧
    returned (upng_header (upng_new_from_bytes example_palette_png)) = some .UPNG_EOK ∧
    (chunk_type_at example_palette_png 33 = type_PLTE ∧
      be32 example_palette_png 33 = 768) ∧
    (chunk_type_at example_palette_png 813 = type_tRNS ∧
      be32 example_palette_png 813 = 256) ∧
    upng_get_palette (result_of (upng_header (upng_new_from_bytes example_palette_png)))
      = (0, some (List.replicate 768 7)) ∧
    upng_get_alpha (result_of (upng_header (upng_new_from_bytes example_palette_png)))
      = (0, some (List.replicate 256 9)) := by
  refine ⟨process_PLTE_entries u d len c, process_tRNS_entries u d len c,
    by decide, by decide, by decide, by decide, by decide⟩

theorem takeWhile_append_zero (l : List Byte) :
    (l ++ [0]).takeWhile (fun b => b != 0) = l.take (l.indexOf 0) := by
  induction l with
  | nil => rfl
  | cons a l ih =>
    by_cases ha : a = 0
    · subst ha
      simp
    · have : (a != 0) = true := by simpa using ha
      rw [List.cons_append, List.takeWhile_cons, this]
      simp only [if_true]
      rw [List.indexOf_cons_ne _ (fun h => ha h), List.take_succ_cons, ih]

/-- The keyword pointer of a completed text entry is the C string of the specification's
keyword. -/
theorem c_string_keyword (bytes : List Byte) :
    c_string (bytes ++ [0]) 0 = spec_keyword bytes := by
  unfold c_string spec_keyword
  rw [List.drop_zero, takeWhile_append_zero]

/-- The text pointer of a completed text entry is the C string of the specification's
text. -/
theorem c_string_text (bytes : List Byte) (h : (0 : Byte) ∈ bytes) :
    c_string (bytes ++ [0]) (bytes.indexOf 0 + 1) = spec_text bytes := by
  unfold c_string spec_text
  have hk : bytes.indexOf 0 < bytes.length := List.indexOf_lt_length.2 h
  rw [List.drop_append_of_le_length (by omega), takeWhile_append_zero]

theorem process_chunk_type_TEXT (u : upng_t) (buffer : List Byte) (o d len c : Nat)
    (ht : chunk_type_at buffer o = type_tEXt) :
    process_chunk_type u ((buffer.drop o).take 12) o d len c = process_TEXT u d len c := by
  have e : upng_chunk_type ((buffer.drop o).take 12) = CHUNK_TEXT :=
    (chunk_type_eq_iff buffer o _ _ _ _ (by decide) (by decide) (by decide) (by decide)).2 ht
  unfold process_chunk_type
  rw [e]
  have n1 : CHUNK_TEXT ≠ CHUNK_IDAT := by decide
  have n2 : CHUNK_TEXT ≠ CHUNK_FDAT := by decide
  have n3 : CHUNK_TEXT ≠ CHUNK_ACTL := by decide
  have n4 : CHUNK_TEXT ≠ CHUNK_FCTL := by decide
  have n5 : CHUNK_TEXT ≠ CHUNK_OFFS := by decide
  have n6 : CHUNK_TEXT ≠ CHUNK_PLTE := by decide
  have n7 : CHUNK_TEXT ≠ CHUNK_tRNS := by decide
  simp only [n1, n2, n3, n4, n5, n6, n7, if_false, if_true]

/-- The accessor `upng_get_text` on a decoder whose entry `index` is complete. -/
theorem upng_get_text_entry (u : upng_t) (index : Nat) (bytes : List Byte) (k t : Nat)
    (hi : index < u.text_count)
    (he : u.text[index]? = some { buffer := bytes, keyword := some k, text := some t }) :
    upng_get_text u index = some (c_string bytes k, c_string bytes t) := by
  unfold upng_get_text
  rw [if_pos hi, he]

/-- C15, as amended: for every in-bounds tEXt chunk that the scanner handles while fewer
than ten entries are stored: if the payload has no NUL byte the scan fails with
`UPNG_EMALFORMED` (line 607) and `text_count` stays; otherwise the scan goes on behind the
chunk with `text_count` one higher and no error set, `upng_get_text` at the new index
returns the payload bytes before the first NUL as keyword and the bytes after it, up to
the next NUL or the end of the payload, as text, and the earlier entries read as before.
The source is smaller than `2^63` bytes. -/
theorem text_chunk_entry (u : upng_t) (context : upng_byte_source_context) (o c : Nat)
    (hu : u.source.user = some context)
    (hsize : u.source.size = context.buffer.length)
    (hlt : u.source.size < 9223372036854775808)
    (hin : chunk_in_bounds context.buffer o)
    (ht : chunk_type_at context.buffer o = type_tEXt)
    (hcount : u.text_count < 10) (hslots : u.text.length = 10) :
    ((0 : Byte) ∉ chunk_payload context.buffer o →
      ∃ u', upng_process_chunk u o c = .ok (.stop u') ∧
        (∀ fuel, upng_process_chunks_loop (fuel + 1) u o c = .ok u') ∧
        u'.error = .UPNG_EMALFORMED ∧ u'.error_line = 607 ∧ u'.text_count = u.text_count ∧
        ∀ i, upng_get_text u' i = upng_get_text u i) ∧
    ((0 : Byte) ∈ chunk_payload context.buffer o →
      ∃ u', upng_process_chunk u o c = .ok (.next u' (o + be32 context.buffer o + 12) c) ∧
        u'.text_count = u.text_count + 1 ∧ u'.error = u.error ∧
        upng_get_text u' u.text_count
          = some (spec_keyword (chunk_payload context.buffer o),
              spec_text (chunk_payload context.buffer o)) ∧
        ∀ i, i < u.text_count → upng_get_text u' i = upng_get_text u i) := by
  have hstep := upng_process_chunk_in_bounds u context o c hu hsize hlt hin
  rw [process_chunk_type_TEXT u context.buffer o _ _ c ht] at hstep
  have hread : source_read u.source (o + 8) (be32 context.buffer o)
      = .ok (chunk_payload context.buffer o) :=
    source_read_within u.source context (o + 8) (be32 context.buffer o) hu (by
      have := hin.2.2
      omega)
  have hlen : (chunk_payload context.buffer o).length = be32 context.buffer o := by
    unfold chunk_payload
    rw [List.length_take, List.length_drop]
    have := hin.2.2
    omega
  have ho : o < u.source.size := by
    have := hin.1
    omega
  constructor
  · intro hnul
    have hbr : process_TEXT u (o + 8) (be32 context.buffer o) c
        = .ok (.ret (SET_ERROR (text_buffer_set u (chunk_payload context.buffer o))
            .UPNG_EMALFORMED 607)) := by
      unfold process_TEXT
      simp only [hcount, not_true_eq_false, if_false, hread, Except.bind, hlen, ne_eq, hnul,
        not_false_eq_true, if_true]
    rw [hbr] at hstep
    have hstep' : upng_process_chunk u o c
        = .ok (.stop (SET_ERROR (text_buffer_set u (chunk_payload context.buffer o))
            .UPNG_EMALFORMED 607)) := hstep
    refine ⟨_, hstep', fun fuel => ?_, rfl, rfl, rfl, fun i => ?_⟩
    · rw [upng_process_chunks_loop]
      simp only [ho, if_true, hstep', Except.bind, Step.resume]
    · unfold upng_get_text
      show (if i < u.text_count then _ else none) = _
      by_cases hi : i < u.text_count
      · simp only [hi, if_true, SET_ERROR, text_buffer_set]
        rw [List.getElem?_set_ne (by omega)]
      · simp only [hi, if_false]
  · intro hnul
    have hbr : process_TEXT u (o + 8) (be32 context.buffer o) c
        = .ok (.next (text_entry_set u (chunk_payload context.buffer o)) c) := by
      unfold process_TEXT
      simp only [hcount, not_true_eq_false, if_false, hread, Except.bind, hlen, ne_eq, hnul]
    rw [hbr] at hstep
    have hstep' : upng_process_chunk u o c
        = .ok (.next (text_entry_set u (chunk_payload context.buffer o))
            (o + be32 context.buffer o + 12) c) := hstep
    have hcnt : (text_entry_set u (chunk_payload context.buffer o)).text_count
        = u.text_count + 1 := by
      show u32 (u.text_count + 1) = u.text_count + 1
      unfold u32
      omega
    refine ⟨_, hstep', hcnt, rfl, ?_, fun i hi => ?_⟩
    · rw [upng_get_text_entry (text_entry_set u (chunk_payload context.buffer o)) u.text_count
        (chunk_payload context.buffer o ++ [0]) 0
        ((chunk_payload context.buffer o).indexOf 0 + 1) (by rw [hcnt]; omega)
        (by
          show (u.text.set u.text_count _)[u.text_count]? = _
          rw [List.getElem?_set_self (by omega)]),
        c_string_keyword, c_string_text _ hnul]
    · unfold upng_get_text
      rw [hcnt]
      have hi' : i < u.text_count + 1 := by omega
      simp only [hi, hi', if_true]
      show (match (u.text.set u.text_count _)[i]? with
        | none => none
        | some entry => _) = _
      rw [List.getElem?_set_ne (by omega)]

set_option maxRecDepth 1000000 in
/-- Witness for C15: the tEXt chunk of `example_texts 1` (keyword `k`, text `v`) handled
by a fresh decoder, and a tEXt chunk without NUL. -/
theorem text_chunk_entry_witness :
    (∃ u', upng_process_chunk (upng_new_from_bytes (example_texts 1)) 33 FRAME_INDEX_NONE
        = .ok (.next u' 48 FRAME_INDEX_NONE) ∧
      u'.text_count = 1 ∧ u'.error = .UPNG_EOK ∧
      upng_get_text u' 0 = some ([107], [118])) ∧
    (∃ u', upng_process_chunk
        (upng_new_from_bytes (example_ihdr 1 1 8 6 ++ example_text_no_nul ++ example_iend))
        33 FRAME_INDEX_NONE = .ok (.stop u') ∧ u'.error = .UPNG_EMALFORMED) := by
  obtain ⟨u', h1, h2, h3, h4, _⟩ := (text_chunk_entry (upng_new_from_bytes (example_texts 1))
    { buffer := example_texts 1 } 33 FRAME_INDEX_NONE rfl rfl (by decide) (by decide)
    (by decide) (by decide) (by decide)).2 (by decide)
  obtain ⟨v', g1, _, g3, _⟩ := (text_chunk_entry
    (upng_new_from_bytes (example_ihdr 1 1 8 6 ++ example_text_no_nul ++ example_iend))
    { buffer := example_ihdr 1 1 8 6 ++ example_text_no_nul ++ example_iend }
    33 FRAME_INDEX_NONE rfl rfl (by decide) (by decide)
    (by decide) (by decide) (by decide)).1 (by decide)
  exact ⟨⟨u', h1, h2, h3, h4⟩, v', g1, g3⟩

set_option maxRecDepth 1000000 in
/-- Counterexample to C15 as stated: in `example_texts 11` the scanner reaches, after ten
iterations and with `text_count = 10`, an eleventh tEXt chunk that is in bounds and has a
NUL in its payload; the entry is not stored: the branch writes `text[10]`, outside the
array of ten slots. -/
theorem eleventh_text_chunk_counterexample :
    ∃ u, scan_steps 10 (header_fields (upng_new_from_bytes (example_texts 11))
          ((example_texts 11).take 29)) 33 FRAME_INDEX_NONE
        = .ok (.next u 183 FRAME_INDEX_NONE) ∧
      u.text_count = 10 ∧ chunk_in_bounds (example_texts 11) 183 ∧
      chunk_type_at (example_texts 11) 183 = type_tEXt ∧
      (0 : Byte) ∈ chunk_payload (example_texts 11) 183 ∧
      upng_process_chunk u 183 FRAME_INDEX_NONE = .error .out_of_bounds := by
  refine ⟨_, rfl, by decide, by decide, by decide, by decide, ?_⟩
  rfl

set_option maxRecDepth 1000000 in
/-- C16, the code at the failing input: the tEXt branch never compares `text_count` with
the ten slots of `text`. With ten tEXt chunks `upng_header` succeeds and `text_count` is
10; with eleven, the eleventh chunk is stored at `text[10]`, outside the array. -/
theorem eleventh_text_out_of_bounds (u : upng_t) (k d len c : Nat) :
    process_TEXT { u with text_count := 10 + k } d len c = .error .out_of_bounds ∧
    returned (upng_header (upng_new_from_bytes (example_texts 10))) = some .UPNG_EOK ∧
    (result_of (upng_header (upng_new_from_bytes (example_texts 10)))).text_count = 10 ∧
    upng_header (upng_new_from_bytes (example_texts 11)) = .error .out_of_bounds := by
  refine ⟨?_, by decide, by decide, ?_⟩
  · simp [process_TEXT]
  · rfl

/-! ## Decode sizes, filter types, sticky errors and the lifecycle state -/

set_option maxRecDepth 1000000 in
/-- C17, the code at the failing input: `example_wide` declares a greyscale image of
depth 8, width `2^29` and height 1, so the stride is `2^29` bytes; `upng_header` accepts
it, `upng_decode` multiplies `width * bpp` in 32 bits, asks the decompressor for 1 byte
instead of `(stride + 1) * height`, and after a successful decode `upng_get_size` is 0
instead of `stride * height`. -/
theorem decode_sizes_wrap (uz_inflate : Nat → List Byte → Nat → upng_error × Mem)
    (compressed : List Byte) :
    returned (upng_header (upng_new_from_bytes example_wide)) = some .UPNG_EOK ∧
    (result_of (upng_header (upng_new_from_bytes example_wide))).frames
      = some [{ single_frame 536870912 1 with data_chunk_offset := 33, compressed_size := 3 }] ∧
    upng_get_bpp (result_of (upng_header (upng_new_from_bytes example_wide))) = 8 ∧
    (spec_stride 536870912 8 + 1) * 1 = 536870913 ∧
    upng_decode_finish uz_inflate (result_of (upng_header (upng_new_from_bytes example_wide)))
        { single_frame 536870912 1 with data_chunk_offset := 33, compressed_size := 3 }
        compressed
      = upng_decode_finish (fun _ => uz_inflate 1)
          (result_of (upng_header (upng_new_from_bytes example_wide)))
          { single_frame 536870912 1 with data_chunk_offset := 33, compressed_size := 3 }
          compressed ∧
    returned (upng_decode (example_inflate []) (upng_new_from_bytes example_wide))
      = some .UPNG_EOK ∧
    (result_of (upng_decode (example_inflate []) (upng_new_from_bytes example_wide))).state
      = .UPNG_DECODED ∧
    upng_get_size (result_of (upng_decode (example_inflate [])
      (upng_new_from_bytes example_wide))) = 0 ∧
    spec_stride 536870912 8 * 1 = 536870912 := by
  refine ⟨by decide, by decide, by decide, by decide, ?_, by decide, by decide, by decide,
    by decide⟩
  rfl

theorem upng_header_sticky (upng : upng_t) (herr : upng.error ≠ .UPNG_EOK) :
    upng_header upng = .ok upng := by
  unfold upng_header
  rw [if_pos herr]

theorem upng_decode_sticky (uz_inflate : Nat → List Byte → Nat → upng_error × Mem)
    (upng : upng_t) (herr : upng.error ≠ .UPNG_EOK) :
    upng_decode uz_inflate upng = .ok upng := by
  unfold upng_decode upng_decode_collect
  rw [upng_header_sticky upng herr]
  simp only [Except.bind, herr, ne_eq, not_false_eq_true, if_true]

/-- The state after `upng_header`: as before, or `UPNG_HEADER` after a successful call on
a new decoder. -/
theorem upng_header_state (upng : upng_t) :
    okAll (fun r => (r.state = upng.state ∨
        (upng.state = .UPNG_NEW ∧ r.state = .UPNG_HEADER ∧ r.error = .UPNG_EOK)) ∧
      (r.error ≠ .UPNG_EOK → r.state = upng.state))
      (upng_header upng) := by
  unfold upng_header
  simp only [okAll_ite, okAll_pure, okAll_bind]
  refine ⟨fun _ => by simp, fun _ => ⟨fun _ => by simp, fun hnew => ⟨fun _ => by simp [SET_ERROR],
    fun _ => okAll_of_forall _ fun header => ?_⟩⟩⟩
  refine ⟨fun _ => by simp [SET_ERROR], fun _ => ⟨fun _ => by simp [SET_ERROR], fun _ =>
    ⟨fun _ => by simp [SET_ERROR], fun _ => ⟨fun _ => by simp [SET_ERROR, header_fields],
    fun _ => ⟨fun _ => by simp [SET_ERROR, header_fields], fun _ =>
    ⟨fun _ => by simp [SET_ERROR, header_fields], fun _ =>
    ⟨fun _ => by simp [SET_ERROR, header_fields], fun _ => ?_⟩⟩⟩⟩⟩⟩⟩
  refine okAll_mono ?_ (upng_process_chunks_loop_same _ _ _ _)
  intro u1 hsame
  obtain ⟨_, _, _, _, _, _, hst, _, _⟩ := hsame
  have hst' : u1.state = upng.state := by rw [hst]; rfl
  simp only [ne_eq, Decidable.not_not] at hnew
  unfold header_finish
  by_cases he : u1.error = .UPNG_EOK
  · simp [he, hnew]
  · simp [he, hst']

theorem unfilter_scanline_bad (upng : upng_t) (mem : Mem) (recon scanline : Nat)
    (precon : Option Nat) (bytewidth t length : Nat) (ht : 4 < t) :
    unfilter_scanline upng mem recon scanline precon bytewidth t length
      = (SET_ERROR upng .UPNG_EMALFORMED 257, mem) := by
  obtain ⟨n, rfl⟩ : ∃ n, t = n + 5 := ⟨t - 5, by omega⟩
  rfl

theorem unfilter_scanline_sets (upng : upng_t) (mem : Mem) (recon scanline : Nat)
    (precon : Option Nat) (bytewidth t length : Nat) :
    sets_malformed upng
      (unfilter_scanline upng mem recon scanline precon bytewidth t length).1 := by
  by_cases ht : t ≤ 4
  · left
    exact unfilter_scanline_upng upng mem recon scanline precon bytewidth t length ht
  · right
    rw [unfilter_scanline_bad upng mem recon scanline precon bytewidth t length (by omega)]
    exact ⟨257, rfl⟩

theorem sets_malformed_ok {u r : upng_t} (h : sets_malformed u r)
    (hok : r.error = .UPNG_EOK) : r = u := by
  rcases h with h | ⟨line, h⟩
  · exact h
  · rw [h] at hok
    simp [SET_ERROR] at hok

theorem unfilter_rows_sets (out inp bytewidth linebytes : Nat) (count : Nat) :
    ∀ (y : Nat) (prevline : Option Nat) (upng : upng_t) (mem : Mem),
      sets_malformed upng
        (unfilter_rows out inp bytewidth linebytes count y prevline upng mem).1 := by
  induction count with
  | zero =>
    intro y prevline upng mem
    exact Or.inl rfl
  | succ n ih =>
    intro y prevline upng mem
    rw [unfilter_rows]
    split_ifs with he
    · exact unfilter_scanline_sets _ _ _ _ _ _ _ _
    · have hs := unfilter_scanline_sets upng mem (out + u64 (linebytes * y))
        (inp + u64 ((1 + linebytes) * y) + 1) prevline bytewidth
        (mem (inp + u64 ((1 + linebytes) * y))).val linebytes
      have e := sets_malformed_ok hs (by simpa using he)
      have := ih (y + 1) (some (out + u64 (linebytes * y)))
        (unfilter_scanline upng mem (out + u64 (linebytes * y))
          (inp + u64 ((1 + linebytes) * y) + 1) prevline bytewidth
          (mem (inp + u64 ((1 + linebytes) * y))).val linebytes).1
        (unfilter_scanline upng mem (out + u64 (linebytes * y))
          (inp + u64 ((1 + linebytes) * y) + 1) prevline bytewidth
          (mem (inp + u64 ((1 + linebytes) * y))).val linebytes).2
      rw [e] at this
      rw [e]
      exact this

theorem post_process_scanlines_sets (upng : upng_t) (mem : Mem) (out inp : Nat)
    (frame : upng_frame) :
    sets_malformed upng (post_process_scanlines upng mem out inp frame).1 := by
  unfold post_process_scanlines
  simp only
  split_ifs with h1 h2 h3
  · exact Or.inr ⟨332, rfl⟩
  · exact unfilter_rows_sets _ _ _ _ _ _ _ _ _
  · exact unfilter_rows_sets _ _ _ _ _ _ _ _ _
  · exact unfilter_rows_sets _ _ _ _ _ _ _ _ _

/-- The second part of `upng_decode` in terms of the size it hands to the decompressor. -/
theorem upng_decode_finish_eq (uz_inflate : Nat → List Byte → Nat → upng_error × Mem)
    (upng : upng_t) (frame : upng_frame) (compressed : List Byte) :
    upng_decode_finish uz_inflate upng frame compressed
      = if ¬ ((uz_inflate (decode_inflated_size upng frame) compressed
            frame.compressed_size).1 = .UPNG_EOK) then SET_ERROR upng upng.error 760
        else if (post_process_scanlines upng (uz_inflate (decode_inflated_size upng frame)
            compressed frame.compressed_size).2 0 0 frame).1.error ≠ .UPNG_EOK then
          upng_free_source { (post_process_scanlines upng
            (uz_inflate (decode_inflated_size upng frame) compressed
              frame.compressed_size).2 0 0 frame).1 with buffer := none, size := 0 }
        else
          upng_free_source { (post_process_scanlines upng
            (uz_inflate (decode_inflated_size upng frame) compressed
              frame.compressed_size).2 0 0 frame).1 with
            buffer := some (post_process_scanlines upng
              (uz_inflate (decode_inflated_size upng frame) compressed
                frame.compressed_size).2 0 0 frame).2,
            size := u32 (intToU32 (decode_width_aligned_bytes upng frame) * frame.height),
            state := .UPNG_DECODED } := by
  unfold upng_decode_finish decode_inflated_size decode_width_aligned_bytes
  simp only
  split_ifs <;> rfl

/-- The state after the second part of `upng_decode`: as before, or `UPNG_DECODED` without
an error. -/
theorem upng_decode_finish_state (uz_inflate : Nat → List Byte → Nat → upng_error × Mem)
    (upng : upng_t) (frame : upng_frame) (compressed : List Byte) :
    ((upng_decode_finish uz_inflate upng frame compressed).state = upng.state ∨
      ((upng_decode_finish uz_inflate upng frame compressed).state = .UPNG_DECODED ∧
        (upng_decode_finish uz_inflate upng frame compressed).error = .UPNG_EOK)) ∧
    ((upng_decode_finish uz_inflate upng frame compressed).error ≠ .UPNG_EOK →
      (upng_decode_finish uz_inflate upng frame compressed).state = upng.state) := by
  rw [upng_decode_finish_eq]
  have hs := post_process_scanlines_sets upng (uz_inflate (decode_inflated_size upng frame)
    compressed frame.compressed_size).2 0 0 frame
  by_cases h1 : (uz_inflate (decode_inflated_size upng frame) compressed
      frame.compressed_size).1 = .UPNG_EOK
  · by_cases h2 : (post_process_scanlines upng (uz_inflate (decode_inflated_size upng frame)
        compressed frame.compressed_size).2 0 0 frame).1.error = .UPNG_EOK
    · simp only [h1, h2, not_true_eq_false, if_false, ne_eq]
      simp [upng_free_source, h2]
    · simp only [h1, h2, not_true_eq_false, if_false, ne_eq, not_false_eq_true, if_true]
      rcases hs with hs | ⟨line, hs⟩ <;> rw [hs] <;> simp [upng_free_source, SET_ERROR]
  · simp only [h1, not_false_eq_true, if_true]
    simp [SET_ERROR]

theorem decode_IDAT_okAll (p : Collected → Prop) (ud : upng_t) (csize d len : Nat)
    (compressed : List Byte) (k : List Byte → Except Fault Collected)
    (hk : ∀ c, okAll p (k c)) (hf : ∀ code line, p (.failed (SET_ERROR ud code line))) :
    okAll p (decode_IDAT ud csize d len compressed k) := by
  simp only [decode_IDAT, okAll_bind, okAll_ite, okAll_fault, okAll_pure]
  exact okAll_of_forall _ fun bytes => ⟨fun _ => trivial, fun _ => ⟨fun _ => hf _ _,
    fun _ => hk _⟩⟩

theorem decode_FDAT_okAll (p : Collected → Prop) (ud : upng_t) (csize d len : Nat)
    (compressed : List Byte) (seq : Nat) (k : List Byte → Nat → Except Fault Collected)
    (hk : ∀ c s, okAll p (k c s)) (hf : ∀ code line, p (.failed (SET_ERROR ud code line))) :
    okAll p (decode_FDAT ud csize d len compressed seq k) := by
  simp only [decode_FDAT, okAll_bind, okAll_ite, okAll_fault, okAll_pure]
  exact okAll_of_forall _ fun bytes => ⟨fun _ => hf _ _, fun _ => ⟨fun _ => hf _ _,
    fun _ => okAll_of_forall _ fun rest => ⟨fun _ => trivial, fun _ => ⟨fun _ => hf _ _,
    fun _ => hk _ _⟩⟩⟩⟩

/-- Whatever the data-collecting loop of `upng_decode` yields is a list of bytes, or the
decoder with an error set by a `CHECK_GOTO`. -/
theorem upng_decode_chunks_okAll (p : Collected → Prop) (ud : upng_t) (csize : Nat)
    (hd : ∀ c, p (.done c)) (hf : ∀ code line, p (.failed (SET_ERROR ud code line)))
    (fuel : Nat) :
    ∀ (o : Nat) (compressed : List Byte) (seq : Nat),
      okAll p (upng_decode_chunks ud csize fuel o compressed seq) := by
  induction fuel with
  | zero =>
    intro o compressed seq
    simp only [upng_decode_chunks, okAll_ite, okAll_fault, okAll_pure]
    exact ⟨fun _ => trivial, fun _ => hd _⟩
  | succ n ih =>
    intro o compressed seq
    simp only [upng_decode_chunks, okAll_ite, okAll_bind, okAll_pure]
    refine ⟨fun _ => okAll_of_forall _ fun hdr => ⟨fun _ => hf _ _, fun _ =>
      ⟨fun _ => decode_IDAT_okAll p ud _ _ _ _ _ (fun c => ih _ c _) hf, fun _ =>
      ⟨fun _ => decode_FDAT_okAll p ud _ _ _ _ _ _ (fun c s => ih _ c s) hf, fun _ =>
      ⟨fun _ => hd _, fun _ => ih _ _ _⟩⟩⟩⟩, fun _ => hd _⟩

/-- The state after `upng_decode`. -/
theorem upng_decode_state (uz_inflate : Nat → List Byte → Nat → upng_error × Mem)
    (upng : upng_t) :
    okAll (fun r => lifecycle_move upng.state r.state ∧
      (r.error ≠ .UPNG_EOK →
        r.state = upng.state ∨ (upng.state = .UPNG_NEW ∧ r.state = .UPNG_HEADER)))
      (upng_decode uz_inflate upng) := by
  unfold upng_decode upng_decode_collect
  simp only [okAll_bind, okAll_ite, okAll_pure]
  refine okAll_mono ?_ (upng_header_state upng)
  intro u1 ⟨hs1, hs2⟩
  have hmove : lifecycle_move upng.state u1.state := by
    unfold lifecycle_move
    rcases hs1 with h | ⟨h1, h2, _⟩
    · exact Or.inl h
    · exact Or.inr (Or.inl ⟨h1, h2⟩)
  have hfail : u1.state = upng.state ∨ (upng.state = .UPNG_NEW ∧ u1.state = .UPNG_HEADER) := by
    rcases hs1 with h | ⟨h1, h2, _⟩
    · exact Or.inl h
    · exact Or.inr ⟨h1, h2⟩
  refine ⟨fun _ => ⟨hmove, fun _ => hfail⟩, fun _ => ⟨fun _ => ⟨hmove, fun _ => hfail⟩,
    fun hst => okAll_of_forall _ fun frame => ?_⟩⟩
  refine okAll_mono ?_ (upng_decode_chunks_okAll
    (fun c => ∀ u2, c = .failed u2 → u2.state = u1.state) u1 frame.compressed_size
    (fun c u2 h => by cases h) (fun code line u2 h => by cases h; rfl) _ _ _ _)
  intro c hc
  cases c with
  | failed u2 =>
    have e := hc u2 rfl
    simp only [okAll_pure]
    rw [e]
    exact ⟨hmove, fun _ => hfail⟩
  | done compressed =>
    simp only [okAll_pure]
    obtain ⟨f1, f2⟩ := upng_decode_finish_state uz_inflate u1 frame compressed
    constructor
    · rcases f1 with f1 | ⟨f1, _⟩
      · rw [f1]; exact hmove
      · rw [f1]
        unfold lifecycle_move
        rcases hfail with h | ⟨h1, h2⟩
        · rw [h] at hst
          cases hu : upng.state <;> simp_all
        · right; right; right
          exact ⟨h1, rfl⟩
    · intro hne
      rw [f2 hne]
      exact hfail

/-- What `upng_decode` has established when its data-collecting loop is reached. -/
theorem upng_decode_collect_some (upng u1 : upng_t) (frame : upng_frame) (c : Collected)
    (h : upng_decode_collect upng = .ok (u1, some (frame, c))) :
    upng_header upng = .ok u1 ∧ u1.error = .UPNG_EOK ∧
    (u1.state = .UPNG_HEADER ∨ u1.state = .UPNG_DECODED) ∧ decode_frame u1 = .ok frame := by
  unfold upng_decode_collect at h
  cases hh : upng_header upng with
  | error f => rw [hh] at h; cases h
  | ok u =>
    rw [hh] at h
    simp only [Except.bind] at h
    by_cases he : u.error = .UPNG_EOK
    · by_cases hs : u.state ≠ .UPNG_HEADER ∧ u.state ≠ .UPNG_DECODED
      · simp [he, hs] at h
      · simp only [he, ne_eq, not_true_eq_false, if_false, hs] at h
        cases hf : decode_frame u with
        | error f => rw [hf] at h; cases h
        | ok fr =>
          rw [hf] at h
          simp only at h
          cases hc : upng_decode_chunks u fr.compressed_size u.source.size
              fr.data_chunk_offset [] 0 with
          | error f => rw [hc] at h; cases h
          | ok c1 =>
            rw [hc] at h
            simp only [Except.ok.injEq, Prod.mk.injEq, Option.some.injEq] at h
            obtain ⟨h1, h2, h3⟩ := h
            subst h1 h2
            refine ⟨rfl, he, ?_, hf⟩
            by_contra hn
            exact hs ⟨fun a => hn (Or.inl a), fun a => hn (Or.inr a)⟩
    · simp [he] at h

theorem upng_decode_of_collect (uz_inflate : Nat → List Byte → Nat → upng_error × Mem)
    (upng u1 : upng_t) (frame : upng_frame) (compressed : List Byte)
    (h : upng_decode_collect upng = .ok (u1, some (frame, .done compressed))) :
    upng_decode uz_inflate upng = .ok (upng_decode_finish uz_inflate u1 frame compressed) := by
  unfold upng_decode
  rw [h]
  rfl

/-- The row loop of `unfilter`, run in place on a stream whose first row with a filter
type outside 0..4 is `y0`, stops there with `UPNG_EMALFORMED`. -/
theorem unfilter_rows_bad (inp bw L h y0 : Nat) (stream : Mem)
    (hbwL : bw ≤ L) (hsz : (L + 1) * h < 18446744073709551616) (hy0 : y0 < h)
    (hgood : ∀ y, y < y0 → (stream ((L + 1) * y)).val ≤ 4)
    (hbad : 4 < (stream ((L + 1) * y0)).val) :
    ∀ (count y : Nat) (prevline : Option Nat) (upng : upng_t) (mem : Mem),
      y + count = h → y ≤ y0 → upng.error = .UPNG_EOK →
      (∀ a, (L + 1) * y ≤ a → a < (L + 1) * h → mem (inp + a) = stream a) →
      (unfilter_rows inp inp bw L count y prevline upng mem).1
        = SET_ERROR upng .UPNG_EMALFORMED 257 := by
  intro count
  induction count with
  | zero =>
    intro y prevline upng mem hy hle _ _
    omega
  | succ n ih =>
    intro y prevline upng mem hy hle herr hmem
    have hyh : y < h := by omega
    have e2 : (L + 1) * (y + 1) = L * y + y + L + 1 := by ring
    have e1 : (L + 1) * y = L * y + y := by ring
    have m1 : (L + 1) * (y + 1) ≤ (L + 1) * h := Nat.mul_le_mul_left _ (by omega)
    have hu1 : u64 (L * y) = L * y := by unfold u64; omega
    have hu2 : u64 ((1 + L) * y) = (L + 1) * y := by
      rw [Nat.add_comm 1 L]; unfold u64; omega
    have hft : mem (inp + (L + 1) * y) = stream ((L + 1) * y) :=
      hmem _ (Nat.le_refl _) (by omega)
    rw [unfilter_rows]
    simp only [hu1, hu2, hft]
    by_cases hy0' : y = y0
    · subst hy0'
      rw [unfilter_scanline_bad _ _ _ _ _ _ _ _ hbad]
      simp [SET_ERROR]
    · have ht := hgood y (by omega)
      rw [unfilter_scanline_upng _ _ _ _ _ _ _ _ ht]
      simp only [herr, ne_eq, not_true_eq_false, if_false]
      apply ih (y + 1) _ upng _ (by omega) (by omega) herr
      intro a ha1 ha2
      rw [unfilter_scanline_frame _ _ _ _ _ _ _ _ ht hbwL _ (by omega)]
      exact hmem a (by omega) ha2

/-- Post-processing of a stream with a row whose filter type is outside 0..4. -/
theorem post_process_scanlines_bad (upng : upng_t) (stream : Mem) (frame : upng_frame)
    (y : Nat) (herr : upng.error = .UPNG_EOK) (hwidth : 1 ≤ frame.width)
    (hrow : frame.width * upng_get_bpp upng + 7 < 4294967296)
    (hheight : frame.height < 4294967296)
    (hy : y < frame.height)
    (hbad : 4 < (stream ((spec_stride frame.width (upng_get_bpp upng) + 1) * y)).val) :
    ∃ line, (post_process_scanlines upng stream 0 0 frame).1
      = SET_ERROR upng .UPNG_EMALFORMED line := by
  by_cases hbpp : upng_get_bpp upng = 0
  · refine ⟨332, ?_⟩
    unfold post_process_scanlines
    simp only [hbpp, if_true]
  · refine ⟨257, ?_⟩
    have hex : ∃ y, y < frame.height ∧
        4 < (stream ((spec_stride frame.width (upng_get_bpp upng) + 1) * y)).val := ⟨y, hy, hbad⟩
    have hL : u32 (u32 (frame.width * upng_get_bpp upng) + 7) / 8
        = spec_stride frame.width (upng_get_bpp upng) := by
      unfold u32 spec_stride
      rw [Nat.mod_eq_of_lt (by omega), Nat.mod_eq_of_lt (by omega)]
    have hstride : spec_stride frame.width (upng_get_bpp upng) < 536870912 := by
      unfold spec_stride; omega
    have hbw : u32 (upng_get_bpp upng + 7) / 8 ≤ spec_stride frame.width (upng_get_bpp upng) := by
      unfold spec_stride
      apply Nat.div_le_div_right
      have h1 : u32 (upng_get_bpp upng + 7) ≤ upng_get_bpp upng + 7 := Nat.mod_le _ _
      have h2 : upng_get_bpp upng ≤ frame.width * upng_get_bpp upng :=
        Nat.le_mul_of_pos_left _ hwidth
      omega
    have hsz : (spec_stride frame.width (upng_get_bpp upng) + 1) * frame.height
        < 18446744073709551616 := by
      have : (spec_stride frame.width (upng_get_bpp upng) + 1) * frame.height
          ≤ 536870912 * 4294967296 := Nat.mul_le_mul (by omega) (by omega)
      omega
    have hfind := Nat.find_spec hex
    have hmin := fun k (hk : k < Nat.find hex) => Nat.find_min hex hk
    have hrows := unfilter_rows_bad 0 (u32 (upng_get_bpp upng + 7) / 8)
      (spec_stride frame.width (upng_get_bpp upng)) frame.height (Nat.find hex) stream
      hbw hsz hfind.1
      (fun k hk => by
        have := hmin k hk
        have hk' : k < frame.height := by omega
        by_contra hc
        exact this ⟨hk', by omega⟩)
      hfind.2 frame.height 0 none upng stream (by omega) (Nat.zero_le _) herr
      (fun a _ _ => by rw [Nat.zero_add])
    unfold post_process_scanlines
    simp only [hbpp, if_false]
    have hu : (unfilter upng stream 0 0 frame.width frame.height (upng_get_bpp upng)).1
        = SET_ERROR upng .UPNG_EMALFORMED 257 := by
      unfold unfilter
      simp only [hL]
      exact hrows
    have hue : (unfilter upng stream 0 0 frame.width frame.height (upng_get_bpp upng)).1.error
        ≠ .UPNG_EOK := by
      rw [hu]; simp [SET_ERROR]
    split_ifs
    · exact hu
    · exact hu

/-- Without a wrap in 32 bits, `upng_decode` asks the decompressor for
`(stride + 1) * height` bytes. -/
theorem decode_inflated_size_exact (upng : upng_t) (frame : upng_frame)
    (hrow : frame.width * upng_get_bpp upng + 7 < 4294967296)
    (hsize : (spec_stride frame.width (upng_get_bpp upng) + 1) * frame.height < 4294967296) :
    decode_inflated_size upng frame
      = (spec_stride frame.width (upng_get_bpp upng) + 1) * frame.height := by
  have hL : u32 (u32 (frame.width * upng_get_bpp upng) + 7) / 8
      = spec_stride frame.width (upng_get_bpp upng) := by
    unfold u32 spec_stride
    rw [Nat.mod_eq_of_lt (by omega), Nat.mod_eq_of_lt (by omega)]
  have hstride : spec_stride frame.width (upng_get_bpp upng) < 536870912 := by
    unfold spec_stride; omega
  have e : (spec_stride frame.width (upng_get_bpp upng) + 1) * frame.height
      = spec_stride frame.width (upng_get_bpp upng) * frame.height + frame.height := by ring
  unfold decode_inflated_size decode_width_aligned_bytes
  rw [hL, intToU32_toInt32 _ (by omega), e]
  rw [e] at hsize
  unfold u32
  rw [Nat.mod_eq_of_lt (by omega), Nat.mod_eq_of_lt (by omega)]

/-- C18, as amended: when `upng_decode` reaches decompression for a frame of width at
least 1 whose row size `width * bpp + 7` and stream size `(stride + 1) * height` stay
below `2^32`, the decompressor succeeds, and some row of the inflated stream has a leading
filter-type byte outside 0..4, then `upng_decode` returns `UPNG_EMALFORMED`, the decoder
exposes no pixel buffer (null, size 0), and the state is the one after `upng_header`: it
is `UPNG_DECODED` only if it was so before the call. -/
theorem bad_filter_type_malformed (uz_inflate : Nat → List Byte → Nat → upng_error × Mem)
    (upng u1 : upng_t) (frame : upng_frame) (compressed : List Byte) (stream : Mem) (y : Nat)
    (hcollect : upng_decode_collect upng = .ok (u1, some (frame, .done compressed)))
    (hwidth : 1 ≤ frame.width)
    (hrow : frame.width * upng_get_bpp u1 + 7 < 4294967296)
    (hsize : (spec_stride frame.width (upng_get_bpp u1) + 1) * frame.height < 4294967296)
    (hinflate : uz_inflate ((spec_stride frame.width (upng_get_bpp u1) + 1) * frame.height)
      compressed frame.compressed_size = (.UPNG_EOK, stream))
    (hy : y < frame.height)
    (hbad : 4 < (stream ((spec_stride frame.width (upng_get_bpp u1) + 1) * y)).val) :
    returned (upng_decode uz_inflate upng) = some .UPNG_EMALFORMED ∧
    upng_get_error (result_of (upng_decode uz_inflate upng)) = .UPNG_EMALFORMED ∧
    upng_get_buffer (result_of (upng_decode uz_inflate upng)) = none ∧
    (result_of (upng_decode uz_inflate upng)).size = 0 ∧
    upng_get_size (result_of (upng_decode uz_inflate upng)) = 0 ∧
    (result_of (upng_decode uz_inflate upng)).state = u1.state ∧
    ((result_of (upng_decode uz_inflate upng)).state = .UPNG_DECODED →
      upng.state = .UPNG_DECODED) := by
  obtain ⟨hhdr, herr, _, _⟩ := upng_decode_collect_some upng u1 frame _ hcollect
  have hheight : frame.height < 4294967296 := by
    have : 1 * frame.height
        ≤ (spec_stride frame.width (upng_get_bpp u1) + 1) * frame.height :=
      Nat.mul_le_mul_right _ (by omega)
    omega
  obtain ⟨line, hpost⟩ := post_process_scanlines_bad u1 stream frame y herr hwidth hrow
    hheight hy hbad
  have hfin : upng_decode_finish uz_inflate u1 frame compressed
      = upng_free_source { SET_ERROR u1 .UPNG_EMALFORMED line with buffer := none, size := 0 } := by
    rw [upng_decode_finish_eq, decode_inflated_size_exact u1 frame hrow hsize, hinflate]
    simp only [not_true_eq_false, if_false, hpost]
    simp [SET_ERROR]
  rw [upng_decode_of_collect uz_inflate upng u1 frame compressed hcollect, hfin]
  refine ⟨rfl, rfl, rfl, rfl, rfl, rfl, ?_⟩
  intro hdec
  have hdec' : u1.state = .UPNG_DECODED := hdec
  obtain ⟨hs, _⟩ := okAll_ok (upng_header_state upng) hhdr
  rcases hs with hs | ⟨_, hs, _⟩
  · rw [← hs]; exact hdec'
  · rw [hs] at hdec'; cases hdec'

set_option maxRecDepth 1000000 in
/-- Witness for C18: `example_png` (1 by 1 RGBA pixels, one row of stride 4) with a
decompressor that delivers a stream whose only row has filter type 9. -/
theorem bad_filter_type_malformed_witness :
    returned (upng_decode (example_inflate [9, 1, 2, 3, 4]) (upng_new_from_bytes example_png))
      = some .UPNG_EMALFORMED ∧
    upng_get_error (result_of (upng_decode (example_inflate [9, 1, 2, 3, 4])
      (upng_new_from_bytes example_png))) = .UPNG_EMALFORMED ∧
    upng_get_buffer (result_of (upng_decode (example_inflate [9, 1, 2, 3, 4])
      (upng_new_from_bytes example_png))) = none ∧
    (result_of (upng_decode (example_inflate [9, 1, 2, 3, 4])
      (upng_new_from_bytes example_png))).size = 0 ∧
    upng_get_size (result_of (upng_decode (example_inflate [9, 1, 2, 3, 4])
      (upng_new_from_bytes example_png))) = 0 ∧
    (result_of (upng_decode (example_inflate [9, 1, 2, 3, 4])
      (upng_new_from_bytes example_png))).state
      = (result_of (upng_header (upng_new_from_bytes example_png))).state ∧
    ((result_of (upng_decode (example_inflate [9, 1, 2, 3, 4])
      (upng_new_from_bytes example_png))).state = .UPNG_DECODED →
      (upng_new_from_bytes example_png).state = .UPNG_DECODED) :=
  bad_filter_type_malformed (example_inflate [9, 1, 2, 3, 4]) (upng_new_from_bytes example_png)
    (result_of (upng_header (upng_new_from_bytes example_png)))
    { single_frame 1 1 with data_chunk_offset := 33, compressed_size := 5 }
    [1, 2, 3, 7, 8] (fun a => ([9, 1, 2, 3, 4] : List Byte).getD a 0) 0
    (by rfl) (by decide) (by decide) (by decide) (by rfl) (by decide) (by decide)

set_option maxRecDepth 1000000 in
/-- Counterexample to C18 as stated: `example_zero_width` declares width 0 and height 5,
so a row is its filter-type byte alone and the stream has 5 bytes. In the stream
1, 7, 0, 0, 0 row 1 has filter type 7, yet `upng_decode` returns `UPNG_EOK` and the state
becomes `UPNG_DECODED`: row 0 (type 1) copies `bytewidth = 4` bytes although the row is
empty, which overwrites the filter-type byte of row 1 before it is read. -/
theorem bad_filter_type_counterexample :
    returned (upng_header (upng_new_from_bytes example_zero_width)) = some .UPNG_EOK ∧
    decode_inflated_size (result_of (upng_header (upng_new_from_bytes example_zero_width)))
      { single_frame 0 5 with data_chunk_offset := 33, compressed_size := 3 } = 5 ∧
    ((example_inflate [1, 7, 0, 0, 0] 5 [1, 2, 3] 3).2 ((spec_stride 0 32 + 1) * 1)).val = 7 ∧
    returned (upng_decode (example_inflate [1, 7, 0, 0, 0])
      (upng_new_from_bytes example_zero_width)) = some .UPNG_EOK ∧
    (result_of (upng_decode (example_inflate [1, 7, 0, 0, 0])
      (upng_new_from_bytes example_zero_width))).state = .UPNG_DECODED := by
  decide

/-- C19: errors are sticky. On a decoder whose error field is not OK, `upng_header` and
`upng_decode` return that error and leave every field of the decoder as it is; this holds
whatever the source is, also for one without a read function, so no read is made. -/
theorem errors_are_sticky (upng : upng_t)
    (uz_inflate : Nat → List Byte → Nat → upng_error × Mem)
    (herr : upng.error ≠ .UPNG_EOK) :
    upng_header upng = .ok upng ∧ upng_decode uz_inflate upng = .ok upng ∧
    returned (upng_header upng) = some upng.error ∧
    returned (upng_decode uz_inflate upng) = some upng.error ∧
    upng_header { upng with source := { user := none, size := upng.source.size } }
      = .ok { upng with source := { user := none, size := upng.source.size } } ∧
    upng_decode uz_inflate { upng with source := { user := none, size := upng.source.size } }
      = .ok { upng with source := { user := none, size := upng.source.size } } := by
  have h1 : ∀ u : upng_t, u.error ≠ .UPNG_EOK → upng_header u = .ok u := by
    intro u hu
    unfold upng_header
    rw [if_pos hu]
  have h2 : ∀ u : upng_t, u.error ≠ .UPNG_EOK → upng_decode uz_inflate u = .ok u := by
    intro u hu
    unfold upng_decode upng_decode_collect
    rw [h1 u hu]
    simp only [Except.bind, hu, ne_eq, not_false_eq_true, if_true]
  refine ⟨h1 upng herr, h2 upng herr, ?_, ?_, h1 _ herr, h2 _ herr⟩
  · rw [h1 upng herr]; rfl
  · rw [h2 upng herr]; rfl

/-- Witness for C19: a decoder for `example_png` on which `UPNG_EREAD` has been set. -/
theorem errors_are_sticky_witness :
    (SET_ERROR (upng_new_from_bytes example_png) .UPNG_EREAD 650).error ≠ .UPNG_EOK ∧
    upng_header (SET_ERROR (upng_new_from_bytes example_png) .UPNG_EREAD 650)
      = .ok (SET_ERROR (upng_new_from_bytes example_png) .UPNG_EREAD 650) ∧
    upng_decode (example_inflate [])
        (SET_ERROR (upng_new_from_bytes example_png) .UPNG_EREAD 650)
      = .ok (SET_ERROR (upng_new_from_bytes example_png) .UPNG_EREAD 650) :=
  ⟨by decide,
   (errors_are_sticky (SET_ERROR (upng_new_from_bytes example_png) .UPNG_EREAD 650)
      (example_inflate []) (by decide)).1,
   (errors_are_sticky (SET_ERROR (upng_new_from_bytes example_png) .UPNG_EREAD 650)
      (example_inflate []) (by decide)).2.1⟩

/-- C20, as amended: a call of `upng_header` or `upng_decode` leaves the lifecycle state
where it was or advances it along NEW, HEADER, DECODED; the state `UPNG_ERROR` is never
assigned. After a failing call the state is the one before the call (or `UPNG_HEADER` when
`upng_decode` fails after it has parsed the header of a new decoder), the failure is held
in the error field, and every later call of `upng_header` or `upng_decode` returns with
the decoder unchanged. -/
theorem lifecycle_moves (uz_inflate : Nat → List Byte → Nat → upng_error × Mem)
    (upng r : upng_t) :
    (upng_header upng = .ok r →
      lifecycle_move upng.state r.state ∧
      (r.error ≠ .UPNG_EOK → r.state = upng.state)) ∧
    (upng_decode uz_inflate upng = .ok r →
      lifecycle_move upng.state r.state ∧
      (r.error ≠ .UPNG_EOK →
        r.state = upng.state ∨ (upng.state = .UPNG_NEW ∧ r.state = .UPNG_HEADER))) ∧
    (upng_header upng = .ok r ∨ upng_decode uz_inflate upng = .ok r →
      upng.state ≠ .UPNG_ERROR → r.state ≠ .UPNG_ERROR) ∧
    (r.error ≠ .UPNG_EOK → upng_header r = .ok r ∧ upng_decode uz_inflate r = .ok r) := by
  have h1 : upng_header upng = .ok r →
      lifecycle_move upng.state r.state ∧ (r.error ≠ .UPNG_EOK → r.state = upng.state) := by
    intro h
    obtain ⟨hs, hf⟩ := okAll_ok (upng_header_state upng) h
    refine ⟨?_, hf⟩
    unfold lifecycle_move
    rcases hs with hs | ⟨a, b, _⟩
    · exact Or.inl hs
    · exact Or.inr (Or.inl ⟨a, b⟩)
  have h2 : upng_decode uz_inflate upng = .ok r →
      lifecycle_move upng.state r.state ∧ (r.error ≠ .UPNG_EOK →
        r.state = upng.state ∨ (upng.state = .UPNG_NEW ∧ r.state = .UPNG_HEADER)) := by
    intro h
    have hd := okAll_ok (upng_decode_state uz_inflate upng) h
    exact hd
  have hmove : lifecycle_move upng.state r.state → upng.state ≠ .UPNG_ERROR →
      r.state ≠ .UPNG_ERROR := by
    intro hm hne he
    unfold lifecycle_move at hm
    rw [he] at hm
    rcases hm with hm | ⟨_, hm⟩ | ⟨_, hm⟩ | ⟨_, hm⟩
    · exact hne hm.symm
    · cases hm
    · cases hm
    · cases hm
  refine ⟨h1, h2, ?_, fun he => ⟨upng_header_sticky r he, upng_decode_sticky uz_inflate r he⟩⟩
  intro h
  rcases h with h | h
  · exact hmove (h1 h).1
  · exact hmove (h2 h).1

set_option maxRecDepth 1000000 in
/-- Witness for C20: a successful `upng_decode` of `example_png` moves the state from NEW
to DECODED, and `upng_header` on `example_truncated` fails and leaves the state NEW. -/
theorem lifecycle_moves_witness :
    (lifecycle_move (upng_new_from_bytes example_png).state
        (result_of (upng_decode (example_inflate [0, 1, 2, 3, 4])
          (upng_new_from_bytes example_png))).state ∧
      (result_of (upng_decode (example_inflate [0, 1, 2, 3, 4])
        (upng_new_from_bytes example_png))).state = .UPNG_DECODED) ∧
    ((result_of (upng_header (upng_new_from_bytes example_truncated))).error ≠ .UPNG_EOK ∧
      (result_of (upng_header (upng_new_from_bytes example_truncated))).state
        = (upng_new_from_bytes example_truncated).state) :=
  ⟨⟨((lifecycle_moves (example_inflate [0, 1, 2, 3, 4]) (upng_new_from_bytes example_png)
      (result_of (upng_decode (example_inflate [0, 1, 2, 3, 4])
        (upng_new_from_bytes example_png)))).2.1 (by rfl)).1, by decide⟩,
   by decide,
   ((lifecycle_moves (example_inflate []) (upng_new_from_bytes example_truncated)
      (result_of (upng_header (upng_new_from_bytes example_truncated)))).1 (by rfl)).2
      (by decide)⟩

set_option maxRecDepth 1000000 in
/-- Counterexample to C20 as stated: `upng_header` fails on an empty source with
`UPNG_ENOTPNG` and the state stays `UPNG_NEW`; `upng_decode` of `example_png` fails on a
stream with filter type 9 with `UPNG_EMALFORMED` and the state is `UPNG_HEADER`. In
neither case is it `UPNG_ERROR`. -/
theorem failure_state_counterexample :
    (returned (upng_header (upng_new_from_bytes [])) = some .UPNG_ENOTPNG ∧
      (result_of (upng_header (upng_new_from_bytes []))).state = .UPNG_NEW) ∧
    (returned (upng_decode (example_inflate [9, 1, 2, 3, 4])
        (upng_new_from_bytes example_png)) = some .UPNG_EMALFORMED ∧
      (result_of (upng_decode (example_inflate [9, 1, 2, 3, 4])
        (upng_new_from_bytes example_png))).state = .UPNG_HEADER) := by
  decide

/-! ## Re-decoding and image dimensions -/

theorem native_u32_take (l : List Byte) (n : Nat) (h : 4 ≤ n) :
    native_u32 (l.take 4) = native_u32 (l.take n) := by
  unfold native_u32
  rw [byteAt_take l 4 0 (by omega), byteAt_take l 4 1 (by omega), byteAt_take l 4 2 (by omega),
    byteAt_take l 4 3 (by omega), byteAt_take l n 0 (by omega), byteAt_take l n 1 (by omega),
    byteAt_take l n 2 (by omega), byteAt_take l n 3 (by omega)]

theorem native_u32_lt (l : List Byte) : native_u32 l < 4294967296 := by
  unfold native_u32
  have h0 := byteAt_lt l 0
  have h1 := byteAt_lt l 1
  have h2 := byteAt_lt l 2
  have h3 := byteAt_lt l 3
  omega

/-- The fdAT branch of the data-collecting loop on a chunk that is in bounds, holds its
sequence number and fits into the block. -/
theorem decode_FDAT_in_bounds (ud : upng_t) (context : upng_byte_source_context)
    (csize o len : Nat) (compressed : List Byte) (seq : Nat)
    (k : List Byte → Nat → Except Fault Collected)
    (hu : ud.source.user = some context)
    (hlt : context.buffer.length < 9223372036854775808)
    (hend : o + 8 + len ≤ context.buffer.length) (h4 : 4 ≤ len)
    (hseq : native_u32 ((context.buffer.drop (o + 8)).take len) = seq)
    (hfit : compressed.length + (len - 4) ≤ csize) :
    decode_FDAT ud csize (o + 8) len compressed seq k
      = k (compressed ++ ((context.buffer.drop (o + 8)).take len).drop 4) (u32 (seq + 1)) := by
  have r1 := source_read_within ud.source context (o + 8) 4 hu (by omega)
  have l1 : ((context.buffer.drop (o + 8)).take 4).length = 4 := by
    rw [List.length_take, List.length_drop]; omega
  have e1 : u64 (o + 8 + 4) = o + 12 := u64_of_lt _ (by omega)
  have e2 : u64 (len + 18446744073709551616 - 4) = len - 4 := by
    unfold u64; omega
  have r2 := source_read_within ud.source context (o + 12) (len - 4) hu (by omega)
  have l2 : ((context.buffer.drop (o + 12)).take (len - 4)).length = len - 4 := by
    rw [List.length_take, List.length_drop]; omega
  have e3 : ((context.buffer.drop (o + 8)).take len).drop 4
      = (context.buffer.drop (o + 12)).take (len - 4) := by
    rw [List.drop_take, List.drop_drop]
  have hs : native_u32 ((context.buffer.drop (o + 8)).take 4) = seq := by
    rw [native_u32_take _ len h4]; exact hseq
  have hfit2 : ¬ compressed.length + (len - 4) > csize := by omega
  unfold decode_FDAT
  simp only [r1, Except.bind, l1, ne_eq, not_true_eq_false, if_false, hs, e1, e2, r2, l2,
    hfit2, e3]

/-- The data-collecting loop at the header of an IEND or fcTL chunk. -/
theorem upng_decode_chunks_terminator (ud : upng_t) (context : upng_byte_source_context)
    (csize f o : Nat) (compressed : List Byte) (seq : Nat)
    (hu : ud.source.user = some context)
    (hsize : ud.source.size = context.buffer.length)
    (h12 : o + 12 ≤ context.buffer.length)
    (ht : chunk_type_at context.buffer o = type_IEND ∨
      chunk_type_at context.buffer o = type_fcTL) :
    upng_decode_chunks ud csize (f + 1) o compressed seq = .ok (.done compressed) := by
  have ho : o < ud.source.size := by omega
  have hread := source_read_in_bounds ud.source context o 12 hu (by omega) (by omega)
  have hl : ((context.buffer.drop o).take 12).length = 12 := by
    rw [List.length_take, List.length_drop]; omega
  obtain ⟨e1, e2, _, e4, e5⟩ := chunk_type_cases context.buffer o
  have n1 : ¬ chunk_type_at context.buffer o = type_IDAT := by
    rcases ht with ht | ht <;> rw [ht] <;> decide
  have n2 : ¬ chunk_type_at context.buffer o = type_fdAT := by
    rcases ht with ht | ht <;> rw [ht] <;> decide
  rw [upng_decode_chunks]
  simp only [ho, if_true, hread, Except.bind, hl, ne_eq, not_true_eq_false, if_false,
    e1, e2, e4, e5, n1, n2, ht]

/-- The data-collecting loop of `upng_decode` on a run of chunks: it appends the payloads
of the data chunks of the run and ends normally. -/
theorem frame_run_decode (ud : upng_t) (context : upng_byte_source_context) (csize : Nat)
    (hu : ud.source.user = some context)
    (hsize : ud.source.size = context.buffer.length)
    (hlt : ud.source.size < 9223372036854775808) :
    ∀ (cs : List spec_chunk) (f o seq : Nat) (compressed : List Byte),
      frame_run context.buffer cs o seq → context.buffer.length ≤ o + 12 * f →
      compressed.length + (frame_payloads cs).length ≤ csize →
      upng_decode_chunks ud csize f o compressed seq
        = .ok (.done (compressed ++ frame_payloads cs)) := by
  intro cs
  induction cs with
  | nil =>
    intro f o seq compressed hrun hfuel _
    simp only [frame_payloads, List.append_nil]
    unfold frame_run at hrun
    rcases hrun with hend | ⟨h12, ht⟩
    · exact upng_decode_chunks_end ud csize f o compressed seq (by omega)
    · cases f with
      | zero => omega
      | succ f1 =>
        exact upng_decode_chunks_terminator ud context csize f1 o compressed seq hu hsize h12 ht
  | cons c cs ih =>
    intro f o seq compressed hrun hfuel hfit
    unfold frame_run at hrun
    obtain ⟨_, hty, hdata, hin, hne1, hne2, hfd, hrest⟩ := hrun
    have hin2 := hin
    obtain ⟨h12, hmax, hend⟩ := hin2
    cases f with
    | zero => omega
    | succ f1 =>
      rw [upng_decode_chunks_step ud context csize f1 o compressed seq hu hsize hlt hin]
      rw [← hty, ← hdata]
      have hdl : c.data.length = be32 context.buffer o := by
        rw [hdata, List.length_take, List.length_drop]; omega
      by_cases t1 : c.type = type_IDAT
      · have t2 : ¬ c.type = type_fdAT := by rw [t1]; decide
        simp only [frame_payloads, t1, if_true, List.length_append] at hfit
        have hfit2 : ¬ compressed.length + be32 context.buffer o > csize := by omega
        simp only [t1, if_true, hfit2, if_false, frame_payloads]
        simp only [t2, if_false] at hrest
        rw [ih f1 _ seq _ hrest (by omega) (by simp only [List.length_append]; omega),
          List.append_assoc]
      · by_cases t2 : c.type = type_fdAT
        · obtain ⟨h4, hs⟩ := hfd t2
          have t3 : ¬ type_fdAT = type_IDAT := by decide
          simp only [frame_payloads, t1, if_false, t2, t3, if_true, List.length_append,
            List.length_drop] at hfit
          simp only [t2, if_true] at hrest
          simp only [t1, if_false, t2, t3, if_true, frame_payloads]
          rw [decode_FDAT_in_bounds ud context csize o (be32 context.buffer o) compressed seq _
            hu (by omega) (by omega) (by omega) (by rw [← hdata]; exact hs) (by omega)]
          rw [← hdata]
          rw [ih f1 _ _ _ hrest (by omega)
            (by simp only [List.length_append, List.length_drop]; omega), List.append_assoc]
        · simp only [frame_payloads, t1, if_false, t2] at hfit
          simp only [t2, if_false] at hrest
          simp only [t1, if_false, t2, hne1, hne2, or_self, frame_payloads]
          exact ih f1 _ seq _ hrest (by omega) hfit

/-- What `upng_decode` has done when its first part returns: the header is read, and a
`CHECK_GOTO` that fails in the loop leaves the state as it is. -/
theorem upng_decode_collect_header (u0 u : upng_t) (x : Option (upng_frame × Collected))
    (h : upng_decode_collect u0 = .ok (u, x)) :
    upng_header u0 = .ok u ∧
    ∀ frame u2, x = some (frame, .failed u2) → u2.state = u.state := by
  unfold upng_decode_collect at h
  cases hh : upng_header u0 with
  | error f => rw [hh] at h; cases h
  | ok u1 =>
    rw [hh] at h
    simp only [Except.bind] at h
    by_cases he : u1.error = .UPNG_EOK
    swap
    · simp only [he, ne_eq, not_false_eq_true, if_true, Except.ok.injEq, Prod.mk.injEq] at h
      obtain ⟨h1, h2⟩ := h
      subst h1 h2
      exact ⟨rfl, fun frame u2 hx => by cases hx⟩
    by_cases hs : u1.state ≠ .UPNG_HEADER ∧ u1.state ≠ .UPNG_DECODED
    · simp only [he, ne_eq, not_true_eq_false, if_false, hs, not_false_eq_true, and_self,
        if_true, Except.ok.injEq, Prod.mk.injEq] at h
      obtain ⟨h1, h2⟩ := h
      subst h1 h2
      exact ⟨rfl, fun frame u2 hx => by cases hx⟩
    · simp only [he, ne_eq, not_true_eq_false, if_false, hs] at h
      cases hf : decode_frame u1 with
      | error f => rw [hf] at h; cases h
      | ok fr =>
        rw [hf] at h
        simp only at h
        have hk := upng_decode_chunks_okAll (fun c => ∀ u2, c = .failed u2 → u2.state = u1.state)
          u1 fr.compressed_size (fun c u2 hc => by cases hc)
          (fun code line u2 hc => by cases hc; rfl) u1.source.size fr.data_chunk_offset [] 0
        cases hc : upng_decode_chunks u1 fr.compressed_size u1.source.size
            fr.data_chunk_offset [] 0 with
        | error f => rw [hc] at h; cases h
        | ok c1 =>
          rw [hc] at h hk
          simp only [Except.ok.injEq, Prod.mk.injEq] at h
          obtain ⟨h1, h2⟩ := h
          subst h1 h2
          refine ⟨rfl, fun frame u2 hx => ?_⟩
          simp only [Option.some.injEq, Prod.mk.injEq] at hx
          exact hk u2 hx.2

/-- The second part of `upng_decode` reaches `UPNG_DECODED` from another state only on its
successful path, on which no error is set and the source is released. -/
theorem upng_decode_finish_done (uz_inflate : Nat → List Byte → Nat → upng_error × Mem)
    (upng : upng_t) (frame : upng_frame) (compressed : List Byte)
    (hfirst : upng.state ≠ .UPNG_DECODED)
    (hdone : (upng_decode_finish uz_inflate upng frame compressed).state = .UPNG_DECODED) :
    (upng_decode_finish uz_inflate upng frame compressed).source = { user := none, size := 0 } ∧
    (upng_decode_finish uz_inflate upng frame compressed).error = .UPNG_EOK ∧
    (upng_decode_finish uz_inflate upng frame compressed).frames = upng.frames := by
  rw [upng_decode_finish_eq] at hdone ⊢
  have hs := post_process_scanlines_sets upng (uz_inflate (decode_inflated_size upng frame)
    compressed frame.compressed_size).2 0 0 frame
  by_cases h1 : (uz_inflate (decode_inflated_size upng frame) compressed
      frame.compressed_size).1 = .UPNG_EOK
  · by_cases h2 : (post_process_scanlines upng (uz_inflate (decode_inflated_size upng frame)
        compressed frame.compressed_size).2 0 0 frame).1.error = .UPNG_EOK
    · simp only [h1, h2, not_true_eq_false, if_false, ne_eq]
      refine ⟨rfl, rfl, ?_⟩
      show (post_process_scanlines upng (uz_inflate (decode_inflated_size upng frame)
        compressed frame.compressed_size).2 0 0 frame).1.frames = upng.frames
      rcases hs with hs | ⟨line, hs⟩
      · rw [hs]
      · rw [hs]
        rfl
    · simp only [h1, h2, not_true_eq_false, if_false, ne_eq, not_false_eq_true, if_true]
        at hdone
      exfalso
      apply hfirst
      rcases hs with hs | ⟨line, hs⟩ <;> rw [hs] at hdone <;> exact hdone
  · simp only [h1, not_false_eq_true, if_true] at hdone
    exact absurd hdone hfirst

/-- A call of `upng_decode` that moves the decoder to `UPNG_DECODED` has read the header,
run its loop to the normal end and released the source. -/
theorem upng_decode_done (uz_inflate : Nat → List Byte → Nat → upng_error × Mem)
    (u0 u' : upng_t) (hfirst : u0.state ≠ .UPNG_DECODED)
    (hdec : upng_decode uz_inflate u0 = .ok u') (hdone : u'.state = .UPNG_DECODED) :
    ∃ u frame compressed,
      upng_decode_collect u0 = .ok (u, some (frame, .done compressed)) ∧
      upng_header u0 = .ok u ∧
      u' = upng_decode_finish uz_inflate u frame compressed ∧
      u'.source = { user := none, size := 0 } ∧ u'.error = .UPNG_EOK ∧
      u'.frames = u.frames := by
  unfold upng_decode at hdec
  cases hc : upng_decode_collect u0 with
  | error f => rw [hc] at hdec; cases hdec
  | ok r =>
    obtain ⟨u, x⟩ := r
    rw [hc] at hdec
    obtain ⟨hh, hfail⟩ := upng_decode_collect_header u0 u x hc
    have hst := okAll_ok (upng_header_state u0) hh
    have hu : u.state ≠ .UPNG_DECODED := by
      intro hd
      rcases hst.1 with h | ⟨_, h, _⟩
      · exact hfirst (by rw [← h]; exact hd)
      · rw [hd] at h; cases h
    cases x with
    | none =>
      simp only [Except.bind, Except.ok.injEq] at hdec
      subst hdec
      exact absurd hdone hu
    | some p =>
      obtain ⟨frame, c⟩ := p
      cases c with
      | failed u2 =>
        simp only [Except.bind, Except.ok.injEq] at hdec
        subst hdec
        have e := hfail frame u2 rfl
        rw [e] at hdone
        exact absurd hdone hu
      | done compressed =>
        simp only [Except.bind, Except.ok.injEq] at hdec
        subst hdec
        obtain ⟨f1, f2, f3⟩ := upng_decode_finish_done uz_inflate u frame compressed hu hdone
        exact ⟨u, frame, compressed, rfl, hh, rfl, f1, f2, f3⟩

/-- A call of `upng_decode` on a decoder in state `UPNG_DECODED` whose source is released:
the loop over the data chunks is not entered. -/
theorem upng_decode_collect_released (v : upng_t) (frame : upng_frame)
    (hst : v.state = .UPNG_DECODED) (herr : v.error = .UPNG_EOK)
    (hsrc : v.source = { user := none, size := 0 })
    (hframe : decode_frame v = .ok frame) :
    upng_decode_collect v = .ok (v, some (frame, .done [])) := by
  have hh : upng_header v = .ok v := by
    unfold upng_header
    simp only [herr, ne_eq, not_true_eq_false, if_false, hst, not_false_eq_true, if_true]
    rfl
  have hsz : v.source.size = 0 := by rw [hsrc]
  unfold upng_decode_collect
  rw [hh]
  simp only [Except.bind, herr, hst, ne_eq, not_true_eq_false, if_false, and_false, hframe, hsz,
    upng_decode_chunks, Nat.not_lt_zero]

/-- C21, as amended: a call of `upng_decode` that succeeds (it moves a decoder that was not
yet decoded to `UPNG_DECODED`) releases the source, as the specification says of every
decode, and sets no error. Every later call of `upng_decode` on the same decoder, with
`current_frame` left as it is or set to any frame `k` of the table, does not enter the
loop over the data chunks: it reads no chunk, assembles no byte and hands the decompressor
an empty block. The compressed data of a frame is assembled by the call that still has
the source, which is the first one: when the chunks `cs` are the run of chunks from the
frame's `data_chunk_offset` to the next fcTL or IEND chunk (fdAT sequence numbers counting
up from 0 as the host reads them) and their data fits the frame's `compressed_size`, that
call assembles `frame_payloads cs`, the IDAT payloads and the fdAT payloads without their
sequence prefixes, for the frame that `current_frame` selects. -/
theorem redecode_reads_nothing (uz_inflate : Nat → List Byte → Nat → upng_error × Mem)
    (u0 u' : upng_t) (hfirst : u0.state ≠ .UPNG_DECODED)
    (hdec : upng_decode uz_inflate u0 = .ok u') (hdone : u'.state = .UPNG_DECODED) :
    (u'.source = { user := none, size := 0 } ∧ u'.error = .UPNG_EOK) ∧
    (∀ (k : Nat) (frame : upng_frame),
      decode_frame { u' with current_frame := k } = .ok frame →
      upng_decode_collect { u' with current_frame := k }
          = .ok ({ u' with current_frame := k }, some (frame, .done [])) ∧
        upng_decode uz_inflate { u' with current_frame := k }
          = .ok (upng_decode_finish uz_inflate { u' with current_frame := k } frame [])) ∧
    (∀ (u : upng_t) (context : upng_byte_source_context) (frame : upng_frame)
        (cs : List spec_chunk),
      upng_header u0 = .ok u → u.source.user = some context →
      u.source.size = context.buffer.length → u.source.size < 9223372036854775808 →
      decode_frame u = .ok frame →
      frame_run context.buffer cs frame.data_chunk_offset 0 →
      (frame_payloads cs).length ≤ frame.compressed_size →
      upng_decode_collect u0 = .ok (u, some (frame, .done (frame_payloads cs))) ∧
        u' = upng_decode_finish uz_inflate u frame (frame_payloads cs)) := by
  obtain ⟨u1, frame1, compressed1, hcol, hh, hfin, hsrc, herr, _⟩ :=
    upng_decode_done uz_inflate u0 u' hfirst hdec hdone
  refine ⟨⟨hsrc, herr⟩, ?_, ?_⟩
  · intro k frame hframe
    have hc := upng_decode_collect_released { u' with current_frame := k } frame hdone herr
      hsrc hframe
    exact ⟨hc, upng_decode_of_collect uz_inflate _ _ frame [] hc⟩
  · intro u context frame cs hh2 hu hsize hlt hframe hrun hfit
    rw [hh] at hh2
    simp only [Except.ok.injEq] at hh2
    subst hh2
    obtain ⟨_, _, _, hframe1⟩ := upng_decode_collect_some u0 u1 frame1 (.done compressed1) hcol
    rw [hframe] at hframe1
    simp only [Except.ok.injEq] at hframe1
    subst hframe1
    have hloop := frame_run_decode u1 context frame.compressed_size hu hsize hlt cs
      u1.source.size frame.data_chunk_offset 0 [] hrun (by omega)
      (by simp only [List.length_nil, Nat.zero_add]; exact hfit)
    rw [List.nil_append] at hloop
    have hcol2 := hcol
    unfold upng_decode_collect at hcol2
    rw [hh] at hcol2
    obtain ⟨_, he, hs, _⟩ := upng_decode_collect_some u0 u1 frame (.done compressed1) hcol
    have hs2 : ¬ (u1.state ≠ .UPNG_HEADER ∧ u1.state ≠ .UPNG_DECODED) := by
      rcases hs with h | h <;> simp [h]
    simp only [Except.bind, he, ne_eq, not_true_eq_false, if_false, hs2, hframe, hloop,
      Except.ok.injEq, Prod.mk.injEq, Option.some.injEq, Collected.done.injEq, true_and]
      at hcol2
    subst hcol2
    exact ⟨hcol, hfin⟩

set_option maxRecDepth 1000000 in
/-- Witness for C21: the first decode of `example_apng_two_frames` (frame 0, whose fdAT
chunk lies at offset 91) assembles 5, 6 and releases the source; a second decode with
`current_frame` set to 1 then assembles nothing. On a decoder that has not decoded yet,
the decode of frame 1 (fdAT chunk at offset 147) assembles 7, 8. -/
theorem redecode_reads_nothing_witness :
    ((upng_new_from_bytes example_apng_two_frames).state ≠ .UPNG_DECODED ∧
      (result_of (upng_decode (example_inflate [0, 1, 2, 3, 4])
        (upng_new_from_bytes example_apng_two_frames))).state = .UPNG_DECODED ∧
      frame_run example_apng_two_frames (spec_chunks example_apng_two_frames 1 91) 91 0 ∧
      frame_payloads (spec_chunks example_apng_two_frames 1 91) = [5, 6] ∧
      frame_run example_apng_two_frames (spec_chunks example_apng_two_frames 1 147) 147 0 ∧
      frame_payloads (spec_chunks example_apng_two_frames 1 147) = [7, 8]) ∧
    (result_of (upng_decode (example_inflate [0, 1, 2, 3, 4])
      (upng_new_from_bytes example_apng_two_frames))).source = { user := none, size := 0 } ∧
    assembled (upng_decode_collect (upng_new_from_bytes example_apng_two_frames))
      = some (frame_payloads (spec_chunks example_apng_two_frames 1 91)) ∧
    assembled (upng_decode_collect
      { result_of (upng_decode (example_inflate [0, 1, 2, 3, 4])
          (upng_new_from_bytes example_apng_two_frames)) with current_frame := 1 })
      = some [] ∧
    assembled (upng_decode_collect
      { upng_new_from_bytes example_apng_two_frames with current_frame := 1 })
      = some (frame_payloads (spec_chunks example_apng_two_frames 1 147)) := by
  have h0 := redecode_reads_nothing (example_inflate [0, 1, 2, 3, 4])
    (upng_new_from_bytes example_apng_two_frames)
    (result_of (upng_decode (example_inflate [0, 1, 2, 3, 4])
      (upng_new_from_bytes example_apng_two_frames)))
    (by decide) (by rfl) (by decide)
  have h1 := redecode_reads_nothing (example_inflate [0, 1, 2, 3, 4])
    { upng_new_from_bytes example_apng_two_frames with current_frame := 1 }
    (result_of (upng_decode (example_inflate [0, 1, 2, 3, 4])
      { upng_new_from_bytes example_apng_two_frames with current_frame := 1 }))
    (by decide) (by rfl) (by decide)
  have a0 := (h0.2.2 (result_of (upng_header (upng_new_from_bytes example_apng_two_frames)))
    { buffer := example_apng_two_frames }
    { single_frame 1 1 with compressed_size := 6, data_chunk_offset := 91 }
    (spec_chunks example_apng_two_frames 1 91)
    (by rfl) (by rfl) (by rfl) (by decide) (by rfl) (by decide) (by decide)).1
  have b0 := (h0.2.1 1 { single_frame 1 1 with compressed_size := 6, data_chunk_offset := 147 }
    (by rfl)).1
  have a1 := (h1.2.2
    (result_of (upng_header
      { upng_new_from_bytes example_apng_two_frames with current_frame := 1 }))
    { buffer := example_apng_two_frames }
    { single_frame 1 1 with compressed_size := 6, data_chunk_offset := 147 }
    (spec_chunks example_apng_two_frames 1 147)
    (by rfl) (by rfl) (by rfl) (by decide) (by rfl) (by decide) (by decide)).1
  refine ⟨by decide, h0.1.1, ?_, ?_, ?_⟩
  · rw [a0]; rfl
  · rw [b0]; rfl
  · rw [a1]; rfl

set_option maxRecDepth 1000000 in
/-- Counterexample to C21 as stated: `upng_header` accepts `example_apng_two_frames` with a
table of two frames, and `upng_decode` with `current_frame = 0` succeeds, having assembled
5, 6. With `current_frame` then set to 1, the second `upng_decode` on the same decoder
finds the source released (`source.size = 0`), reads no chunk and assembles nothing,
while a first decode of frame 1 reads the fdAT chunk of frame 1 and assembles its payload
7, 8 without the sequence prefix: the second call does not read the chunks that a first
decode of frame 1 reads. -/
theorem redecode_counterexample :
    (returned (upng_header (upng_new_from_bytes example_apng_two_frames)) = some .UPNG_EOK ∧
      (result_of (upng_header (upng_new_from_bytes example_apng_two_frames))).frame_count = 2 ∧
      assembled (upng_decode_collect (upng_new_from_bytes example_apng_two_frames))
        = some [5, 6] ∧
      returned (upng_decode (example_inflate [0, 1, 2, 3, 4])
        (upng_new_from_bytes example_apng_two_frames)) = some .UPNG_EOK ∧
      (result_of (upng_decode (example_inflate [0, 1, 2, 3, 4])
        (upng_new_from_bytes example_apng_two_frames))).state = .UPNG_DECODED) ∧
    (result_of (upng_decode (example_inflate [0, 1, 2, 3, 4])
      (upng_new_from_bytes example_apng_two_frames))).source.size = 0 ∧
    assembled (upng_decode_collect
      { result_of (upng_decode (example_inflate [0, 1, 2, 3, 4])
          (upng_new_from_bytes example_apng_two_frames)) with current_frame := 1 })
      = some [] ∧
    assembled (upng_decode_collect
      { upng_new_from_bytes example_apng_two_frames with current_frame := 1 })
      = some [7, 8] ∧
    assembled (upng_decode_collect
      { result_of (upng_decode (example_inflate [0, 1, 2, 3, 4])
          (upng_new_from_bytes example_apng_two_frames)) with current_frame := 1 })
      ≠ assembled (upng_decode_collect
        { upng_new_from_bytes example_apng_two_frames with current_frame := 1 }) := by
  decide

set_option maxRecDepth 1000000 in
/-- C22, the code and the failing input: `upng_header` stores the big-endian values at
offsets 16 and 20 of the header as width and height, whatever they are. The IHDR of
`example_zero_size` declares width 0 and height 0; `upng_header` returns `UPNG_EOK`, moves
to state `UPNG_HEADER`, and `upng_get_width` and `upng_get_height` are 0. The same holds
for width 0 alone (`example_zero_width`). -/
theorem header_accepts_zero_dimensions (upng : upng_t) (header : List Byte) :
    ((header_fields upng header).width = be32 header 16 ∧
      (header_fields upng header).height = be32 header 20) ∧
    (be32 example_zero_size 16 = 0 ∧ be32 example_zero_size 20 = 0) ∧
    returned (upng_header (upng_new_from_bytes example_zero_size)) = some .UPNG_EOK ∧
    (result_of (upng_header (upng_new_from_bytes example_zero_size))).state = .UPNG_HEADER ∧
    upng_get_width (result_of (upng_header (upng_new_from_bytes example_zero_size))) = 0 ∧
    upng_get_height (result_of (upng_header (upng_new_from_bytes example_zero_size))) = 0 ∧
    returned (upng_header (upng_new_from_bytes example_zero_width)) = some .UPNG_EOK ∧
    upng_get_width (result_of (upng_header (upng_new_from_bytes example_zero_width))) = 0 := by
  refine ⟨⟨intToU32_MAKE_DWORD_PTR header 16, intToU32_MAKE_DWORD_PTR header 20⟩, ?_⟩
  decide

/-! ## Unfiltering in place -/

theorem forLoop_invariant {σ : Type} (body : Nat → σ → σ) (P : Nat → σ → Prop) (n : Nat) :
    ∀ (start : Nat) (s : σ), P 0 s →
      (∀ i s, i < n → P i s → P (i + 1) (body (start + i) s)) →
      P n (forLoop body n start s) := by
  induction n with
  | zero =>
    intro start s h0 _
    exact h0
  | succ k ih =>
    intro start s h0 hstep
    rw [forLoop_succ_last]
    exact hstep k _ (by omega) (ih start s h0 fun i s hi hp => hstep i s (by omega) hp)

set_option maxRecDepth 100000 in
theorem self_bit (cell : Byte) (k : Fin 8) :
    (if (cell.val >>> (7 - k.val)) &&& 1 = 0 then
        toByte (cell.val &&& (255 - (1 <<< (7 - k.val))))
      else toByte (cell.val ||| (1 <<< (7 - k.val)))) = cell := by
  revert cell k
  decide

theorem store_self (mem : Mem) (a : Nat) : store mem a (mem a) = mem := by
  funext x
  unfold store
  split_ifs with h
  · rw [h]
  · rfl

/-- A bit copied onto itself leaves the memory as it is. -/
theorem copy_bit_self (a : Nat) (s : BitState) (h : s.obp = s.ibp) :
    (copy_bit a a s).mem = s.mem ∧ (copy_bit a a s).obp = (copy_bit a a s).ibp ∧
    (copy_bit a a s).ibp < 18446744073709551616 := by
  have hk : s.ibp &&& 7 < 8 := Nat.lt_succ_of_le Nat.and_le_right
  have hb := self_bit (s.mem (a + (s.ibp >>> 3))) ⟨s.ibp &&& 7, hk⟩
  simp only at hb
  refine ⟨?_, ?_, ?_⟩
  · unfold copy_bit
    simp only [h]
    split_ifs with hz
    · rw [if_pos hz] at hb
      rw [hb, store_self]
    · rw [if_neg hz] at hb
      rw [hb, store_self]
  · unfold copy_bit
    simp only [h]
  · unfold copy_bit u64
    simp only
    exact Nat.mod_lt _ (by decide)

/-- Called with equal line widths and the same buffer for input and output,
`remove_padding_bits` changes no byte. -/
theorem remove_padding_bits_self (mem : Mem) (a n h : Nat) :
    remove_padding_bits mem a a n n h = mem := by
  have hdiff : u64 (n + 18446744073709551616 - n) = 0 := by
    unfold u64
    have : n + 18446744073709551616 - n = 18446744073709551616 := by omega
    rw [this]
  unfold remove_padding_bits
  simp only [hdiff, forRange, Nat.sub_zero]
  have key := forLoop_invariant
    (fun (_ : Nat) (s : BitState) =>
      ({ forLoop (fun _ s => copy_bit a a s) n 0 s with
          ibp := u64 ((forLoop (fun _ s => copy_bit a a s) n 0 s).ibp + 0) } : BitState))
    (fun _ s => s.mem = mem ∧ s.obp = s.ibp ∧ s.ibp < 18446744073709551616) h 0
    { mem := mem, obp := 0, ibp := 0 }
    ⟨rfl, rfl, show (0 : Nat) < 18446744073709551616 by decide⟩
    (by
      intro i s _ ⟨h1, h2, h3⟩
      have inner := forLoop_invariant (fun _ s => copy_bit a a s)
        (fun _ s => s.mem = mem ∧ s.obp = s.ibp ∧ s.ibp < 18446744073709551616) n 0 s
        ⟨h1, h2, h3⟩
        (by
          intro j t _ ⟨g1, g2, _⟩
          obtain ⟨c1, c2, c3⟩ := copy_bit_self a t g2
          exact ⟨by rw [c1, g1], c2, c3⟩)
      obtain ⟨i1, i2, i3⟩ := inner
      refine ⟨i1, ?_, ?_⟩
      · show _ = u64 _
        rw [Nat.add_zero, u64_of_lt _ i3]
        exact i2
      · show u64 _ < _
        exact Nat.mod_lt _ (by decide))
  exact key.1

/-- C24, as amended: for every frame with `bpp < 8` whose row bit width `w * bpp` is
not a multiple of 8 and does not wrap in `unsigned` arithmetic (`w * bpp + 7 < 2^32`),
`post_process_scanlines` produces byte-aligned rows. When the buffer holds what the
reference PNG filter yields from raw rows of `stride = ceil(w * bpp / 8)` bytes each
(filter types 0..4), byte `i` of row `y` of the result, at offset `stride * y + i`, is
byte `i` of raw row `y`, with all its eight bits and so with its padding bits, and no
error is set. The frame takes the branch that calls `remove_padding_bits` with the input
and output line widths both `8 * stride` on the one buffer; that call changes no byte, so
the result is the one of `unfilter` in place. -/
theorem post_process_keeps_padding (upng : upng_t) (mem : Mem) (out inp : Nat)
    (frame : upng_frame) (ft : Nat → Nat) (raw : Nat → Byte)
    (hlt : upng_get_bpp upng < 8)
    (hpad : frame.width * upng_get_bpp upng % 8 ≠ 0)
    (hov : frame.width * upng_get_bpp upng + 7 < 4294967296)
    (hh : frame.height < 4294967296)
    (herr : upng.error = .UPNG_EOK)
    (hft : ∀ y, y < frame.height → ft y ≤ 4)
    (hmem : ∀ a, a < ((frame.width * upng_get_bpp upng + 7) / 8 + 1) * frame.height →
      mem (inp + a) = reference_filter frame.width (upng_get_bpp upng) ft raw a) :
    (∀ (m : Mem) (a n h : Nat), remove_padding_bits m a a n n h = m) ∧
    post_process_scanlines upng mem out inp frame
      = ((unfilter upng mem inp inp frame.width frame.height (upng_get_bpp upng)).1,
          remove_padding_bits
            (unfilter upng mem inp inp frame.width frame.height (upng_get_bpp upng)).2
            inp inp ((frame.width * upng_get_bpp upng + 7) / 8 * 8)
            ((frame.width * upng_get_bpp upng + 7) / 8 * 8) frame.height) ∧
    post_process_scanlines upng mem out inp frame
      = unfilter upng mem inp inp frame.width frame.height (upng_get_bpp upng) ∧
    (post_process_scanlines upng mem out inp frame).1 = upng ∧
    ∀ y i, y < frame.height → i < (frame.width * upng_get_bpp upng + 7) / 8 →
      (post_process_scanlines upng mem out inp frame).2
          (inp + ((frame.width * upng_get_bpp upng + 7) / 8 * y + i))
        = raw ((frame.width * upng_get_bpp upng + 7) / 8 * y + i) := by
  have h0 : upng_get_bpp upng ≠ 0 := by
    intro hz
    rw [hz, Nat.mul_zero] at hpad
    exact absurd rfl hpad
  have hw : 1 ≤ frame.width := by
    rcases Nat.eq_zero_or_pos frame.width with hz | hz
    · rw [hz, Nat.zero_mul] at hpad
      exact absurd rfl hpad
    · exact hz
  obtain ⟨u1, u2⟩ := unfilter_inverts_aux upng mem inp inp frame.width frame.height
    (upng_get_bpp upng) ft raw hw hov hh herr hft hmem (Or.inl rfl)
  have e1 : u32 (frame.width * upng_get_bpp upng) = frame.width * upng_get_bpp upng := by
    unfold u32; omega
  have e2 : u32 (frame.width * upng_get_bpp upng + 7) = frame.width * upng_get_bpp upng + 7 := by
    unfold u32; omega
  have e3 : u32 ((frame.width * upng_get_bpp upng + 7) / 8 * 8)
      = (frame.width * upng_get_bpp upng + 7) / 8 * 8 := by
    unfold u32; omega
  have hne : frame.width * upng_get_bpp upng
      ≠ (frame.width * upng_get_bpp upng + 7) / 8 * 8 := by omega
  have hbranch : post_process_scanlines upng mem out inp frame
      = ((unfilter upng mem inp inp frame.width frame.height (upng_get_bpp upng)).1,
          remove_padding_bits
            (unfilter upng mem inp inp frame.width frame.height (upng_get_bpp upng)).2
            inp inp ((frame.width * upng_get_bpp upng + 7) / 8 * 8)
            ((frame.width * upng_get_bpp upng + 7) / 8 * 8) frame.height) := by
    unfold post_process_scanlines
    simp only [h0, if_false, e1, e2, e3, hlt, hne, ne_eq, not_false_eq_true, and_self, if_true,
      u1, herr, not_true_eq_false]
  have heq : post_process_scanlines upng mem out inp frame
      = unfilter upng mem inp inp frame.width frame.height (upng_get_bpp upng) := by
    rw [hbranch, remove_padding_bits_self]
  refine ⟨remove_padding_bits_self, hbranch, heq, by rw [heq]; exact u1, ?_⟩
  intro y i hy hi
  rw [heq]
  refine u2 _ ?_
  calc (frame.width * upng_get_bpp upng + 7) / 8 * y + i
      < (frame.width * upng_get_bpp upng + 7) / 8 * y
          + (frame.width * upng_get_bpp upng + 7) / 8 := by omega
    _ = (frame.width * upng_get_bpp upng + 7) / 8 * (y + 1) := by rw [Nat.mul_succ]
    _ ≤ (frame.width * upng_get_bpp upng + 7) / 8 * frame.height :=
        Nat.mul_le_mul_left _ hy

set_option maxRecDepth 1000000 in
/-- Witness for C24: `example_bits` is an image of 2 by 2 pixels of depth 1, one byte per
row; the inflated stream 0x00, 0x80, 0x00, 0x40 is the reference filter (type None) of the
raw rows 0x80, 0x40, and it decodes to these two bytes. -/
theorem post_process_keeps_padding_witness :
    (upng_get_bpp (result_of (upng_header (upng_new_from_bytes example_bits))) = 1 ∧
      2 * 1 % 8 ≠ 0 ∧ (2 * 1 + 7) / 8 = 1 ∧
      returned (upng_decode (example_inflate [0, 128, 0, 64])
        (upng_new_from_bytes example_bits)) = some .UPNG_EOK ∧
      upng_get_size (result_of (upng_decode (example_inflate [0, 128, 0, 64])
        (upng_new_from_bytes example_bits))) = 2) ∧
    (post_process_scanlines (result_of (upng_header (upng_new_from_bytes example_bits)))
        (fun a => ([0, 128, 0, 64] : List Byte).getD a 0) 0 0 (single_frame 2 2)).2
          (0 + (1 * 0 + 0)) = 128 ∧
    (post_process_scanlines (result_of (upng_header (upng_new_from_bytes example_bits)))
        (fun a => ([0, 128, 0, 64] : List Byte).getD a 0) 0 0 (single_frame 2 2)).2
          (0 + (1 * 1 + 0)) = 64 :=
  have hw := post_process_keeps_padding
    (result_of (upng_header (upng_new_from_bytes example_bits)))
    (fun a => ([0, 128, 0, 64] : List Byte).getD a 0) 0 0 (single_frame 2 2)
    (fun _ => 0) (fun k => ([128, 64] : List Byte).getD k 0)
    (by decide) (by decide) (by decide) (by decide) (by decide)
    (fun _ _ => Nat.zero_le 4)
    (by
      have e : upng_get_bpp (result_of (upng_header (upng_new_from_bytes example_bits))) = 1 := by
        decide
      rw [e]
      intro a ha
      have ha4 : a < 4 := ha
      interval_cases a <;> rfl)
  ⟨by decide, hw.2.2.2.2 0 0 (by decide) (by decide), hw.2.2.2.2 1 0 (by decide) (by decide)⟩

set_option maxRecDepth 1000000 in
/-- Counterexample to C24 as stated: `example_wide_bits` declares width `2^32 - 1`, height 1
and depth 1, and `upng_header` accepts it. The row bit width `2^32 - 1` is not a multiple
of 8 and the stride of the claim is `2^29` bytes, but `w * bpp + 7` wraps to 6 in
`unsigned` arithmetic and `unfilter` takes the rows to be empty. The buffer 0, 128, 64, 32
is left as it is: byte 0 of the result is the filter-type byte 0 and not byte 0 of the
unfiltered row, which is 128. -/
theorem post_process_wrap_counterexample :
    returned (upng_header (upng_new_from_bytes example_wide_bits)) = some .UPNG_EOK ∧
    upng_get_width (result_of (upng_header (upng_new_from_bytes example_wide_bits)))
      = 4294967295 ∧
    upng_get_height (result_of (upng_header (upng_new_from_bytes example_wide_bits))) = 1 ∧
    upng_get_bpp (result_of (upng_header (upng_new_from_bytes example_wide_bits))) = 1 ∧
    4294967295 * 1 % 8 ≠ 0 ∧ (4294967295 * 1 + 7) / 8 = 536870912 ∧
    (∀ a, a < 4 → reference_filter 4294967295 1 (fun _ => 0) example_raw_bits a
      = ([0, 128, 64, 32] : List Byte).getD a 0) ∧
    (post_process_scanlines (result_of (upng_header (upng_new_from_bytes example_wide_bits)))
        (reference_filter 4294967295 1 (fun _ => 0) example_raw_bits) 0 0
        (single_frame 4294967295 1)).2 (0 + (536870912 * 0 + 0)) ≠ example_raw_bits 0 ∧
    (∀ a, a < 4 →
      (post_process_scanlines (result_of (upng_header (upng_new_from_bytes example_wide_bits)))
        (reference_filter 4294967295 1 (fun _ => 0) example_raw_bits) 0 0
        (single_frame 4294967295 1)).2 a = ([0, 128, 64, 32] : List Byte).getD a 0) := by
  decide

set_option maxRecDepth 100000 in
theorem set_bit (cell : Byte) (k j : Fin 8) :
    (toByte (cell.val &&& (255 - (1 <<< (7 - k.val))))).val / 2 ^ (7 - j.val) % 2
      = (if j = k then 0 else cell.val / 2 ^ (7 - j.val) % 2) ∧
    (toByte (cell.val ||| (1 <<< (7 - k.val)))).val / 2 ^ (7 - j.val) % 2
      = (if j = k then 1 else cell.val / 2 ^ (7 - j.val) % 2) := by
  revert cell k j
  decide

theorem shift3 (p : Nat) : p >>> 3 = p / 8 := Nat.shiftRight_eq_div_pow p 3

theorem and7 (p : Nat) : p &&& 7 = p % 8 := Nat.and_pow_two_sub_one_eq_mod p 3

/-- The body of the inner loop of `remove_padding_bits`, run in place: bit `obp` receives
the value of bit `ibp`, and every other bit stays. -/
theorem copy_bit_bits (a : Nat) (s : BitState) :
    bit_at (copy_bit a a s).mem a s.obp = bit_at s.mem a s.ibp ∧
    (∀ p, p ≠ s.obp → bit_at (copy_bit a a s).mem a p = bit_at s.mem a p) ∧
    (copy_bit a a s).obp = u64 (s.obp + 1) ∧ (copy_bit a a s).ibp = u64 (s.ibp + 1) := by
  have hk : s.obp % 8 < 8 := Nat.mod_lt _ (by decide)
  have hbit : ((s.mem (a + s.ibp / 8)).val >>> (7 - s.ibp % 8)) &&& 1 = bit_at s.mem a s.ibp := by
    unfold bit_at
    rw [Nat.shiftRight_eq_div_pow, Nat.and_one_is_mod]
  have hb2 : bit_at s.mem a s.ibp = 0 ∨ bit_at s.mem a s.ibp = 1 := by
    unfold bit_at
    omega
  have key : ∀ p, bit_at (copy_bit a a s).mem a p
      = if p = s.obp then bit_at s.mem a s.ibp else bit_at s.mem a p := by
    intro p
    have hj : p % 8 < 8 := Nat.mod_lt _ (by decide)
    obtain ⟨e0, e1⟩ := set_bit (s.mem (a + s.obp / 8)) ⟨s.obp % 8, hk⟩ ⟨p % 8, hj⟩
    simp only [Fin.mk.injEq] at e0 e1
    unfold copy_bit
    simp only [shift3, and7, hbit]
    by_cases hz : bit_at s.mem a s.ibp = 0
    · simp only [hz, if_true]
      unfold bit_at
      unfold store
      by_cases hp : p / 8 = s.obp / 8
      · have : a + p / 8 = a + s.obp / 8 := by rw [hp]
        simp only [this, if_true]
        rw [e0]
        by_cases hm : p % 8 = s.obp % 8
        · have : p = s.obp := by omega
          simp only [hm, this, if_true]
        · have : p ≠ s.obp := fun h => hm (by rw [h])
          simp only [hm, this, if_false, hp]
      · have h1 : ¬ a + p / 8 = a + s.obp / 8 := by omega
        have h2 : p ≠ s.obp := fun h => hp (by rw [h])
        simp only [h1, h2, if_false]
    · have h1 : bit_at s.mem a s.ibp = 1 := by omega
      simp only [h1, Nat.one_ne_zero, if_false]
      unfold bit_at
      unfold store
      by_cases hp : p / 8 = s.obp / 8
      · have : a + p / 8 = a + s.obp / 8 := by rw [hp]
        simp only [this, if_true]
        rw [e1]
        by_cases hm : p % 8 = s.obp % 8
        · have : p = s.obp := by omega
          simp only [hm, this, if_true]
        · have : p ≠ s.obp := fun h => hm (by rw [h])
          simp only [hm, this, if_false, hp]
      · have h1 : ¬ a + p / 8 = a + s.obp / 8 := by omega
        have h2 : p ≠ s.obp := fun h => hp (by rw [h])
        simp only [h1, h2, if_false]
  refine ⟨?_, fun p hp => ?_, rfl, rfl⟩
  · rw [key, if_pos rfl]
  · rw [key, if_neg hp]

/-- One row of `remove_padding_bits`, run in place on row `y`: the inner loop after `x`
iterations. -/
theorem remove_padding_row (a ol il h y : Nat) (orig : Mem) (hle : ol ≤ il)
    (hsz : il * h < 18446744073709551616) (hy : y < h) (s : BitState)
    (hobp : s.obp = y * ol) (hibp : s.ibp = y * il)
    (h1 : ∀ p, y * ol ≤ p → bit_at s.mem a p = bit_at orig a p)
    (h2 : ∀ y' x', x' < ol → y' < y →
      bit_at s.mem a (y' * ol + x') = bit_at orig a (y' * il + x')) :
    (forLoop (fun _ s => copy_bit a a s) ol 0 s).obp = y * ol + ol ∧
    (forLoop (fun _ s => copy_bit a a s) ol 0 s).ibp = y * il + ol ∧
    (∀ p, y * ol + ol ≤ p →
      bit_at (forLoop (fun _ s => copy_bit a a s) ol 0 s).mem a p = bit_at orig a p) ∧
    (∀ y' x', x' < ol → y' < y + 1 →
      bit_at (forLoop (fun _ s => copy_bit a a s) ol 0 s).mem a (y' * ol + x')
        = bit_at orig a (y' * il + x')) := by
  have m1 : (y + 1) * il ≤ h * il := Nat.mul_le_mul_right il (by omega)
  have m2 : y * ol ≤ y * il := Nat.mul_le_mul_left y hle
  have e1 : (y + 1) * il = y * il + il := Nat.succ_mul y il
  have e2 : h * il = il * h := Nat.mul_comm h il
  have inv := forLoop_invariant (fun _ s => copy_bit a a s)
    (fun x t => t.obp = y * ol + x ∧ t.ibp = y * il + x ∧
      (∀ p, y * ol + x ≤ p → bit_at t.mem a p = bit_at orig a p) ∧
      (∀ y' x', x' < ol → (y' < y ∨ (y' = y ∧ x' < x)) →
        bit_at t.mem a (y' * ol + x') = bit_at orig a (y' * il + x')))
    ol 0 s
    ⟨by rw [hobp, Nat.add_zero], by rw [hibp, Nat.add_zero],
      fun p hp => h1 p (by omega), fun y' x' hx hc => by
        rcases hc with hc | ⟨_, hc⟩
        · exact h2 y' x' hx hc
        · omega⟩
    (by
      intro x t hx ⟨g1, g2, g3, g4⟩
      obtain ⟨c1, c2, c3, c4⟩ := copy_bit_bits a t
      refine ⟨?_, ?_, fun p hp => ?_, fun y' x' hx' hc => ?_⟩
      · rw [c3, g1, u64_of_lt _ (by omega)]
        omega
      · rw [c4, g2, u64_of_lt _ (by omega)]
        omega
      · rw [c2 p (by omega)]
        exact g3 p (by omega)
      · by_cases hsame : y' = y ∧ x' = x
        · obtain ⟨rfl, rfl⟩ := hsame
          rw [← g1, c1, g2]
          exact g3 _ (by omega)
        · have hlex : y' < y ∨ (y' = y ∧ x' < x) := by
            rcases hc with hc | ⟨hc1, hc2⟩
            · exact Or.inl hc
            · right
              refine ⟨hc1, ?_⟩
              by_contra hn
              exact hsame ⟨hc1, by omega⟩
          have hne : y' * ol + x' ≠ t.obp := by
            rw [g1]
            rcases hlex with hl | ⟨rfl, hl⟩
            · have m3 : (y' + 1) * ol ≤ y * ol := Nat.mul_le_mul_right ol (by omega)
              have e3 : (y' + 1) * ol = y' * ol + ol := Nat.succ_mul y' ol
              omega
            · omega
          rw [c2 _ hne]
          exact g4 y' x' hx' hlex)
  obtain ⟨i1, i2, i3, i4⟩ := inv
  refine ⟨i1, i2, i3, fun y' x' hx hy' => i4 y' x' hx ?_⟩
  by_cases hc : y' < y
  · exact Or.inl hc
  · exact Or.inr ⟨by omega, hx⟩

/-- C25: `remove_padding_bits` is a correct bit compaction in place. For every `h`, every
`ol ≤ il` (the line widths `olinebits`, `ilinebits`) with `il * h < 2^64` and every
buffer, running it with `out` and `in` being the same buffer at `a` yields a buffer in
which, for all `y < h` and `x < ol`, bit number `y * ol + x` equals the original bit
number `y * il + x`, bits numbered most-significant-first within each byte; the bits from
number `h * ol` on are as before. -/
theorem remove_padding_bits_compacts (mem : Mem) (a ol il h : Nat) (hle : ol ≤ il)
    (hsz : il * h < 18446744073709551616) :
    (∀ y x, y < h → x < ol →
      bit_at (remove_padding_bits mem a a ol il h) a (y * ol + x)
        = bit_at mem a (y * il + x)) ∧
    ∀ p, h * ol ≤ p → bit_at (remove_padding_bits mem a a ol il h) a p = bit_at mem a p := by
  unfold remove_padding_bits
  simp only [forRange, Nat.sub_zero]
  have inv := forLoop_invariant
    (fun (_ : Nat) (s : BitState) =>
      ({ forLoop (fun _ s => copy_bit a a s) ol 0 s with
          ibp := u64 ((forLoop (fun _ s => copy_bit a a s) ol 0 s).ibp
            + u64 (il + 18446744073709551616 - ol)) } : BitState))
    (fun y t => t.obp = y * ol ∧ t.ibp = y * il ∧
      (∀ p, y * ol ≤ p → bit_at t.mem a p = bit_at mem a p) ∧
      (∀ y' x', x' < ol → y' < y →
        bit_at t.mem a (y' * ol + x') = bit_at mem a (y' * il + x')))
    h 0 { mem := mem, obp := 0, ibp := 0 }
    ⟨by simp, by simp, fun p _ => rfl, fun y' x' _ hy' => by omega⟩
    (by
      intro y t hy ⟨g1, g2, g3, g4⟩
      obtain ⟨r1, r2, r3, r4⟩ := remove_padding_row a ol il h y mem hle hsz hy t g1 g2 g3 g4
      have m1 : (y + 1) * il ≤ h * il := Nat.mul_le_mul_right il (by omega)
      have e1 : (y + 1) * il = y * il + il := Nat.succ_mul y il
      have e2 : h * il = il * h := Nat.mul_comm h il
      have e3 : (y + 1) * ol = y * ol + ol := Nat.succ_mul y ol
      have hdiff : u64 (il + 18446744073709551616 - ol) = il - ol := by
        unfold u64
        omega
      refine ⟨?_, ?_, fun p hp => ?_, fun y' x' hx hy' => ?_⟩
      · show (forLoop (fun _ s => copy_bit a a s) ol 0 t).obp = _
        rw [r1, e3]
      · show u64 _ = _
        rw [r2, hdiff, u64_of_lt _ (by omega)]
        omega
      · show bit_at (forLoop (fun _ s => copy_bit a a s) ol 0 t).mem a p = _
        exact r3 p (by omega)
      · show bit_at (forLoop (fun _ s => copy_bit a a s) ol 0 t).mem a _ = _
        exact r4 y' x' hx hy')
  obtain ⟨_, _, i3, i4⟩ := inv
  exact ⟨fun y x hy hx => i4 y x hx hy, fun p hp => i3 p hp⟩

set_option maxRecDepth 1000000 in
/-- Witness for C25: the two rows of 16 bits of `example_bit_rows` compacted to 4 bits each;
the first byte becomes 1011 0110. -/
theorem remove_padding_bits_compacts_witness :
    (remove_padding_bits example_bit_rows 0 0 4 16 2) 0 = 182 ∧
    ∀ y x, y < 2 → x < 4 →
      bit_at (remove_padding_bits example_bit_rows 0 0 4 16 2) 0 (y * 4 + x)
        = bit_at example_bit_rows 0 (y * 16 + x) :=
  ⟨by decide,
   (remove_padding_bits_compacts example_bit_rows 0 4 16 2 (by decide) (by decide)).1⟩

/-! ## Frame-table accesses and the size of the compressed block -/

set_option maxRecDepth 1000000 in
/-- C26, the code at failing inputs: in `example_fdat_before_fctl` the scanner reaches the
fdAT chunk with a frame table of one slot and the frame index still `FRAME_INDEX_NONE`;
the fdAT branch only checks that the table exists and then accounts the chunk to
`frames[4294967295]`. In `example_idat_no_frames` the acTL chunk declares zero frames and
the IDAT branch accounts the chunk to `frames[0]` of the empty table. -/
theorem frame_table_access_out_of_bounds :
    (∃ u, scan_steps 1 (header_fields (upng_new_from_bytes example_fdat_before_fctl)
          (example_fdat_before_fctl.take 29)) 33 FRAME_INDEX_NONE
        = .ok (.next u 53 FRAME_INDEX_NONE) ∧
      chunk_type_at example_fdat_before_fctl 53 = type_fdAT ∧
      u.frame_count = 1 ∧ u.frames = some [upng_frame.zero] ∧
      ¬ FRAME_INDEX_NONE < u.frame_count ∧
      upng_process_chunk u 53 FRAME_INDEX_NONE = .error .out_of_bounds) ∧
    upng_header (upng_new_from_bytes example_fdat_before_fctl) = .error .out_of_bounds ∧
    (∃ u, scan_steps 1 (header_fields (upng_new_from_bytes example_idat_no_frames)
          (example_idat_no_frames.take 29)) 33 FRAME_INDEX_NONE
        = .ok (.next u 53 FRAME_INDEX_NONE) ∧
      chunk_type_at example_idat_no_frames 53 = type_IDAT ∧
      u.frame_count = 0 ∧ u.frames = some [] ∧
      upng_process_chunk u 53 FRAME_INDEX_NONE = .error .out_of_bounds) ∧
    upng_header (upng_new_from_bytes example_idat_no_frames) = .error .out_of_bounds := by
  refine ⟨⟨_, rfl, by decide, by decide, by decide, by decide, ?_⟩, ?_,
    ⟨_, rfl, by decide, by decide, by decide, ?_⟩, ?_⟩
  · rfl
  · rfl
  · rfl
  · rfl

set_option maxRecDepth 1000000 in
/-- C27, the code at failing inputs: `upng_header` accepts `example_idat_before_fctl`, in
which an IDAT chunk of 3 bytes precedes the fcTL chunk of frame 0; the fcTL branch resets
`compressed_size` to 0 and keeps `data_chunk_offset = 53`, the offset of the IDAT. The
re-walk of `upng_decode` starts there and copies the 3 bytes into the block of 0 bytes.
In `example_idat_fctl_fdat` the recorded size is 6 (the fdAT chunk) and the re-walk first
copies the 7 bytes of the IDAT. -/
theorem rewalk_exceeds_compressed_size
    (uz_inflate : Nat → List Byte → Nat → upng_error × Mem) :
    (returned (upng_header (upng_new_from_bytes example_idat_before_fctl))
        = some .UPNG_EOK ∧
      ((result_of (upng_header (upng_new_from_bytes example_idat_before_fctl))).frames.getD
        []).map (fun f => (f.data_chunk_offset, f.compressed_size)) = [(53, 0)] ∧
      (chunk_type_at example_idat_before_fctl 53 = type_IDAT ∧
        be32 example_idat_before_fctl 53 = 3) ∧
      upng_decode uz_inflate (upng_new_from_bytes example_idat_before_fctl)
        = .error .out_of_bounds) ∧
    (returned (upng_header (upng_new_from_bytes example_idat_fctl_fdat)) = some .UPNG_EOK ∧
      ((result_of (upng_header (upng_new_from_bytes example_idat_fctl_fdat))).frames.getD
        []).map (fun f => (f.data_chunk_offset, f.compressed_size)) = [(53, 6)] ∧
      (chunk_type_at example_idat_fctl_fdat 53 = type_IDAT ∧
        be32 example_idat_fctl_fdat 53 = 7) ∧
      upng_decode uz_inflate (upng_new_from_bytes example_idat_fctl_fdat)
        = .error .out_of_bounds) := by
  refine ⟨⟨by decide, by decide, by decide, ?_⟩, by decide, by decide, by decide, ?_⟩
  · rfl
  · rfl

/-! ## Termination of the chunk scan -/

theorem in_budget_pure {α : Type} (a : α) : in_budget (Except.ok a : Except Fault α) :=
  trivial

end AuPNG
